import Mathlib

/-!
# Clinic administration console: appointment lifecycle, filtering and aggregation

A shallow embedding of the client-side logic of the admin / doctor console
(`src/components/CancellationModal.jsx`, `src/pages/Admin/*.jsx`,
`src/pages/Doctor/*.jsx`, `src/context/AdminContext.jsx`).

Conventions of the embedding

* JavaScript strings are Lean `String`s; the string primitives used by the
  source (`trim`, `split`, `parseInt`, `Number.prototype.toString`) are modelled
  on the character list of the string.
* A JavaScript value that may be `undefined` is an `Option`; `a || b` on
  strings treats `undefined` and `''` as falsy.
* An instant is an `Int` number of milliseconds since the epoch.  The local time
  zone is a fixed offset `tz` (milliseconds east of UTC); a local calendar day
  is identified by its day number `(t + tz) / 86400000` (floor division).
* React state is passed explicitly: an effect or event handler is a function
  from the old state to the new one.
-/

namespace Clinic

/-! ## JavaScript string primitives -/

/-- ECMAScript `WhiteSpace` and `LineTerminator` code points, the characters
removed by `String.prototype.trim` and skipped by `parseInt`. -/
def isJsWhiteSpace (c : Char) : Bool :=
  c.val = 0x09 || c.val = 0x0A || c.val = 0x0B || c.val = 0x0C || c.val = 0x0D ||
  c.val = 0x20 || c.val = 0xA0 || c.val = 0x1680 ||
  (0x2000 ≤ c.val && c.val ≤ 0x200A) ||
  c.val = 0x2028 || c.val = 0x2029 || c.val = 0x202F || c.val = 0x205F ||
  c.val = 0x3000 || c.val = 0xFEFF

/-- Character-list form of `String.prototype.trim`. -/
def jsTrimChars (cs : List Char) : List Char :=
  ((cs.dropWhile isJsWhiteSpace).reverse.dropWhile isJsWhiteSpace).reverse

/-- `s.trim()`. -/
def jsTrim (s : String) : String := ⟨jsTrimChars s.data⟩

/-- JavaScript truthiness of a string: every string but `''` is truthy. -/
def jsTruthy (s : String) : Bool := s != ""

/-- Character-list form of `s.split(sep)` for a one-character separator. -/
def jsSplitChars (sep : Char) : List Char → List (List Char)
  | [] => [[]]
  | c :: cs =>
    if c = sep then [] :: jsSplitChars sep cs
    else
      match jsSplitChars sep cs with
      | [] => [[c]]
      | h :: t => (c :: h) :: t

/-- `s.split(sep)` for a one-character separator. -/
def jsSplit (sep : Char) (s : String) : List String :=
  (jsSplitChars sep s.data).map String.mk

/-- Value of a run of decimal digits, most significant first. -/
def digitsValue (cs : List Char) : Nat :=
  cs.foldl (fun acc c => 10 * acc + (c.toNat - '0'.toNat)) 0

/-- `parseInt(s, 10)`: leading white space is skipped, an optional sign is read,
then the longest prefix of decimal digits; `none` stands for `NaN`.  The result
is exact (no rounding to a double), which agrees with JavaScript below `2^53`. -/
def jsParseInt10 (s : String) : Option Int :=
  let cs := s.data.dropWhile isJsWhiteSpace
  let (neg, rest) :=
    match cs with
    | '-' :: r => (true, r)
    | '+' :: r => (false, r)
    | r => (false, r)
  let ds := rest.takeWhile Char.isDigit
  if ds.isEmpty then none
  else some (if neg then - (digitsValue ds : Int) else (digitsValue ds : Int))

/-- `n.toString()` for the result of `parseInt` (`NaN` prints as `"NaN"`; the
decimal form is the one JavaScript prints below `10^21`). -/
def jsNumToString : Option Int → String
  | none => "NaN"
  | some n => toString n

/-- `a || b` on possibly-undefined strings. -/
def jsOr (a : Option String) (b : Option String) : Option String :=
  match a with
  | some s => if jsTruthy s then some s else b
  | none => b

/-- `a || ''` as the last link of an `||` chain: the value as a string. -/
def jsOrEmpty (a : Option String) : String :=
  match a with
  | some s => s
  | none => ""

/-! ## Data model -/

/-- Denormalised doctor snapshot stored on an appointment (`docData`). -/
structure DocData where
  name : Option String := none
  image : Option String := none
  speciality : Option String := none
  specialty : Option String := none
  specialization : Option String := none
deriving DecidableEq, Repr

/-- Denormalised patient snapshot stored on an appointment (`userData`). -/
structure UserData where
  firstName : String := ""
  middleName : String := ""
  lastName : String := ""
deriving DecidableEq, Repr

/-- An appointment as held by the admin and doctor contexts.  `date` is the
epoch-millisecond number held by the `date` field, the instant the booking was
made: `parseInt(app.date)` is that number and `new Date` of it is a valid date.
`slotDate` is the `D_M_YYYY` booking-day string. -/
structure Appointment where
  _id : String := ""
  docId : String := ""
  userId : String := ""
  slotDate : String := ""
  slotTime : String := ""
  date : Int := 0
  cancelled : Bool := false
  isCompleted : Bool := false
  cancellationReason : Option String := none
  docData : Option DocData := none
  userData : UserData := {}
deriving DecidableEq, Repr

/-! ## Admin: All Appointments (`src/pages/Admin/AllAppointments.jsx`) -/

namespace AllAppointments

/-- The comparison key built by the date filter (lines 116-124): `none` when the
picker value does not split into exactly three parts. -/
def searchDate (dateFilter : String) : Option String :=
  match jsSplit '-' dateFilter with
  | [year, p1, p2] =>
    let month := jsNumToString (jsParseInt10 p1)
    let day := jsNumToString (jsParseInt10 p2)
    some (day ++ "_" ++ month ++ "_" ++ year)
  | _ => none

/-- The `FILTER BY DATE` block (lines 114-154) applied to `results`. -/
def applyDateFilter (dateFilter : String) (results : List Appointment) : List Appointment :=
  if jsTruthy dateFilter then
    match searchDate dateFilter with
    | some key => results.filter (fun appointment => appointment.slotDate == key)
    | none => results
  else results

/-- The doctor specialty read by the specialty filter (line 163):
`appt.docData?.speciality || appt.docData?.specialty || ''`. -/
def docSpecialty (appt : Appointment) : String :=
  jsOrEmpty (jsOr (appt.docData.bind (·.speciality)) (appt.docData.bind (·.specialty)))

/-- The `FILTER BY SPECIALTY` block (lines 157-168) applied to `results`. -/
def applySpecialtyFilter (specialtyFilter : String) (results : List Appointment) :
    List Appointment :=
  if jsTruthy specialtyFilter then
    results.filter (fun appt => docSpecialty appt == specialtyFilter)
  else results

/-- The filter effect (lines 95-172): the new value of the `filteredAppointments`
state.  With an empty collection the effect returns early and the state keeps
its previous value. -/
def filterEffect (appointments : List Appointment) (dateFilter specialtyFilter : String)
    (filteredAppointments : List Appointment) : List Appointment :=
  if appointments.length = 0 then filteredAppointments
  else applySpecialtyFilter specialtyFilter (applyDateFilter dateFilter appointments)

/-- The row template of lines 275-309 mapped over the rows: each row reads
`item.docData.image` and `item.docData.name` without a guard (line 283), so a
row without a doctor snapshot makes the render throw a `TypeError`, which is the
result `none`; otherwise the rows are shown in their order. -/
def renderRows (rows : List Appointment) : Option (List Appointment) :=
  if rows.all (fun item => item.docData.isSome) then some rows else none

/-- The rows rendered (lines 274-310): the filtered results when a filter is
active, the collection otherwise; `none` when the render throws. -/
def displayedRows (appointments filteredAppointments : List Appointment)
    (dateFilter specialtyFilter : String) : Option (List Appointment) :=
  renderRows
    (if jsTruthy dateFilter || jsTruthy specialtyFilter then filteredAppointments
     else appointments)

end AllAppointments

/-! ## Cancellation modal (`src/components/CancellationModal.jsx`) -/

namespace CancellationModal

/-- The `disabled` attribute of the confirm button (line 49): `!reason.trim()`. -/
def confirmDisabled (reason : String) : Bool := !jsTruthy (jsTrim reason)

/-- Lines 8-11, `handleSubmit`: the arguments `onConfirm` is invoked with, in
order, and the new value of the `reason` state. -/
def handleSubmit (reason : String) : List String × String := ([reason], "")

/-- A press on the confirm button: a disabled button fires no handler. -/
def pressConfirm (reason : String) : List String × String :=
  if confirmDisabled reason then ([], reason) else handleSubmit reason

end CancellationModal

/-- A call of the context method `cancelAppointment(appointmentId,
cancellationReason)`; `none` is an omitted (`undefined`) reason argument. -/
structure CancelCall where
  appointmentId : String
  cancellationReason : Option String
deriving DecidableEq, Repr

/-- State of a screen that wires the cancellation modal (admin All
Appointments lines 23-24 and 314-328, doctor Appointments lines 12-13 and
288-302), together with the `reason` state of the modal component, which stays
mounted while the screen is, and the cancellation calls issued so far. -/
structure ModalScreen where
  showCancellationModal : Bool := false
  selectedAppointmentId : Option String := none
  reason : String := ""
  calls : List CancelCall := []
deriving DecidableEq, Repr

/-- User actions on such a screen. -/
inductive ModalEvent where
  /-- The cancel icon of a pending row. -/
  | clickCancelIcon (appointmentId : String)
  /-- Editing the text area of the modal. -/
  | typeReason (text : String)
  /-- The `Confirm Cancellation` button of the modal. -/
  | clickConfirm
  /-- The `Cancel` button of the modal. -/
  | clickDismiss
deriving DecidableEq, Repr

namespace ModalScreen

/-- The `onConfirm` callback passed by the screen (lines 320-326). -/
def onConfirm (s : ModalScreen) (reason : String) : ModalScreen :=
  match s.selectedAppointmentId with
  | some id =>
    if jsTruthy id then
      { s with calls := s.calls ++ [⟨id, some reason⟩],
               showCancellationModal := false, selectedAppointmentId := none }
    else s
  | none => s

/-- The `onClose` callback passed by the screen (lines 316-319). -/
def onClose (s : ModalScreen) : ModalScreen :=
  { s with showCancellationModal := false, selectedAppointmentId := none }

/-- One user action.  The controls of the modal exist only while it is open
(`if (!isOpen) return null`). -/
def step (s : ModalScreen) : ModalEvent → ModalScreen
  | .clickCancelIcon id =>
    { s with selectedAppointmentId := some id, showCancellationModal := true }
  | .typeReason text =>
    if s.showCancellationModal then { s with reason := text } else s
  | .clickConfirm =>
    if s.showCancellationModal then
      let (args, reason') := CancellationModal.pressConfirm s.reason
      { args.foldl onConfirm s with reason := reason' }
    else s
  | .clickDismiss =>
    if s.showCancellationModal then onClose s else s

/-- A sequence of user actions from a state. -/
def run (s : ModalScreen) (es : List ModalEvent) : ModalScreen := es.foldl step s

end ModalScreen

/-- The cancel button of a pending row on the admin Dashboard
(`Dashboard.jsx` line 287) and on the doctor Dashboard (`DoctorDashboard.jsx`
line 300): `onClick={() => cancelAppointment(item._id)}`. -/
def dashboardClickCancel (calls : List CancelCall) (item : Appointment) : List CancelCall :=
  calls ++ [⟨item._id, none⟩]

/-- A reason that is present and not blank, as the specification requires of a
cancellation call. -/
def CancelCall.hasReason (c : CancelCall) : Bool :=
  match c.cancellationReason with
  | some r => jsTruthy (jsTrim r)
  | none => false

/-! ## Date-picker values -/

/-- Two-digit zero-padded decimal. -/
def pad2 (n : Nat) : String := if n < 10 then "0" ++ toString n else toString n

/-- Decimal zero-padded to at least four digits. -/
def pad4 (n : Nat) : String :=
  if n < 10 then "000" ++ toString n
  else if n < 100 then "00" ++ toString n
  else if n < 1000 then "0" ++ toString n
  else toString n

/-- The value an HTML `<input type="date">` reports for year `y`, month `m`,
day `d`: `YYYY-MM-DD`, the year padded to four digits. -/
def pickerValue (y m d : Nat) : String := pad4 y ++ "-" ++ pad2 m ++ "-" ++ pad2 d

/-- The storage encoding as the specification words it: day, month and year each
in minimal decimal form, joined by underscores. -/
def minimalKey (y m d : Nat) : String :=
  toString d ++ "_" ++ toString m ++ "_" ++ toString y

/-! ## Local calendar -/

/-- Milliseconds in a day. -/
def msPerDay : Int := 86400000

/-- Day number of the local calendar day an instant falls on. -/
def localDay (tz t : Int) : Int := (t + tz) / msPerDay

/-- Local midnight at the start of a calendar day. -/
def startOfLocalDay (tz day : Int) : Int := day * msPerDay - tz

/-- date-fns `subDays(t, n)` in a fixed-offset zone. -/
def subDays (t : Int) (n : Nat) : Int := t - n * msPerDay

/-- Year, month (1-12) and day of month of a day number (proleptic Gregorian
calendar, day 0 = 1970-01-01). -/
def civilFromDays (z0 : Int) : Int × Int × Int :=
  let z := z0 + 719468
  let era := z / 146097
  let doe := z % 146097
  let yoe := (doe - doe / 1460 + doe / 36524 - doe / 146096) / 365
  let y := yoe + era * 400
  let doy := doe - (365 * yoe + yoe / 4 - yoe / 100)
  let mp := (5 * doy + 2) / 153
  let d := doy - (153 * mp + 2) / 5 + 1
  let m := if mp < 10 then mp + 3 else mp - 9
  (if m ≤ 2 then y + 1 else y, m, d)

/-- Day number of a year, month (1-12) and day of month. -/
def daysFromCivil (y0 m d : Int) : Int :=
  let y := if m ≤ 2 then y0 - 1 else y0
  let era := y / 400
  let yoe := y % 400
  let doy := (153 * (if m > 2 then m - 3 else m + 9) + 2) / 5 + d - 1
  let doe := yoe * 365 + yoe / 4 - yoe / 100 + doy
  era * 146097 + doe - 719468

/-- English month abbreviation (`MMM`). -/
def monthAbbrev (m : Int) : String :=
  (["Jan", "Feb", "Mar", "Apr", "May", "Jun", "Jul", "Aug", "Sep", "Oct", "Nov", "Dec"].get?
    (m - 1).toNat).getD ""

/-- English weekday abbreviation (`EEE`) of a day number; day 0 was a Thursday. -/
def weekdayAbbrev (day : Int) : String :=
  (["Sun", "Mon", "Tue", "Wed", "Thu", "Fri", "Sat"].get? ((day + 4) % 7).toNat).getD ""

/-- The `yyyy-MM-dd` rendering of an instant by date-fns `format`.  The string
names the local calendar day and nothing else, so it is represented by the day
number it names; it is never an integer-like property key. -/
structure DayKey where
  day : Int
deriving DecidableEq, Repr

/-- `format(t, 'yyyy-MM-dd')`. -/
def formatYMD (tz t : Int) : DayKey := ⟨localDay tz t⟩

/-- `parseISO(key)` of a `yyyy-MM-dd` string: local midnight of that day. -/
def parseISO (tz : Int) (key : DayKey) : Int := startOfLocalDay tz key.day

/-- The `MMM dd` label of a calendar day. -/
def dayLabel (day : Int) : String :=
  monthAbbrev (civilFromDays day).2.1 ++ " " ++ pad2 (civilFromDays day).2.2.toNat

/-- `format(t, 'MMM dd')`. -/
def formatMMMdd (tz t : Int) : String := dayLabel (localDay tz t)

/-- date-fns `isSameDay(a, b)`. -/
def isSameDay (tz a b : Int) : Bool := localDay tz a == localDay tz b

/-- A JavaScript object used as a dictionary whose keys are not integer-like:
entries in insertion order, assignment to an existing key keeps its place. -/
def objSet {κ ν : Type} [BEq κ] (o : List (κ × ν)) (k : κ) (v : ν) : List (κ × ν) :=
  if o.any (fun e => e.1 == k) then o.map (fun e => if e.1 == k then (k, v) else e)
  else o ++ [(k, v)]

/-- Reading a property of such an object, `o[k]`: `none` stands for `undefined`.
Keys are identifiers and labels sent by the server; they are taken not to be
names inherited from `Object.prototype`. -/
def objGet {κ ν : Type} [BEq κ] (o : List (κ × ν)) (k : κ) : Option ν :=
  (o.find? (fun e => e.1 == k)).map (·.2)

/-- `Object.values(o)`. -/
def objValues {κ ν : Type} (o : List (κ × ν)) : List ν := o.map (·.2)

/-- The counting idiom `acc[k] = (acc[k] || 0) + 1`. -/
def objIncr (o : List (String × Nat)) (k : String) : List (String × Nat) :=
  objSet o k ((objGet o k).getD 0 + 1)

/-- `arr.sort(compare)`.  The sort is stable; `le a b` says that
`compare(a, b)` is not positive, so that `a` may stay before `b`. -/
def jsSort {α : Type} (le : α → α → Bool) (l : List α) : List α :=
  l.insertionSort (fun a b => le a b = true)

/-- `a || d` for a possibly-undefined string and a default. -/
def jsOrDefault (a : Option String) (d : String) : String :=
  match a with
  | some s => if jsTruthy s then s else d
  | none => d

/-- Primary collation weight of a character in the root locale, on ASCII text:
white space sorts before punctuation and symbols, these before digits, digits
before letters, and a letter has the same primary weight in both cases.  The
order of two punctuation characters is taken from their code points. -/
def collationPrimary (c : Char) : Nat :=
  if isJsWhiteSpace c then 0
  else if c.isDigit then 2 * 0x200000 + c.toNat
  else if c.isAlpha then 3 * 0x200000 + c.toLower.toNat
  else 0x200000 + c.toNat

/-- Tie-breaking weight: a lower-case letter sorts before its upper-case form. -/
def collationTertiary (c : Char) : Nat := if c.isUpper then 1 else 0

/-- Lexicographic comparison of two weight sequences: `-1`, `0` or `1`. -/
def lexCompare : List Nat → List Nat → Int
  | [], [] => 0
  | [], _ :: _ => -1
  | _ :: _, [] => 1
  | x :: xs, y :: ys => if x < y then -1 else if y < x then 1 else lexCompare xs ys

/-- `a.localeCompare(b)` on ASCII text. -/
def jsLocaleCompare (a b : String) : Int :=
  if lexCompare (a.data.map collationPrimary) (b.data.map collationPrimary) ≠ 0 then
    lexCompare (a.data.map collationPrimary) (b.data.map collationPrimary)
  else lexCompare (a.data.map collationTertiary) (b.data.map collationTertiary)

/-- `s.replace(/(AM|PM)/, ' $1')` on the character list: a space is put before
the first `AM` or `PM`. -/
def spaceBeforeMeridiem : List Char → List Char
  | [] => []
  | c :: cs =>
    if (c = 'A' ∨ c = 'P') ∧ cs.head? = some 'M' then ' ' :: c :: cs
    else c :: spaceBeforeMeridiem cs

/-- The time-of-day part of the engine's legacy date parser, in minutes after
midnight, for the shapes `H:MM`, `H:MM AM` and `H:MM PM` with any number of
spaces before the meridiem; with a meridiem the hour is read modulo 12 and `PM`
adds 12.  `none` is an invalid date; other shapes are not modelled and read as
invalid. -/
def parseClock (cs : List Char) : Option Nat :=
  let hs := cs.takeWhile Char.isDigit
  match cs.dropWhile Char.isDigit with
  | ':' :: r =>
    let ms := r.takeWhile Char.isDigit
    let h := digitsValue hs
    let m := digitsValue ms
    if hs.isEmpty || ms.isEmpty || decide (59 < m) then none
    else
      match (r.dropWhile Char.isDigit).dropWhile (fun c => c = ' ') with
      | [] => if h ≤ 23 then some (h * 60 + m) else none
      | ['A', 'M'] => if h ≤ 12 then some (h % 12 * 60 + m) else none
      | ['P', 'M'] => if h ≤ 12 then some ((h % 12 + 12) * 60 + m) else none
      | _ => none
  | _ => none

/-- Milliseconds between local midnight of 1 January 2000 and
`new Date('2000/01/01 ' + time.replace(/(AM|PM)/, ' $1'))`; `none` for an
invalid date. -/
def slotClockMs (time : String) : Option Int :=
  (parseClock (spaceBeforeMeridiem time.data)).map (fun m => (m : Int) * 60000)

/-! ## Admin: Analytics (`src/pages/Admin/AdminAnalytics.jsx`) -/

/-- A doctor record of the admin context (only its presence is used here). -/
structure Doctor where
  _id : String := ""
  name : String := ""
  speciality : String := ""
deriving DecidableEq, Repr

/-- The dashboard summary returned by the server (`dashData`). -/
structure DashData where
  doctors : Nat := 0
  patients : Nat := 0
  appointments : Nat := 0
  latestAppointments : List Appointment := []
deriving DecidableEq, Repr

namespace AdminAnalytics

/-- The `systemStats` object (lines 42-49). -/
structure SystemStats where
  totalAppointments : Nat
  totalDoctors : Nat
  totalPatients : Nat
  completedAppointments : Nat
  cancelledAppointments : Nat
  activeAppointments : Nat
deriving DecidableEq, Repr

/-- Lines 42-49. -/
def systemStats (appointments : List Appointment) (doctors : List Doctor)
    (dashData : DashData) : SystemStats :=
  { totalAppointments := appointments.length
    totalDoctors := doctors.length
    totalPatients := dashData.patients
    completedAppointments := (appointments.filter (fun app => app.isCompleted)).length
    cancelledAppointments := (appointments.filter (fun app => app.cancelled)).length
    activeAppointments :=
      (appointments.filter (fun app => !app.isCompleted && !app.cancelled)).length }

/-- The value stored under a day in `appointmentsByDay` (lines 63-67). -/
structure DayStats where
  total : Nat
  completed : Nat
  cancelled : Nat
deriving DecidableEq, Repr

/-- An element of `appointmentTrends` (lines 70-75). -/
structure TrendPoint where
  date : String
  total : Nat
  completed : Nat
  cancelled : Nat
deriving DecidableEq, Repr

/-- Lines 53-56: the keys of the last seven days, oldest first. -/
def last7Days (tz now : Int) : List DayKey :=
  ((List.range 7).map (fun i => formatYMD tz (subDays now i))).reverse

/-- Lines 59-61: the appointments whose `date` formats to the day key. -/
def dayAppointments (appointments : List Appointment) (tz : Int) (day : DayKey) :
    List Appointment :=
  appointments.filter (fun app => formatYMD tz app.date == day)

/-- Lines 52-68: the `appointmentsByDay` object after the `forEach`. -/
def appointmentsByDay (appointments : List Appointment) (tz now : Int) :
    List (DayKey × DayStats) :=
  (last7Days tz now).foldl
    (fun acc day =>
      objSet acc day
        { total := (dayAppointments appointments tz day).length
          completed :=
            ((dayAppointments appointments tz day).filter (fun app => app.isCompleted)).length
          cancelled :=
            ((dayAppointments appointments tz day).filter (fun app => app.cancelled)).length })
    []

/-- Lines 70-75. -/
def appointmentTrends (appointments : List Appointment) (tz now : Int) : List TrendPoint :=
  (appointmentsByDay appointments tz now).map
    (fun e =>
      { date := formatMMMdd tz (parseISO tz e.1)
        total := e.2.total
        completed := e.2.completed
        cancelled := e.2.cancelled })

/-- The value stored under a doctor in `doctorStats` (lines 82-89). -/
structure DoctorStat where
  name : String
  specialization : String
  completed : Nat
  cancelled : Nat
  pending : Nat
  total : Nat
deriving DecidableEq, Repr

/-- Lines 81-89: the entry created for a doctor seen for the first time, from
`app.docData || {}`. -/
def freshDoctorStat (app : Appointment) : DoctorStat :=
  { name := jsOrDefault (app.docData.bind (·.name)) "Unknown"
    specialization :=
      jsOrDefault (jsOr (app.docData.bind (·.specialization)) (app.docData.bind (·.speciality)))
        "General"
    completed := 0
    cancelled := 0
    pending := 0
    total := 0 }

/-- Lines 91-94: the counters of an entry after one more appointment. -/
def bumpDoctorStat (app : Appointment) (e : DoctorStat) : DoctorStat :=
  { e with
    total := e.total + 1
    completed := if app.isCompleted then e.completed + 1 else e.completed
    cancelled := if !app.isCompleted && app.cancelled then e.cancelled + 1 else e.cancelled
    pending := if !app.isCompleted && !app.cancelled then e.pending + 1 else e.pending }

/-- Lines 78-96: the `doctorStats` object, keyed by `docId`. -/
def doctorStats (appointments : List Appointment) : List (String × DoctorStat) :=
  appointments.foldl
    (fun acc app =>
      objSet acc app.docId
        (bumpDoctorStat app ((objGet acc app.docId).getD (freshDoctorStat app))))
    []

/-- Lines 98-100: sorted by `b.total - a.total`, first ten. -/
def doctorPerformance (appointments : List Appointment) : List DoctorStat :=
  (jsSort (fun a b => decide ((b.total : Int) - (a.total : Int) ≤ 0))
    (objValues (doctorStats appointments))).take 10

/-- Line 105: `app.docData?.specialization || app.docData?.speciality || 'General'`. -/
def specialtyLabel (app : Appointment) : String :=
  jsOrDefault (jsOr (app.docData.bind (·.specialization)) (app.docData.bind (·.speciality)))
    "General"

/-- Lines 103-107: the `specialtyCount` object. -/
def specialtyCount (appointments : List Appointment) : List (String × Nat) :=
  appointments.foldl (fun acc app => objIncr acc (specialtyLabel app)) []

/-- A `name` / `value` pair of `specialtyDistribution`. -/
structure NamedValue where
  name : String
  value : Nat
deriving DecidableEq, Repr

/-- Lines 109-111. -/
def specialtyDistribution (appointments : List Appointment) : List NamedValue :=
  ((specialtyCount appointments).map (fun e => ({ name := e.1, value := e.2 } : NamedValue))).filter
    (fun item => item.name != "undefined" && item.name != "null")

/-- Lines 114-120: the `timeSlots` object; an empty `slotTime` is skipped. -/
def timeSlots (appointments : List Appointment) : List (String × Nat) :=
  appointments.foldl
    (fun acc app => if jsTruthy app.slotTime then objIncr acc app.slotTime else acc) []

/-- An element of `appointmentTimeDistribution`. -/
structure TimeCount where
  time : String
  count : Nat
deriving DecidableEq, Repr

/-- Lines 122-127: sorted by `a.time.localeCompare(b.time)`. -/
def appointmentTimeDistribution (appointments : List Appointment) : List TimeCount :=
  jsSort (fun a b => decide (jsLocaleCompare a.time b.time ≤ 0))
    ((timeSlots appointments).map (fun e => ({ time := e.1, count := e.2 } : TimeCount)))

end AdminAnalytics

/-! ## Doctor: Analytics (`src/pages/Doctor/DoctorAnalytics.jsx`) -/

namespace DoctorAnalytics

/-- A `name` / `value` pair of `statusDistribution`. -/
structure NamedValue where
  name : String
  value : Nat
deriving DecidableEq, Repr

/-- An element of `appointmentTrends` (lines 119-136). -/
structure TrendPoint where
  date : String
  appointments : Nat
  cancelled : Nat
  completed : Nat
deriving DecidableEq, Repr

/-- An element of `timeDistribution` (lines 147-150). -/
structure TimeSlot where
  time : String
  appointments : Nat
deriving DecidableEq, Repr

/-- The part of the `analytics` state followed here (lines 15-21). -/
structure Analytics where
  statusDistribution : List NamedValue := []
  returnRateData : List NamedValue := []
  appointmentTrends : List TrendPoint := []
  timeDistribution : List TimeSlot := []
deriving DecidableEq, Repr

/-- Local midnight of the first day of the month of `today` (`startOfMonth`). -/
def startOfMonth (tz today : Int) : Int :=
  startOfLocalDay tz (localDay tz today - ((civilFromDays (localDay tz today)).2.2 - 1))

/-- `today.getFullYear()`. -/
def getFullYear (tz t : Int) : Int := (civilFromDays (localDay tz t)).1

/-- `t.getMonth()`, January is 0. -/
def getMonth (tz t : Int) : Int := (civilFromDays (localDay tz t)).2.1 - 1

/-- `new Date(year, month, 1)` for `month` in 0..11. -/
def firstOfMonth (tz year month : Int) : Int :=
  startOfLocalDay tz (daysFromCivil year (month + 1) 1)

/-- Lines 40-55: the start of the window. -/
def startDate (timeFrame : String) (tz today : Int) : Int :=
  if timeFrame = "week" then subDays today 6
  else if timeFrame = "month" then startOfMonth tz today
  else if timeFrame = "year" then firstOfMonth tz (getFullYear tz today) 0
  else subDays today 6

/-- Lines 58-61: the appointments of the window. -/
def filteredAppointments (appointments : List Appointment) (timeFrame : String)
    (tz today : Int) : List Appointment :=
  appointments.filter
    (fun app => decide (startDate timeFrame tz today ≤ app.date) && decide (app.date ≤ today))

/-- Lines 64-74. -/
def statusDistribution (filtered : List Appointment) : List NamedValue :=
  [ { name := "Approved", value := (filtered.filter (fun app => app.isCompleted)).length },
    { name := "Cancelled", value := (filtered.filter (fun app => app.cancelled)).length },
    { name := "Pending",
      value := (filtered.filter (fun app => !app.isCompleted && !app.cancelled)).length } ]

/-- `eachDayOfInterval({ start, end })`: local midnight of every day from the
day of `start` to the day of `end`. -/
def eachDayOfInterval (tz start stop : Int) : List Int :=
  (List.range (localDay tz stop - localDay tz start + 1).toNat).map
    (fun i => startOfLocalDay tz (localDay tz start + i))

/-- Lines 92-108: the bucket dates. -/
def dateRange (timeFrame : String) (tz today : Int) : List Int :=
  if timeFrame = "week" then (List.range 7).map (fun i => subDays today (6 - i))
  else if timeFrame = "month" then eachDayOfInterval tz (startDate timeFrame tz today) today
  else if timeFrame = "year" then
    (List.range 12).map (fun i => firstOfMonth tz (getFullYear tz today) i)
  else (List.range 7).map (fun i => subDays today (6 - i))

/-- Lines 92-108: the label of a bucket date (`EEE`, `dd` or `MMM`). -/
def formatBucket (timeFrame : String) (tz date : Int) : String :=
  if timeFrame = "month" then pad2 (civilFromDays (localDay tz date)).2.2.toNat
  else if timeFrame = "year" then monthAbbrev (civilFromDays (localDay tz date)).2.1
  else weekdayAbbrev (localDay tz date)

/-- Lines 111-117: whether an appointment belongs to the bucket of `date`. -/
def inBucket (timeFrame : String) (tz date : Int) (app : Appointment) : Bool :=
  if timeFrame = "year" then
    getMonth tz app.date == getMonth tz date && getFullYear tz app.date == getFullYear tz date
  else isSameDay tz app.date date

/-- Lines 110-137. -/
def appointmentTrends (filtered : List Appointment) (timeFrame : String) (tz today : Int) :
    List TrendPoint :=
  (dateRange timeFrame tz today).map
    (fun date =>
      { date := formatBucket timeFrame tz date
        appointments := (filtered.filter (fun app => inBucket timeFrame tz date app)).length
        cancelled :=
          (filtered.filter (fun app => app.cancelled && inBucket timeFrame tz date app)).length
        completed :=
          (filtered.filter (fun app => app.isCompleted && inBucket timeFrame tz date app)).length })

/-- Lines 77-81: the `patientVisits` object, keyed by `userId`. -/
def patientVisits (filtered : List Appointment) : List (String × Nat) :=
  filtered.foldl (fun acc app => objIncr acc app.userId) []

/-- Lines 83-86. -/
def returnRateData (filtered : List Appointment) : List NamedValue :=
  [ { name := "First-time",
      value := ((objValues (patientVisits filtered)).filter (fun visits => visits == 1)).length },
    { name := "Returning",
      value :=
        ((objValues (patientVisits filtered)).filter (fun visits => decide (visits > 1))).length } ]

/-- Lines 140-144: the `timeSlots` object, keyed by `slotTime`. -/
def timeSlots (filtered : List Appointment) : List (String × Nat) :=
  filtered.foldl (fun acc app => objIncr acc app.slotTime) []

/-- Lines 151-156, the comparator: the difference of the two parsed dates is
not positive; a `NaN` difference counts as zero. -/
def timeNotAfter (a b : TimeSlot) : Bool :=
  match slotClockMs a.time, slotClockMs b.time with
  | some x, some y => decide (x - y ≤ 0)
  | _, _ => true

/-- Lines 146-156. -/
def timeDistribution (filtered : List Appointment) : List TimeSlot :=
  jsSort timeNotAfter
    ((timeSlots filtered).map (fun e => ({ time := e.1, appointments := e.2 } : TimeSlot)))

/-- Lines 38-179, `processAnalytics`: the value passed to `setAnalytics`. -/
def processAnalytics (appointments : List Appointment) (timeFrame : String)
    (tz today : Int) : Analytics :=
  { statusDistribution :=
      statusDistribution (filteredAppointments appointments timeFrame tz today)
    returnRateData := returnRateData (filteredAppointments appointments timeFrame tz today)
    appointmentTrends :=
      appointmentTrends (filteredAppointments appointments timeFrame tz today) timeFrame tz
        today
    timeDistribution :=
      timeDistribution (filteredAppointments appointments timeFrame tz today) }

/-- The initial `analytics` state (lines 15-21). -/
def initialAnalytics : Analytics := {}

/-- The recompute effect (lines 32-36), run when `appointments` or `timeFrame`
changes: `processAnalytics` runs only for a non-empty list, otherwise the
state is left as it is. -/
def recomputeEffect (analytics : Analytics) (appointments : List Appointment)
    (timeFrame : String) (tz today : Int) : Analytics :=
  if appointments.length > 0 then processAnalytics appointments timeFrame tz today
  else analytics

end DoctorAnalytics

/-! ## Doctor: Appointments (`src/pages/Doctor/DoctorAppointments.jsx`) -/

/-- The lower-case mapping of Unicode for one character of the blocks Basic
Latin, Latin-1 Supplement and Latin Extended-A (U+0000 to U+017F); the capital I
with dot above (U+0130) becomes `i` followed by the combining dot above.  A
character outside these blocks is returned as it is. -/
def lowerCaseChars (c : Char) : List Char :=
  let n := c.toNat
  if 0x41 ≤ n ∧ n ≤ 0x5A then [Char.ofNat (n + 32)]
  else if (0xC0 ≤ n ∧ n ≤ 0xDE) ∧ n ≠ 0xD7 then [Char.ofNat (n + 32)]
  else if n = 0x130 then ['i', Char.ofNat 0x307]
  else if n = 0x178 then [Char.ofNat 0xFF]
  else if ((0x100 ≤ n ∧ n ≤ 0x137) ∨ (0x14A ≤ n ∧ n ≤ 0x177)) ∧ n % 2 = 0 then
    [Char.ofNat (n + 1)]
  else if ((0x139 ≤ n ∧ n ≤ 0x148) ∨ (0x179 ≤ n ∧ n ≤ 0x17E)) ∧ n % 2 = 1 then
    [Char.ofNat (n + 1)]
  else [c]

/-- `s.toLowerCase()` for a string whose cased letters all lie in the blocks
Basic Latin, Latin-1 Supplement and Latin Extended-A.  It is used on concrete
strings of these blocks only; statements about every string take the engine's
`toLowerCase` as a parameter instead. -/
def jsToLowerCase (s : String) : String := ⟨s.data.flatMap lowerCaseChars⟩

/-- `s.includes(t)`. -/
def jsIncludes (s t : String) : Bool := decide (t.data <:+: s.data)

namespace DoctorAppointments

/-- Lines 22-37.  `toLowerCase` is the engine's `String.prototype.toLowerCase`
and `slotDateFormat` the display formatter supplied by the application context;
neither is part of the sources and both are parameters. -/
def filteredAppointments (toLowerCase slotDateFormat : String → String)
    (appointments : List Appointment) (activeTab searchTerm : String) : List Appointment :=
  appointments.filter (fun app =>
    if activeTab = "upcoming" ∧ (app.cancelled || app.isCompleted) then false
    else if activeTab = "approved" ∧ (!app.isCompleted || app.cancelled) then false
    else if activeTab = "cancelled" ∧ !app.cancelled then false
    else if jsTrim searchTerm = "" then true
    else
      let fullName := toLowerCase
        (app.userData.lastName ++ " " ++ app.userData.firstName ++ " " ++ app.userData.middleName)
      let date := toLowerCase (slotDateFormat app.slotDate)
      let time := toLowerCase app.slotTime
      let searchLower := toLowerCase searchTerm
      jsIncludes fullName searchLower || jsIncludes date searchLower ||
        jsIncludes time searchLower)

/-- Line 40. -/
def upcomingCount (appointments : List Appointment) : Nat :=
  (appointments.filter (fun app => !app.cancelled && !app.isCompleted)).length

/-- Line 41. -/
def approvedCount (appointments : List Appointment) : Nat :=
  (appointments.filter (fun app => !app.cancelled && app.isCompleted)).length

/-- Line 42. -/
def cancelledCount (appointments : List Appointment) : Nat :=
  (appointments.filter (fun app => app.cancelled)).length

/-- The `Total` card (line 77). -/
def totalCount (appointments : List Appointment) : Nat := appointments.length

end DoctorAppointments

/-! ## Admin: Dashboard (`src/pages/Admin/Dashboard.jsx`) -/

namespace Dashboard

/-- Line 42: `dashData?.appointments || 0`. -/
def totalAppointments (dashData : Option DashData) : Nat :=
  match dashData with
  | some d => d.appointments
  | none => 0

/-- Line 43. -/
def completedAppointments (dashData : Option DashData) : Nat :=
  match dashData with
  | some d => (d.latestAppointments.filter (fun app => app.isCompleted)).length
  | none => 0

/-- Line 44. -/
def cancelledAppointments (dashData : Option DashData) : Nat :=
  match dashData with
  | some d => (d.latestAppointments.filter (fun app => app.cancelled)).length
  | none => 0

/-- Line 45. -/
def pendingAppointments (dashData : Option DashData) : Nat :=
  match dashData with
  | some d => (d.latestAppointments.filter (fun app => !app.isCompleted && !app.cancelled)).length
  | none => 0

/-- The value stored under a doctor in `doctorStats` (lines 52-61). -/
structure DoctorStat where
  id : String
  name : Option String
  image : Option String
  speciality : String
  totalAppointments : Nat
  completedAppointments : Nat
  cancelledAppointments : Nat
  pendingAppointments : Nat
deriving DecidableEq, Repr

/-- Lines 52-61: the entry created for a doctor seen for the first time, from
the snapshot `app.docData`. -/
def freshDoctorStat (app : Appointment) (docData : DocData) : DoctorStat :=
  { id := app.docId
    name := docData.name
    image := docData.image
    speciality := jsOrDefault docData.speciality "General Practitioner"
    totalAppointments := 0
    completedAppointments := 0
    cancelledAppointments := 0
    pendingAppointments := 0 }

/-- Lines 63-66: the counters of an entry after one more appointment. -/
def bumpDoctorStat (app : Appointment) (e : DoctorStat) : DoctorStat :=
  { e with
    totalAppointments := e.totalAppointments + 1
    completedAppointments :=
      if app.isCompleted then e.completedAppointments + 1 else e.completedAppointments
    cancelledAppointments :=
      if !app.isCompleted && app.cancelled then e.cancelledAppointments + 1
      else e.cancelledAppointments
    pendingAppointments :=
      if !app.isCompleted && !app.cancelled then e.pendingAppointments + 1
      else e.pendingAppointments }

/-- Lines 49-68, one iteration of the `reduce`.  For a doctor seen for the first
time the fields of `app.docData` are read without a guard: with a missing
snapshot the read throws a `TypeError`, which is the result `none`. -/
def doctorStatsStep (acc : List (String × DoctorStat)) (app : Appointment) :
    Option (List (String × DoctorStat)) :=
  match objGet acc app.docId with
  | some e => some (objSet acc app.docId (bumpDoctorStat app e))
  | none =>
    match app.docData with
    | some docData => some (objSet acc app.docId (bumpDoctorStat app (freshDoctorStat app docData)))
    | none => none

/-- Lines 49-68: the `doctorStats` object, or `none` when the computation
throws. -/
def doctorStats (appointments : List Appointment) : Option (List (String × DoctorStat)) :=
  appointments.foldlM doctorStatsStep []

/-- Lines 71-73: sorted by `b.totalAppointments - a.totalAppointments`, first
three. -/
def mostSelectedDoctors (appointments : List Appointment) : Option (List DoctorStat) :=
  (doctorStats appointments).map (fun stats =>
    (jsSort (fun a b => decide ((b.totalAppointments : Int) - (a.totalAppointments : Int) ≤ 0))
      (objValues stats)).take 3)

/-- The figures of the stats cards (lines 190-216). -/
structure StatsCards where
  total : Nat
  approved : Nat
  cancelled : Nat
  pending : Nat
deriving DecidableEq, Repr

/-- The stats cards as the page shows them; `none` when no cards are shown.
Without a summary the component renders nothing (line 114).  The loading state
ends only in the effect of lines 25-38, which runs for a non-empty collection
and reads `app.docData.name` of its first ten appointments; the reduce of lines
49-68 runs on every render; the rows of the first six latest appointments read
`item.docData.image` (line 251).  Each of these reads throws on a missing
snapshot, and then nothing is shown. -/
def statsCards (appointments : List Appointment) (dashData : Option DashData) :
    Option StatsCards :=
  match dashData with
  | none => none
  | some d =>
    if appointments.length > 0 ∧
        (appointments.take 10).all (fun app => app.docData.isSome) = true ∧
        (doctorStats appointments).isSome = true ∧
        (d.latestAppointments.take 6).all (fun item => item.docData.isSome) = true then
      some
        { total := totalAppointments dashData
          approved := completedAppointments dashData
          cancelled := cancelledAppointments dashData
          pending := pendingAppointments dashData }
    else none

end Dashboard

/-! ## Appointment lists: the status cell of a row -/

/-- The four screens that list appointments. -/
inductive Screen where
  /-- `src/pages/Admin/AllAppointments.jsx`, lines 286-308. -/
  | adminAllAppointments
  /-- `src/pages/Admin/Dashboard.jsx`, lines 270-300. -/
  | adminDashboard
  /-- `src/pages/Doctor/DoctorAppointments.jsx`, lines 244-280. -/
  | doctorAppointments
  /-- `src/pages/Doctor/DoctorDashboard.jsx`, lines 289-316. -/
  | doctorDashboard
deriving DecidableEq, Repr

/-- The two lifecycle actions of the console. -/
inductive LifecycleAction where
  | approve
  | cancel
deriving DecidableEq, Repr

/-- What the status cell of a row shows: a `Cancelled` label, an `Approved`
label, or the action buttons. -/
inductive StatusCell where
  | cancelledLabel
  | approvedLabel
  | actions (offered : List LifecycleAction)
deriving DecidableEq, Repr

/-- The status cell of a row, `item.cancelled ? ... : item.isCompleted ? ... :
buttons`: the admin screens offer the cancel control, the doctor screens the
cancel and the approve control. -/
def statusCell (screen : Screen) (item : Appointment) : StatusCell :=
  if item.cancelled then .cancelledLabel
  else if item.isCompleted then .approvedLabel
  else
    match screen with
    | .adminAllAppointments => .actions [.cancel]
    | .adminDashboard => .actions [.cancel]
    | .doctorAppointments => .actions [.cancel, .approve]
    | .doctorDashboard => .actions [.cancel, .approve]

/-- The action controls a row offers. -/
def offeredActions (screen : Screen) (item : Appointment) : List LifecycleAction :=
  match statusCell screen item with
  | .actions offered => offered
  | _ => []

/-- Modelled from the spec: the doctor context methods and the server behind
`completeAppointment` / `cancelAppointment` are not part of the sources; by
section 4.1 a successful approve sets `isCompleted` and a successful cancel sets
`cancelled`. -/
def applyAction : LifecycleAction → Appointment → Appointment
  | .approve, item => { item with isCompleted := true }
  | .cancel, item => { item with cancelled := true }

/-- One step of the lifecycle: the action fires only if the screen offers it for
the row. -/
def fireAction (item : Appointment) (step : Screen × LifecycleAction) : Appointment :=
  if step.2 ∈ offeredActions step.1 item then applyAction step.2 item else item

/-- A sequence of attempted actions on one appointment. -/
def runActions (item : Appointment) (steps : List (Screen × LifecycleAction)) : Appointment :=
  steps.foldl fireAction item

/-- The three derived lifecycle states. -/
inductive Status where
  | pending
  | approved
  | cancelled
deriving DecidableEq, Repr

/-- The state a status cell displays. -/
def StatusCell.status : StatusCell → Status
  | .cancelledLabel => .cancelled
  | .approvedLabel => .approved
  | .actions _ => .pending

/-- The counter of the per-doctor statistics an appointment goes to
(AdminAnalytics lines 92-94, Dashboard lines 64-66): `if (app.isCompleted) ...
else if (app.cancelled) ... else ...`. -/
def countedAs (app : Appointment) : Status :=
  if app.isCompleted then .approved
  else if app.cancelled then .cancelled
  else .pending

/-! ## Admin: Edit Doctor (`src/pages/Admin/EditDoctor.jsx`) -/

namespace EditDoctor

/-- An `updateDoctor` call: the `password` entry of its form data, `none` when
the entry is not appended (the other entries are not followed). -/
structure UpdateCall where
  password : Option String
deriving DecidableEq, Repr

/-- The password part of the form state (lines 18-20) and the update calls
issued so far. -/
structure Form where
  password : String := ""
  confirmPassword : String := ""
  passwordsMatch : Bool := true
  calls : List UpdateCall := []
deriving DecidableEq, Repr

/-- The effect of lines 73-79, run after either field changes. -/
def passwordsMatchEffect (f : Form) : Form :=
  if f.password = "" ∧ f.confirmPassword = "" then { f with passwordsMatch := true }
  else if f.password ≠ "" ∧ f.confirmPassword ≠ "" then
    { f with passwordsMatch := f.password == f.confirmPassword }
  else f

/-- The `disabled` attribute of the submit button (line 271). -/
def submitDisabled (f : Form) : Bool :=
  !f.passwordsMatch && jsTruthy f.password && jsTruthy f.confirmPassword

/-- Lines 81-117, `onSubmitHandler`, the other fields being valid. -/
def onSubmitHandler (f : Form) : Form :=
  if !f.passwordsMatch then f
  else
    { f with
      calls := f.calls ++ [{ password := if jsTruthy f.password then some f.password else none }] }

/-- User actions on the form. -/
inductive Event where
  | setPassword (text : String)
  | setConfirmPassword (text : String)
  | submit
deriving DecidableEq, Repr

/-- One user action.  The confirmation input is disabled while the password is
empty (line 188); a disabled submit button submits nothing. -/
def step (f : Form) : Event → Form
  | .setPassword text => passwordsMatchEffect { f with password := text }
  | .setConfirmPassword text =>
    if jsTruthy f.password then passwordsMatchEffect { f with confirmPassword := text } else f
  | .submit => if submitDisabled f then f else onSubmitHandler f

/-- A sequence of user actions from the initial form. -/
def run (es : List Event) : Form := es.foldl step {}

end EditDoctor

/-! ## Admin context (`src/context/AdminContext.jsx`) -/

namespace AdminContext

/-- A user awaiting approval. -/
structure PendingUser where
  _id : String := ""
  email : String := ""
  approvalStatus : String := "pending"
deriving DecidableEq, Repr

/-- The requests the two operations send. -/
inductive ApiCall where
  /-- `PUT /api/admin/update-approval/:userId` with body `{ status }`. -/
  | updateApproval (userId status : String)
  /-- `GET /api/admin/pending-registrations`. -/
  | fetchPending
deriving DecidableEq, Repr

/-- The outcome of a request: it fails (network error, or a reply the code cannot
read, both end in the `catch` block), or a reply arrives with its `success`
flag and payload. -/
inductive Reply (α : Type) where
  | failed
  | replied (success : Bool) (payload : α)
deriving DecidableEq, Repr

/-- Whether a reply arrived with `success` set. -/
def Reply.succeeded {α : Type} : Reply α → Bool
  | .failed => false
  | .replied success _ => success

/-- The part of the context state the two operations touch. -/
structure State where
  pendingRegistrations : List PendingUser := []
  loading : Bool := false
deriving DecidableEq, Repr

/-- Lines 36-56, `fetchPendingRegistrations`: the final state and the requests
sent. -/
def fetchPendingRegistrations (st : State) (reply : Reply (Option (List PendingUser))) :
    State × List ApiCall :=
  match reply with
  | .replied true pendingUsers =>
    ({ pendingRegistrations := pendingUsers.getD [], loading := false }, [.fetchPending])
  | _ => ({ st with loading := false }, [.fetchPending])

/-- Lines 58-83, `updateApprovalStatus`: the final state and the requests sent,
in order.  `getReply` is the outcome of the refetch, consulted only if the
refetch is made. -/
def updateApprovalStatus (st : State) (userId status : String) (putReply : Reply Unit)
    (getReply : Reply (Option (List PendingUser))) : State × List ApiCall :=
  match putReply with
  | .replied true _ =>
    let r := fetchPendingRegistrations { st with loading := true } getReply
    ({ r.1 with loading := false }, .updateApproval userId status :: r.2)
  | _ => ({ st with loading := false }, [.updateApproval userId status])

/-- Lines 199-215, `getAllAppointments`: the new value of the `appointments`
state.  A reply with `success` set but without an `appointments` array makes
`.reverse()` throw, which the `catch` block absorbs. -/
def getAllAppointments (appointments : List Appointment)
    (reply : Reply (Option (List Appointment))) : List Appointment :=
  match reply with
  | .replied true (some serverList) => serverList.reverse
  | _ => appointments

end AdminContext

/-! ## Admin: All Appointments, continued -/

/-- `Array.from(new Set(l))`: the distinct elements in order of first
occurrence. -/
def jsUnique (l : List String) : List String :=
  l.foldl (fun acc x => if acc.contains x then acc else acc ++ [x]) []

/-- `s.padStart(2, '0')`. -/
def jsPadStart2 (s : String) : String :=
  ⟨List.replicate (2 - s.data.length) '0' ++ s.data⟩

namespace AllAppointments

/-- Lines 30-38: the specialties found on the appointments that have a doctor
snapshot, empty values removed, without repetition. -/
def allSpecialties (appointments : List Appointment) : List String :=
  jsUnique
    (((appointments.filter (fun item => item.docData.isSome)).map
      (fun item => docSpecialty item)).filter jsTruthy)

/-- The effect of lines 27-50: the new value of the `uniqueSpecialties` state,
which holds the specialty options of the dropdown (the fixed first option `All
Specialties`, of value `''`, clears the filter and is not one of them). -/
def uniqueSpecialtiesEffect (appointments : List Appointment)
    (uniqueSpecialties : List String) : List String :=
  if appointments.length > 0 then allSpecialties appointments else uniqueSpecialties

/-- Lines 53-66, `convertToDbFormat`; `none` is `null`.  A value with fewer than
three parts makes `padStart` throw on `undefined`, which the `catch` block turns
into `null`. -/
def convertToDbFormat (inputDate : String) : Option String :=
  if !jsTruthy inputDate then none
  else
    match jsSplit '-' inputDate with
    | year :: month :: day :: _ =>
      some (jsPadStart2 day ++ "_" ++ jsPadStart2 month ++ "_" ++ year)
    | _ => none

/-- The state of the view that the filters and the row source read. -/
structure View where
  appointments : List Appointment := []
  dateFilter : String := ""
  specialtyFilter : String := ""
  filteredAppointments : List Appointment := []
deriving DecidableEq, Repr

/-- What can happen to the view. -/
inductive Event where
  /-- The context delivers a new collection. -/
  | refresh (appointments : List Appointment)
  /-- The date input changes (lines 194-214). -/
  | setDateFilter (value : String)
  /-- The `Clear` button of the date filter (lines 219-224). -/
  | clearDate
  /-- The specialty dropdown changes (line 238). -/
  | setSpecialtyFilter (value : String)
  /-- The `Clear` button of the specialty filter (line 252). -/
  | clearSpecialty
deriving DecidableEq, Repr

/-- The filter effect applied to the view. -/
def View.runEffect (v : View) : View :=
  { v with
    filteredAppointments :=
      filterEffect v.appointments v.dateFilter v.specialtyFilter v.filteredAppointments }

/-- One event, followed by the filter effect, which depends on the collection
and on both filters. -/
def View.step (v : View) : Event → View
  | .refresh appointments => View.runEffect { v with appointments := appointments }
  | .setDateFilter value => View.runEffect { v with dateFilter := value }
  | .clearDate =>
    if jsTruthy v.dateFilter then
      View.runEffect { v with dateFilter := "", filteredAppointments := [] }
    else v
  | .setSpecialtyFilter value => View.runEffect { v with specialtyFilter := value }
  | .clearSpecialty =>
    if jsTruthy v.specialtyFilter then View.runEffect { v with specialtyFilter := "" } else v

/-- A sequence of events from the initial view. -/
def View.run (es : List Event) : View := es.foldl View.step {}

/-- The rows the view displays (lines 274-310); `none` when the render throws. -/
def View.rows (v : View) : Option (List Appointment) :=
  displayedRows v.appointments v.filteredAppointments v.dateFilter v.specialtyFilter

/-- The cache agrees with the collection: it holds the collection passed through
both filters. -/
def View.Synced (v : View) : Prop :=
  v.filteredAppointments =
    applySpecialtyFilter v.specialtyFilter (applyDateFilter v.dateFilter v.appointments)

end AllAppointments

/-! ## Doctor: Dashboard (`src/pages/Doctor/DoctorDashboard.jsx`) -/

/-- `Number(s)` for a string: white space is trimmed, the empty string is 0 and
a run of decimal digits is its value; `none` stands for `NaN`.  Signed,
fractional, hexadecimal and exponent literals are not modelled and read as
`NaN`; the value is exact (no rounding to a double). -/
def jsNumber (s : String) : Option Int :=
  let cs := jsTrimChars s.data
  if cs.isEmpty then some 0
  else if cs.all Char.isDigit then some (digitsValue cs : Int)
  else none

/-- Time value of `new Date(year, monthIndex, day)` followed by
`setHours(hours, minutes)`, in a fixed-offset zone: a year from 0 to 99 counts
from 1900, a month index outside 0-11 carries into the year, and days, hours and
minutes add up linearly. -/
def jsLocalDateTime (tz year monthIndex day hours minutes : Int) : Int :=
  let fullYear := if 0 ≤ year ∧ year ≤ 99 then 1900 + year else year
  let dayNumber :=
    daysFromCivil (fullYear + monthIndex / 12) (monthIndex % 12 + 1) 1 + (day - 1)
  startOfLocalDay tz dayNumber + hours * 3600000 + minutes * 60000

namespace DoctorDashboard

/-- `const [day, month, year] = slotDate.split('_').map(Number)`; `none` when
one of the three is `NaN` or missing. -/
def slotDateParts (slotDate : String) : Option (Int × Int × Int) :=
  match (jsSplit '_' slotDate).map jsNumber with
  | some day :: some month :: some year :: _ => some (day, month, year)
  | _ => none

/-- The first argument of `setHours`: `period === 'PM' && hours !== 12 ? hours +
12 : (period === 'AM' && hours === 12 ? 0 : hours)`. -/
def hours24 (period : Option String) (hours : Int) : Int :=
  if period = some "PM" ∧ hours ≠ 12 then hours + 12
  else if period = some "AM" ∧ hours = 12 then 0
  else hours

/-- `const [time, period] = slotTime.split(' ')` and `const [hours, minutes] =
time.split(':').map(Number)`: the two arguments of `setHours`; `none` when one
of them is `NaN` or missing. -/
def slotTimeParts (slotTime : String) : Option (Int × Int) :=
  match jsSplit ' ' slotTime with
  | [] => none
  | time :: rest =>
    match (jsSplit ':' time).map jsNumber with
    | some hours :: some minutes :: _ => some (hours24 rest.head? hours, minutes)
    | _ => none

/-- The time value of the date object built from `slotDate` and `slotTime`
(lines 23-33, 48-57); `none` is an invalid date. -/
def slotInstant (tz : Int) (app : Appointment) : Option Int :=
  match slotDateParts app.slotDate, slotTimeParts app.slotTime with
  | some (day, month, year), some (hours, minutes) =>
    some (jsLocalDateTime tz year (month - 1) day hours minutes)
  | _, _ => none

/-- The comparator of line 43, `dateA - dateB`; `none` is `NaN`. -/
def compareSlots (tz : Int) (a b : Appointment) : Option Int :=
  match slotInstant tz a, slotInstant tz b with
  | some x, some y => some (x - y)
  | _, _ => none

/-- Lines 19-44: the non-cancelled appointments sorted by the comparator (a
`NaN` result counts as 0). -/
def upcomingAppointments (tz : Int) (latestAppointments : List Appointment) :
    List Appointment :=
  jsSort
    (fun a b =>
      match compareSlots tz a b with
      | some c => decide (c ≤ 0)
      | none => true)
    (latestAppointments.filter (fun app => !app.cancelled))

/-- Lines 47-60: the first upcoming appointment with `appointmentDate > now`;
`none` is `undefined`. -/
def nextAppointment (tz now : Int) (latestAppointments : List Appointment) :
    Option Appointment :=
  (upcomingAppointments tz latestAppointments).find? (fun app =>
    match slotInstant tz app with
    | some t => decide (t > now)
    | none => false)

end DoctorDashboard

/-! ## Specification-side notions -/

/-- Number of appointments with both flags set, the state the data model calls
invalid. -/
def bothFlagsCount (appointments : List Appointment) : Nat :=
  (appointments.filter (fun app => app.isCompleted && app.cancelled)).length

/-- The booking day named by a `D_M_YYYY` slot date, as a day number; `none`
when the string does not have three decimal parts. -/
def slotDay (slotDate : String) : Option Int :=
  match (jsSplit '_' slotDate).map jsParseInt10 with
  | [some d, some m, some y] => some (daysFromCivil y m d)
  | _ => none

/-- Five appointments of one doctor: three pending, one approved, one
cancelled. -/
def sampleFive : List Appointment :=
  [ { _id := "p1" }, { _id := "p2" }, { _id := "ok", isCompleted := true },
    { _id := "p3" }, { _id := "no", cancelled := true } ]

/-- The seven-day trend as the specification words it: the bucket of a day
counts the appointments whose `slotDate` names that day. -/
def trendBySlotDate (appointments : List Appointment) (tz now : Int) :
    List AdminAnalytics.TrendPoint :=
  (List.range 7).map (fun i : Nat =>
    { date := dayLabel (localDay tz now - 6 + (i : Int))
      total :=
        (appointments.filter
          (fun a => slotDay a.slotDate == some (localDay tz now - 6 + (i : Int)))).length
      completed :=
        (appointments.filter
          (fun a => slotDay a.slotDate == some (localDay tz now - 6 + (i : Int)) &&
            a.isCompleted)).length
      cancelled :=
        (appointments.filter
          (fun a => slotDay a.slotDate == some (localDay tz now - 6 + (i : Int)) &&
            a.cancelled)).length })

/-- An appointment booked for 1 July 2025 and created on 3 July 2025 at 01:00
UTC. -/
def bookedJuly1CreatedJuly3 : Appointment :=
  { _id := "a1", slotDate := "1_7_2025", slotTime := "10:00 AM", date := 1751504400000 }

/-- The instant 3 July 2025, 02:00 UTC. -/
def july3at2 : Int := 1751508000000

/-- An appointment created on 27 June 2025 at 01:00 UTC, the earliest day of the
week window that ends on 3 July 2025. -/
def createdJune27at1 : Appointment :=
  { _id := "a0", slotDate := "27_6_2025", slotTime := "9:00 AM", date := 1750986000000 }

/-- A 12-hour slot label as the booking flow writes it: `h:mm AM` or `h:mm PM`. -/
def slotTimeString (h m : Nat) (pm : Bool) : String :=
  toString h ++ ":" ++ pad2 m ++ " " ++ (if pm then "PM" else "AM")

/-- Minutes after midnight of the 12-hour time `h:mm` with the given meridiem:
12 AM is hour 0 and 12 PM is hour 12. -/
def clock24 (h m : Nat) (pm : Bool) : Nat := (h % 12 + (if pm then 12 else 0)) * 60 + m

/-- The specialty of an appointment as the specialty filter is specified: the
field spelled `speciality`, or when that is absent or empty the field spelled
`specialty`; `none` when there is no snapshot or neither field. -/
def specialtyOf (appt : Appointment) : Option String :=
  match appt.docData with
  | none => none
  | some d =>
    match d.speciality with
    | some s => if s ≠ "" then some s else d.specialty
    | none => d.specialty

/-- Two cardiology appointments among five. -/
def fiveBySpecialty : List Appointment :=
  [ { _id := "c1", docData := some { speciality := some "Cardiologist" } },
    { _id := "d1", docData := some { speciality := some "Dermatologist" } },
    { _id := "e1", docData := some { speciality := some "ENT" } },
    { _id := "c2", docData := some { speciality := some "Cardiologist" } },
    { _id := "s1", docData := some { speciality := some "Surgeon" } } ]

/-- `s.toUpperCase()` on the ASCII letters, the dotless i (U+0131, whose upper
case is `I`) and the sharp s (U+00DF, whose upper case is `SS`). -/
def jsToUpperCase (s : String) : String :=
  ⟨s.data.flatMap (fun c =>
    if c = 'ı' then ['I'] else if c = 'ß' then ['S', 'S'] else [c.toUpper])⟩

/-- A patient whose last name contains a dotless i. -/
def patientKivanc : Appointment :=
  { _id := "k1", slotDate := "3_7_2025", slotTime := "10:00 AM",
    userData := { firstName := "Can", middleName := "", lastName := "Kıvanç" } }

/-- Five appointments at four different slots, not in chronological order. -/
def slotSample : List Appointment :=
  [ { _id := "t1", slotTime := "1:00 PM" }, { _id := "t2", slotTime := "12:30 AM" },
    { _id := "t3", slotTime := "9:00 AM" }, { _id := "t4", slotTime := "12:15 PM" },
    { _id := "t5", slotTime := "9:00 AM" } ]

/-- The status test of a tab of the doctor Appointments screen: `upcoming`
passes the pending appointments, `approved` the approved ones, `cancelled` the
cancelled ones; any other tab passes everything. -/
def passesTab (activeTab : String) (app : Appointment) : Bool :=
  if activeTab = "upcoming" then !app.cancelled && !app.isCompleted
  else if activeTab = "approved" then app.isCompleted && !app.cancelled
  else if activeTab = "cancelled" then app.cancelled
  else true

/-- The text test of the search box as the specification words it: the term is
empty after trimming, or the lower-cased term occurs in the lower-cased full
name, display date or slot time. -/
def matchesSearch (toLowerCase slotDateFormat : String → String) (searchTerm : String)
    (app : Appointment) : Bool :=
  jsTrim searchTerm == "" ||
    jsIncludes
      (toLowerCase
        (app.userData.lastName ++ " " ++ app.userData.firstName ++ " " ++
          app.userData.middleName))
      (toLowerCase searchTerm) ||
    jsIncludes (toLowerCase (slotDateFormat app.slotDate)) (toLowerCase searchTerm) ||
    jsIncludes (toLowerCase app.slotTime) (toLowerCase searchTerm)

/-- A patient whose last name is written in capitals with a letter outside
ASCII. -/
def patientNunez : Appointment :=
  { _id := "n1", slotDate := "3_7_2025", slotTime := "10:00 AM",
    userData := { firstName := "ANA", middleName := "", lastName := "NUÑEZ" } }

/-- The hour of the day of a 12-hour time as the specification words it: 12 AM
is hour 0, 12 PM is hour 12, any other PM hour is the hour plus 12. -/
def hour24 (h : Nat) (pm : Bool) : Nat :=
  if h = 12 then (if pm then 12 else 0) else if pm then h + 12 else h

/-- The instant of the slot on day `d` of month `m` of year `y` at `h:mi` with
the given meridiem, in the zone of offset `tz`. -/
def slotMoment (tz : Int) (d m y h mi : Nat) (pm : Bool) : Int :=
  startOfLocalDay tz (daysFromCivil y m d) + ((hour24 h pm : Int) * 60 + mi) * 60000

/-- An appointment whose `slotDate` is `D_M_YYYY` and whose `slotTime` is
`h:mm AM` or `h:mm PM`. -/
def WellFormedSlot (app : Appointment) : Prop :=
  ∃ (d m y h mi : Nat) (pm : Bool), 1 ≤ d ∧ d ≤ 31 ∧ 1 ≤ m ∧ m ≤ 12 ∧ 1000 ≤ y ∧
    1 ≤ h ∧ h ≤ 12 ∧ mi < 60 ∧
    app.slotDate = minimalKey y m d ∧ app.slotTime = slotTimeString h mi pm

/-- Four appointments of a doctor: three around 3 July 2025, one of them
approved, and a cancelled one. -/
def dashboardSample : List Appointment :=
  [ { _id := "n1", slotDate := "4_7_2025", slotTime := "12:30 AM" },
    { _id := "n2", slotDate := "3_7_2025", slotTime := "1:00 PM", isCompleted := true },
    { _id := "n3", slotDate := "3_7_2025", slotTime := "12:15 PM" },
    { _id := "n4", slotDate := "3_7_2025", slotTime := "9:00 AM", cancelled := true } ]

/-- An appointment in the both-flags state, with its doctor snapshot. -/
def bothFlagsAppointment : Appointment :=
  { _id := "b1", docId := "d1", userId := "u1", date := 1000, cancelled := true,
    isCompleted := true,
    docData := some { name := some "Dr. Cruz", speciality := some "Cardiologist" } }

/-- Six pending bookings with one doctor, each with its doctor snapshot. -/
def sixBookings : List Appointment :=
  (List.range 6).map (fun i =>
    { _id := "a" ++ toString i, docId := "d1", userId := "u" ++ toString i,
      slotDate := "3_7_2025", slotTime := "10:00 AM", date := 1751504400000,
      docData :=
        some { name := some "Dr. Cruz", image := some "cruz.png",
               speciality := some "Cardiologist" },
      userData := { firstName := "Ana", middleName := "", lastName := "Reyes" } })

/-! ## Lemmas on the string primitives -/

section Proofs

open AllAppointments

theorem jsSplitChars_ne_nil (sep : Char) (cs : List Char) : jsSplitChars sep cs ≠ [] := by
  induction cs with
  | nil => simp [jsSplitChars]
  | cons c cs ih =>
    unfold jsSplitChars
    split_ifs
    · simp
    · split <;> simp

theorem jsSplitChars_append_sep (sep : Char) (xs rest : List Char) (h : sep ∉ xs) :
    jsSplitChars sep (xs ++ sep :: rest) = xs :: jsSplitChars sep rest := by
  induction xs with
  | nil => simp [jsSplitChars]
  | cons c cs ih =>
    have hc : c ≠ sep := fun e => h (by simp [e])
    have hcs : sep ∉ cs := fun e => h (by simp [e])
    have e := ih hcs
    rw [List.cons_append, jsSplitChars, if_neg hc, e]

theorem jsSplitChars_no_sep (sep : Char) (xs : List Char) (h : sep ∉ xs) :
    jsSplitChars sep xs = [xs] := by
  induction xs with
  | nil => simp [jsSplitChars]
  | cons c cs ih =>
    have hc : c ≠ sep := fun e => h (by simp [e])
    have hcs : sep ∉ cs := fun e => h (by simp [e])
    simp only [jsSplitChars, if_neg hc, ih hcs]

theorem digitChar_ne_dash (k : Nat) (hk : k < 10) : Nat.digitChar k ≠ '-' := by
  interval_cases k <;> decide

theorem toDigitsCore_no_dash (fuel n : Nat) (ds : List Char) (h : '-' ∉ ds) :
    '-' ∉ Nat.toDigitsCore 10 fuel n ds := by
  induction fuel generalizing n ds with
  | zero => simpa [Nat.toDigitsCore] using h
  | succ f ih =>
    have hd : '-' ∉ Nat.digitChar (n % 10) :: ds := by
      intro hmem
      rcases List.mem_cons.1 hmem with e | e
      · exact digitChar_ne_dash (n % 10) (Nat.mod_lt _ (by decide)) e.symm
      · exact h e
    simp only [Nat.toDigitsCore]
    split_ifs
    · exact hd
    · exact ih _ _ hd

theorem toString_no_dash (n : Nat) : '-' ∉ (toString n).data := by
  show '-' ∉ (Nat.repr n).data
  simp only [Nat.repr, Nat.toDigits, List.asString]
  exact toDigitsCore_no_dash _ _ _ (by simp)

theorem pad4_no_dash (n : Nat) : '-' ∉ (pad4 n).data := by
  have h := toString_no_dash n
  unfold pad4
  split_ifs
  · simp only [String.data_append, List.mem_append, not_or]; exact ⟨by decide, h⟩
  · simp only [String.data_append, List.mem_append, not_or]; exact ⟨by decide, h⟩
  · simp only [String.data_append, List.mem_append, not_or]; exact ⟨by decide, h⟩
  · exact h

theorem pad2_month (m : Nat) (h1 : 1 ≤ m) (h2 : m ≤ 31) :
    '-' ∉ (pad2 m).data ∧ jsNumToString (jsParseInt10 (pad2 m)) = toString m := by
  interval_cases m <;> exact ⟨by decide, by decide⟩

theorem searchDate_pickerValue (y m d : Nat) (hm : 1 ≤ m ∧ m ≤ 12) (hd : 1 ≤ d ∧ d ≤ 31) :
    searchDate (pickerValue y m d) = some (toString d ++ "_" ++ toString m ++ "_" ++ pad4 y) := by
  obtain ⟨hm1, hm2⟩ := pad2_month m hm.1 (by omega)
  obtain ⟨hd1, hd2⟩ := pad2_month d hd.1 hd.2
  have hsplit : jsSplit '-' (pickerValue y m d) = [pad4 y, pad2 m, pad2 d] := by
    simp only [jsSplit, pickerValue, String.data_append]
    rw [List.append_assoc, List.append_assoc, List.append_assoc, List.singleton_append,
      jsSplitChars_append_sep _ _ _ (pad4_no_dash y), List.singleton_append,
      jsSplitChars_append_sep _ _ _ hm1, jsSplitChars_no_sep _ _ hd1]
    rfl
  simp only [searchDate, hsplit, hm2, hd2]

theorem jsTruthy_pickerValue (y m d : Nat) : jsTruthy (pickerValue y m d) = true := by
  have h : (pickerValue y m d).data ≠ [] := by
    simp [pickerValue, String.data_append]
  have h2 : pickerValue y m d ≠ "" := fun e => h (by rw [e])
  simp [jsTruthy, h2]

/-! ## C1: the date filter key -/

/-- C1 (as amended): for every date-picker value `YYYY-MM-DD` the comparison key
of the date filter is the day and the month in minimal decimal form followed by
the year exactly as the picker writes it (four digits, which is its minimal
decimal form from year 1000 on), joined by underscores, and the date filter
keeps exactly the appointments whose `slotDate` equals that key. -/
theorem C1_date_filter_key (y m d : Nat) (hm : 1 ≤ m ∧ m ≤ 12) (hd : 1 ≤ d ∧ d ≤ 31)
    (results : List Appointment) :
    searchDate (pickerValue y m d) = some (toString d ++ "_" ++ toString m ++ "_" ++ pad4 y) ∧
    (1000 ≤ y → searchDate (pickerValue y m d) = some (minimalKey y m d)) ∧
    applyDateFilter (pickerValue y m d) results =
      results.filter
        (fun a => a.slotDate == toString d ++ "_" ++ toString m ++ "_" ++ pad4 y) := by
  have hkey := searchDate_pickerValue y m d hm hd
  refine ⟨hkey, ?_, ?_⟩
  · intro hy
    have e : pad4 y = toString y := by
      unfold pad4
      rw [if_neg (by omega), if_neg (by omega), if_neg (by omega)]
    rw [hkey, e, minimalKey]
  · simp only [applyDateFilter, jsTruthy_pickerValue, if_true, hkey]

/-- C1, the example of the specification: `2025-07-03` gives the key `3_7_2025`,
which keeps the appointment stored under `3_7_2025` and drops the ones stored
under `03_07_2025` and `3_7_25`. -/
theorem C1_date_filter_key_witness :
    searchDate "2025-07-03" = some "3_7_2025" ∧
    applyDateFilter "2025-07-03"
        [{ slotDate := "3_7_2025" }, { slotDate := "03_07_2025" }, { slotDate := "3_7_25" }] =
      [{ slotDate := "3_7_2025" }] := by
  have h := C1_date_filter_key 2025 7 3 (by decide) (by decide)
    [{ slotDate := "3_7_2025" }, { slotDate := "03_07_2025" }, { slotDate := "3_7_25" }]
  have e : pickerValue 2025 7 3 = "2025-07-03" := by decide
  rw [e] at h
  refine ⟨h.2.1 (by decide), ?_⟩
  rw [h.2.2]
  decide

/-- C1 as stated fails for a year below 1000: the picker value `0999-07-03`
gives the key `3_7_0999`, not the minimal-form key `3_7_999`, and an appointment
stored under `3_7_999` is dropped. -/
theorem C1_year_not_minimal :
    searchDate (pickerValue 999 7 3) = some "3_7_0999" ∧
    searchDate (pickerValue 999 7 3) ≠ some (minimalKey 999 7 3) ∧
    applyDateFilter (pickerValue 999 7 3) [{ slotDate := minimalKey 999 7 3 }] = [] := by
  decide

/-! ## C2-C4: the cancellation modal -/

theorem all_of_all_dropWhile {α : Type} (p : α → Bool) (l : List α)
    (h : ∀ x ∈ l.dropWhile p, p x = true) : ∀ x ∈ l, p x = true := by
  induction l with
  | nil => simp
  | cons a l ih =>
    by_cases ha : p a = true
    · intro x hx
      rcases List.mem_cons.1 hx with e | e
      · rw [e]; exact ha
      · exact ih (by simpa [List.dropWhile_cons, ha] using h) x e
    · have h0 := h a (by simp [List.dropWhile_cons, ha])
      exact absurd h0 ha

theorem jsTrimChars_eq_nil_iff (cs : List Char) :
    jsTrimChars cs = [] ↔ ∀ c ∈ cs, isJsWhiteSpace c = true := by
  unfold jsTrimChars
  rw [List.reverse_eq_nil_iff, List.dropWhile_eq_nil_iff]
  constructor
  · intro h
    exact all_of_all_dropWhile _ _ (fun x hx => h x (List.mem_reverse.2 hx))
  · intro h x hx
    have hx1 : x ∈ cs.dropWhile isJsWhiteSpace := List.mem_reverse.1 hx
    exact h x ((List.dropWhile_sublist _).subset hx1)

theorem confirmDisabled_eq (reason : String) :
    CancellationModal.confirmDisabled reason = reason.data.all isJsWhiteSpace := by
  have h1 : (jsTrim reason = "") ↔ jsTrimChars reason.data = [] := by
    unfold jsTrim
    constructor
    · intro e
      have := congrArg String.data e
      simpa using this
    · intro e
      rw [e]
  by_cases hall : ∀ c ∈ reason.data, isJsWhiteSpace c = true
  · have e : jsTrim reason = "" := h1.2 ((jsTrimChars_eq_nil_iff _).2 hall)
    have e2 : reason.data.all isJsWhiteSpace = true := List.all_eq_true.2 hall
    simp [CancellationModal.confirmDisabled, jsTruthy, e, e2]
  · have e : jsTrim reason ≠ "" := fun e => hall ((jsTrimChars_eq_nil_iff _).1 (h1.1 e))
    have e2 : reason.data.all isJsWhiteSpace = false := by
      rw [Bool.eq_false_iff]
      exact fun h => hall (List.all_eq_true.1 h)
    simp [CancellationModal.confirmDisabled, jsTruthy, e, e2]

theorem onConfirm_calls_have_reason (s : ModalScreen) (reason : String)
    (hr : jsTruthy (jsTrim reason) = true) (h : ∀ c ∈ s.calls, c.hasReason = true) :
    ∀ c ∈ (s.onConfirm reason).calls, c.hasReason = true := by
  unfold ModalScreen.onConfirm
  cases hsel : s.selectedAppointmentId with
  | none => simpa using h
  | some id =>
    by_cases hid : jsTruthy id = true
    · intro c hc
      simp only [hid, if_true, List.mem_append, List.mem_singleton] at hc
      rcases hc with hc | hc
      · exact h c hc
      · rw [hc]
        simpa [CancelCall.hasReason] using hr
    · simpa [hid] using h

/-- On a screen that wires the modal, every cancellation call issued by any
sequence of user actions carries a reason that is not blank. -/
theorem modalScreen_calls_have_reason (es : List ModalEvent) (s : ModalScreen)
    (h : ∀ c ∈ s.calls, c.hasReason = true) : ∀ c ∈ (s.run es).calls, c.hasReason = true := by
  induction es generalizing s with
  | nil => simpa [ModalScreen.run] using h
  | cons e es ih =>
    have hstep : ∀ c ∈ (s.step e).calls, c.hasReason = true := by
      cases e with
      | clickCancelIcon id => simpa [ModalScreen.step] using h
      | typeReason text =>
        simp only [ModalScreen.step]
        split_ifs <;> simpa using h
      | clickDismiss =>
        simp only [ModalScreen.step, ModalScreen.onClose]
        split_ifs <;> simpa using h
      | clickConfirm =>
        simp only [ModalScreen.step]
        split_ifs with hopen
        · by_cases hd : CancellationModal.confirmDisabled s.reason = true
          · simpa [CancellationModal.pressConfirm, hd] using h
          · have hr : jsTruthy (jsTrim s.reason) = true := by
              simpa [CancellationModal.confirmDisabled] using hd
            have h2 := onConfirm_calls_have_reason s s.reason hr h
            simpa [CancellationModal.pressConfirm, hd, CancellationModal.handleSubmit] using h2
        · simpa using h
    simpa [ModalScreen.run] using ih (s.step e) hstep

/-- C2, the failing control: the cancel button of a pending row on the admin
Dashboard and on the doctor Dashboard issues the cancellation call directly,
with no reason and without opening the modal. -/
theorem C2_dashboard_cancel_without_reason :
    dashboardClickCancel [] { _id := "a1" } = [⟨"a1", none⟩] ∧
    (dashboardClickCancel [] { _id := "a1" }).all CancelCall.hasReason = false := by
  decide

/-- C3: the confirm button of the modal is disabled exactly when every character
of the reason is white space (in particular when it is empty); a press on the
disabled button invokes nothing and a press on the enabled button invokes
`onConfirm` exactly once, with the reason text as typed. -/
theorem C3_confirm_disabled_iff_blank (reason : String) :
    CancellationModal.confirmDisabled reason = reason.data.all isJsWhiteSpace ∧
    (CancellationModal.pressConfirm reason).1 =
      if reason.data.all isJsWhiteSpace then [] else [reason] := by
  have h := confirmDisabled_eq reason
  refine ⟨h, ?_⟩
  unfold CancellationModal.pressConfirm
  rw [h]
  split_ifs <;> simp [CancellationModal.handleSubmit]

/-- C4, the failing sequence: open the modal, type `x`, dismiss it with the
`Cancel` button and open it again for another appointment; the reopened modal
still holds the text `x`. -/
theorem C4_reopened_modal_keeps_dismissed_text :
    ModalScreen.run {}
        [.clickCancelIcon "a1", .typeReason "x", .clickDismiss, .clickCancelIcon "a2"] =
      { showCancellationModal := true, selectedAppointmentId := some "a2", reason := "x",
        calls := [] } := by
  decide

/-! ## C5-C7: status counts -/

theorem status_counts_sum {α : Type} (c x : α → Bool) (l : List α) :
    (l.filter c).length + (l.filter x).length + (l.filter (fun a => !c a && !x a)).length =
      l.length + (l.filter (fun a => c a && x a)).length := by
  induction l with
  | nil => simp
  | cons a l ih =>
    simp only [List.filter_cons, List.length_cons]
    cases hc : c a <;> cases hx : x a <;> simp <;> omega

theorem filter_length_eq_zero_iff {α : Type} (p : α → Bool) (l : List α) :
    (l.filter p).length = 0 ↔ ∀ a ∈ l, p a = false := by
  rw [List.length_eq_zero, List.filter_eq_nil_iff]
  simp

/-- The status counts of the analytics views: in AdminAnalytics the completed,
cancelled and active counts sum to the total plus the number of appointments
that have both flags set, and in DoctorAnalytics the Approved, Cancelled and
Pending values sum to the size of the time window plus the number of its
appointments that have both flags set; so each sum equals its total exactly when
no appointment counted has both `isCompleted` and `cancelled` set. -/
theorem analyticsCounts_sum (appointments : List Appointment) (doctors : List Doctor)
    (dashData : DashData) (timeFrame : String) (tz today : Int) :
    ((AdminAnalytics.systemStats appointments doctors dashData).completedAppointments +
        (AdminAnalytics.systemStats appointments doctors dashData).cancelledAppointments +
        (AdminAnalytics.systemStats appointments doctors dashData).activeAppointments =
      (AdminAnalytics.systemStats appointments doctors dashData).totalAppointments +
        bothFlagsCount appointments) ∧
    (((DoctorAnalytics.statusDistribution
          (DoctorAnalytics.filteredAppointments appointments timeFrame tz today)).map
        (·.value)).sum =
      (DoctorAnalytics.filteredAppointments appointments timeFrame tz today).length +
        bothFlagsCount (DoctorAnalytics.filteredAppointments appointments timeFrame tz today)) ∧
    (bothFlagsCount appointments = 0 ↔
      ∀ a ∈ appointments, (a.isCompleted && a.cancelled) = false) := by
  refine ⟨?_, ?_, ?_⟩
  · exact status_counts_sum (fun a => a.isCompleted) (fun a => a.cancelled) appointments
  · have h := status_counts_sum (fun a : Appointment => a.isCompleted) (fun a => a.cancelled)
      (DoctorAnalytics.filteredAppointments appointments timeFrame tz today)
    simp only [DoctorAnalytics.statusDistribution, List.map_cons, List.map_nil, List.sum_cons,
      List.sum_nil, bothFlagsCount]
    omega
  · exact filter_length_eq_zero_iff _ _

/-- C5, the failing input: an appointment with both flags set is counted as
completed and as cancelled, so the three counts sum to 2 for a total of 1, in
AdminAnalytics and in the DoctorAnalytics window alike, while the per-doctor
statistics of AdminAnalytics count the same appointment once and the count
cards of the doctor Appointments screen sum to their total. -/
theorem C5_both_flags_counted_twice :
    ((AdminAnalytics.systemStats [bothFlagsAppointment] [] {}).completedAppointments +
        (AdminAnalytics.systemStats [bothFlagsAppointment] [] {}).cancelledAppointments +
        (AdminAnalytics.systemStats [bothFlagsAppointment] [] {}).activeAppointments = 2) ∧
    (AdminAnalytics.systemStats [bothFlagsAppointment] [] {}).totalAppointments = 1 ∧
    ((DoctorAnalytics.statusDistribution
        (DoctorAnalytics.filteredAppointments [bothFlagsAppointment] "week" 0 2000)).map
      (·.value)).sum = 2 ∧
    (DoctorAnalytics.filteredAppointments [bothFlagsAppointment] "week" 0 2000).length = 1 ∧
    (AdminAnalytics.doctorPerformance [bothFlagsAppointment]).map
        (fun e => (e.completed, e.cancelled, e.pending, e.total)) = [(1, 0, 0, 1)] ∧
    DoctorAppointments.upcomingCount [bothFlagsAppointment] +
        DoctorAppointments.approvedCount [bothFlagsAppointment] +
        DoctorAppointments.cancelledCount [bothFlagsAppointment] =
      DoctorAppointments.totalCount [bothFlagsAppointment] := by
  decide

/-- C6: with an empty search term the `cancelled`, `approved` and `upcoming` tabs
of the doctor Appointments screen show exactly the appointments with `cancelled`
set, with `isCompleted` set and `cancelled` unset, and with neither set; `all`
shows the whole list; each tab has as many rows as its count card reads and the
three counts sum to `Total`.  For the list of three pending, one approved and
one cancelled appointment the Cancelled tab has one row and the cards read
Total 5, Approved 1, Cancelled 1, Pending 3. -/
theorem C6_tabs_partition :
    (∀ (toLowerCase slotDateFormat : String → String) (appointments : List Appointment),
      DoctorAppointments.filteredAppointments toLowerCase slotDateFormat appointments "cancelled" "" =
        appointments.filter (fun a => a.cancelled) ∧
      DoctorAppointments.filteredAppointments toLowerCase slotDateFormat appointments "approved" "" =
        appointments.filter (fun a => a.isCompleted && !a.cancelled) ∧
      DoctorAppointments.filteredAppointments toLowerCase slotDateFormat appointments "upcoming" "" =
        appointments.filter (fun a => !a.cancelled && !a.isCompleted) ∧
      DoctorAppointments.filteredAppointments toLowerCase slotDateFormat appointments "all" "" =
        appointments ∧
      (DoctorAppointments.filteredAppointments toLowerCase slotDateFormat appointments "cancelled" "").length =
        DoctorAppointments.cancelledCount appointments ∧
      (DoctorAppointments.filteredAppointments toLowerCase slotDateFormat appointments "approved" "").length =
        DoctorAppointments.approvedCount appointments ∧
      (DoctorAppointments.filteredAppointments toLowerCase slotDateFormat appointments "upcoming" "").length =
        DoctorAppointments.upcomingCount appointments ∧
      DoctorAppointments.upcomingCount appointments +
          DoctorAppointments.approvedCount appointments +
          DoctorAppointments.cancelledCount appointments =
        DoctorAppointments.totalCount appointments) ∧
    (∀ toLowerCase slotDateFormat : String → String,
      (DoctorAppointments.filteredAppointments toLowerCase slotDateFormat sampleFive "cancelled" "").length =
        1) ∧
    DoctorAppointments.totalCount sampleFive = 5 ∧
    DoctorAppointments.approvedCount sampleFive = 1 ∧
    DoctorAppointments.cancelledCount sampleFive = 1 ∧
    DoctorAppointments.upcomingCount sampleFive = 3 := by
  have htrim : jsTrim "" = "" := by decide
  have hc : ∀ (g f : String → String) (l : List Appointment),
      DoctorAppointments.filteredAppointments g f l "cancelled" "" =
        l.filter (fun a => a.cancelled) := by
    intro g f l
    unfold DoctorAppointments.filteredAppointments
    apply List.filter_congr
    intro a _
    cases a.cancelled <;> cases a.isCompleted <;> simp [htrim]
  have ha : ∀ (g f : String → String) (l : List Appointment),
      DoctorAppointments.filteredAppointments g f l "approved" "" =
        l.filter (fun a => a.isCompleted && !a.cancelled) := by
    intro g f l
    unfold DoctorAppointments.filteredAppointments
    apply List.filter_congr
    intro a _
    cases a.cancelled <;> cases a.isCompleted <;> simp [htrim]
  have hu : ∀ (g f : String → String) (l : List Appointment),
      DoctorAppointments.filteredAppointments g f l "upcoming" "" =
        l.filter (fun a => !a.cancelled && !a.isCompleted) := by
    intro g f l
    unfold DoctorAppointments.filteredAppointments
    apply List.filter_congr
    intro a _
    cases a.cancelled <;> cases a.isCompleted <;> simp [htrim]
  have hall : ∀ (g f : String → String) (l : List Appointment),
      DoctorAppointments.filteredAppointments g f l "all" "" = l := by
    intro g f l
    unfold DoctorAppointments.filteredAppointments
    rw [List.filter_eq_self]
    intro a _
    simp [htrim]
  have hsum : ∀ l : List Appointment,
      DoctorAppointments.upcomingCount l + DoctorAppointments.approvedCount l +
        DoctorAppointments.cancelledCount l = DoctorAppointments.totalCount l := by
    intro l
    simp only [DoctorAppointments.upcomingCount, DoctorAppointments.approvedCount,
      DoctorAppointments.cancelledCount, DoctorAppointments.totalCount]
    induction l with
    | nil => simp
    | cons a l ih =>
      simp only [List.filter_cons, List.length_cons]
      cases a.cancelled <;> cases a.isCompleted <;> simp <;> omega
  refine ⟨fun g f l => ⟨hc g f l, ha g f l, hu g f l, hall g f l, ?_, ?_, ?_, hsum l⟩, ?_, ?_, ?_, ?_, ?_⟩
  · rw [hc]; rfl
  · rw [ha]
    simp only [DoctorAppointments.approvedCount]
    congr 1
    apply List.filter_congr
    intro a _
    cases a.cancelled <;> cases a.isCompleted <;> rfl
  · rw [hu]; rfl
  · intro g f
    rw [hc]
    decide
  · decide
  · decide
  · decide
  · decide

theorem dashboardCounts_sum (d : DashData) :
    Dashboard.completedAppointments (some d) + Dashboard.cancelledAppointments (some d) +
        Dashboard.pendingAppointments (some d) =
      d.latestAppointments.length + bothFlagsCount d.latestAppointments :=
  status_counts_sum (fun a : Appointment => a.isCompleted) (fun a => a.cancelled)
    d.latestAppointments

/-- C7 (as amended): on the admin Dashboard, for a summary none of whose latest
appointments has both flags set, whenever the stats cards are shown the
approved, cancelled and pending counts are taken over
`dashData.latestAppointments` and sum to the length of that list, while Total
Appointments is the scalar `dashData.appointments` sent by the server; the three
counts sum to Total exactly when those two numbers coincide. -/
theorem C7_dashboard_counts_sum (appointments : List Appointment) (d : DashData)
    (cards : Dashboard.StatsCards)
    (hcards : Dashboard.statsCards appointments (some d) = some cards)
    (hflags : ∀ a ∈ d.latestAppointments, (a.isCompleted && a.cancelled) = false) :
    cards.approved = (d.latestAppointments.filter (fun a => a.isCompleted)).length ∧
    cards.cancelled = (d.latestAppointments.filter (fun a => a.cancelled)).length ∧
    cards.pending =
      (d.latestAppointments.filter (fun a => !a.isCompleted && !a.cancelled)).length ∧
    cards.total = d.appointments ∧
    cards.approved + cards.cancelled + cards.pending = d.latestAppointments.length ∧
    (cards.approved + cards.cancelled + cards.pending = cards.total ↔
      d.latestAppointments.length = d.appointments) := by
  have hsum := dashboardCounts_sum d
  have hzero : bothFlagsCount d.latestAppointments = 0 :=
    (filter_length_eq_zero_iff _ _).2 hflags
  unfold Dashboard.statsCards at hcards
  simp only at hcards
  split_ifs at hcards
  have e := Option.some.inj hcards
  subst e
  have h2 : Dashboard.completedAppointments (some d) + Dashboard.cancelledAppointments (some d) +
      Dashboard.pendingAppointments (some d) = d.latestAppointments.length := by
    rw [hsum, hzero]
    rfl
  refine ⟨rfl, rfl, rfl, rfl, h2, ?_⟩
  show Dashboard.completedAppointments (some d) + Dashboard.cancelledAppointments (some d) +
      Dashboard.pendingAppointments (some d) = Dashboard.totalAppointments (some d) ↔ _
  rw [h2]
  rfl

/-- C7 on an example: with five appointments loaded and a summary that reports 2
appointments and lists one approved and one pending appointment, the cards read
1 approved, 0 cancelled, 1 pending and Total 2. -/
theorem C7_dashboard_counts_sum_witness :
    Dashboard.statsCards fiveBySpecialty
        (some { appointments := 2,
                latestAppointments :=
                  [{ _id := "c1", isCompleted := true,
                     docData := some { speciality := some "Cardiologist" } },
                   { _id := "d1", docData := some { speciality := some "Dermatologist" } }] }) =
      some { total := 2, approved := 1, cancelled := 0, pending := 1 } ∧
    (1 + 0 + 1 = 2 ↔ 2 = 2) :=
  ⟨by decide,
    (C7_dashboard_counts_sum fiveBySpecialty
      { appointments := 2,
        latestAppointments :=
          [{ _id := "c1", isCompleted := true,
             docData := some { speciality := some "Cardiologist" } },
           { _id := "d1", docData := some { speciality := some "Dermatologist" } }] }
      { total := 2, approved := 1, cancelled := 0, pending := 1 } (by decide)
      (by decide)).2.2.2.2.2⟩

/-- C7 as stated fails: with six pending appointments loaded, each with its
doctor snapshot, and a summary that reports 6 appointments and lists five of
them as the latest ones, the cards read 0 approved, 0 cancelled, 5 pending and
Total 6. -/
theorem C7_counts_over_latest_only :
    Dashboard.statsCards sixBookings
        (some { doctors := 1, patients := 6, appointments := 6,
                latestAppointments := sixBookings.take 5 }) =
      some { total := 6, approved := 0, cancelled := 0, pending := 5 } ∧
    sixBookings.length = 6 ∧
    (∀ a ∈ sixBookings, a.docData ≠ none ∧ a.cancelled = false ∧ a.isCompleted = false) := by
  decide

/-! ## C8-C10: the seven-day trends -/

theorem localDay_subDays (tz now : Int) (n : Nat) :
    localDay tz (subDays now n) = localDay tz now - n := by
  simp only [localDay, subDays, msPerDay]
  omega

theorem localDay_startOfLocalDay (tz day : Int) : localDay tz (startOfLocalDay tz day) = day := by
  simp only [localDay, startOfLocalDay, msPerDay]
  omega

theorem last7Days_eq (tz now : Int) :
    AdminAnalytics.last7Days tz now =
      (List.range 7).map (fun i : Nat => (⟨localDay tz now - 6 + (i : Int)⟩ : DayKey)) := by
  have hr : List.range 7 = [0, 1, 2, 3, 4, 5, 6] := by decide
  simp only [AdminAnalytics.last7Days, hr, List.map_cons, List.map_nil, formatYMD,
    localDay_subDays, List.reverse_cons, List.reverse_nil, List.nil_append, List.cons_append,
    List.cons.injEq, DayKey.mk.injEq, and_true]
  refine ⟨?_, ?_, ?_, ?_, ?_, ?_, ?_⟩ <;> omega

theorem objSet_fresh {κ ν : Type} [BEq κ] [LawfulBEq κ] (o : List (κ × ν)) (k : κ) (v : ν)
    (h : k ∉ o.map Prod.fst) : objSet o k v = o ++ [(k, v)] := by
  unfold objSet
  have hany : (o.any fun e => e.1 == k) = false := by
    rw [Bool.eq_false_iff]
    intro hc
    obtain ⟨e, he, hek⟩ := List.any_eq_true.1 hc
    exact h (List.mem_map.2 ⟨e, he, by simpa using hek⟩)
  simp [hany]

theorem foldl_objSet_nodup {κ ν : Type} [BEq κ] [LawfulBEq κ] (f : κ → ν) (ks : List κ)
    (acc : List (κ × ν)) (hnd : ks.Nodup) (hfresh : ∀ k ∈ ks, k ∉ acc.map Prod.fst) :
    ks.foldl (fun a k => objSet a k (f k)) acc = acc ++ ks.map (fun k => (k, f k)) := by
  induction ks generalizing acc with
  | nil => simp
  | cons k ks ih =>
    have hk : k ∉ acc.map Prod.fst := hfresh k (by simp)
    have hnd2 := List.nodup_cons.1 hnd
    rw [List.foldl_cons, objSet_fresh acc k (f k) hk, ih (acc ++ [(k, f k)]) hnd2.2]
    · simp
    · intro k2 hk2
      simp only [List.map_append, List.map_cons, List.map_nil, List.mem_append,
        List.mem_singleton, not_or]
      exact ⟨hfresh k2 (by simp [hk2]), fun e => hnd2.1 (e ▸ hk2)⟩

theorem last7Days_nodup (tz now : Int) : (AdminAnalytics.last7Days tz now).Nodup := by
  rw [last7Days_eq]
  apply List.Nodup.map
  · intro i j hij
    simp only [DayKey.mk.injEq] at hij
    omega
  · exact List.nodup_range 7

/-- The seven-day trend of AdminAnalytics, bucket by bucket. -/
theorem adminTrends_eq (appointments : List Appointment) (tz now : Int) :
    AdminAnalytics.appointmentTrends appointments tz now =
      (List.range 7).map (fun i : Nat =>
        ({ date := dayLabel (localDay tz now - 6 + (i : Int))
           total :=
            (appointments.filter
              (fun a => decide (localDay tz a.date = localDay tz now - 6 + (i : Int)))).length
           completed :=
            (appointments.filter
              (fun a => decide (localDay tz a.date = localDay tz now - 6 + (i : Int)) &&
                a.isCompleted)).length
           cancelled :=
            (appointments.filter
              (fun a => decide (localDay tz a.date = localDay tz now - 6 + (i : Int)) &&
                a.cancelled)).length } : AdminAnalytics.TrendPoint)) := by
  have hfilter : ∀ day : DayKey, AdminAnalytics.dayAppointments appointments tz day =
      appointments.filter (fun a => decide (localDay tz a.date = day.day)) := by
    intro day
    unfold AdminAnalytics.dayAppointments
    apply List.filter_congr
    intro a _
    cases day with
    | mk dd =>
      rw [Bool.eq_iff_iff]
      simp [formatYMD]
  unfold AdminAnalytics.appointmentTrends AdminAnalytics.appointmentsByDay
  rw [foldl_objSet_nodup _ _ [] (last7Days_nodup tz now) (by simp), last7Days_eq]
  simp only [List.nil_append, List.map_map]
  apply List.map_congr_left
  intro i _
  simp only [Function.comp, hfilter, List.filter_filter, formatMMMdd, parseISO,
    localDay_startOfLocalDay]
  refine congrArg₂ (fun (c x : Nat) => (⟨_, _, c, x⟩ : AdminAnalytics.TrendPoint)) ?_ ?_
  · congr 1
    apply List.filter_congr
    intro a _
    exact Bool.and_comm _ _
  · congr 1
    apply List.filter_congr
    intro a _
    exact Bool.and_comm _ _

/-- C8: whatever the appointment list (the empty one included) and the current
instant, the AdminAnalytics trend has exactly seven buckets, labelled with the
calendar days from six days before today to today in ascending order, and the
bucket of a day on which no appointment falls has total, completed and
cancelled all 0. -/
theorem C8_admin_trend_seven_buckets (appointments : List Appointment) (tz now : Int) :
    (AdminAnalytics.appointmentTrends appointments tz now).length = 7 ∧
    (AdminAnalytics.appointmentTrends appointments tz now).map (·.date) =
      (List.range 7).map (fun i : Nat => dayLabel (localDay tz now - 6 + (i : Int))) ∧
    ∀ i : Nat, i < 7 →
      (∀ a ∈ appointments, localDay tz a.date ≠ localDay tz now - 6 + (i : Int)) →
      (AdminAnalytics.appointmentTrends appointments tz now).get? i =
        some { date := dayLabel (localDay tz now - 6 + (i : Int)),
               total := 0, completed := 0, cancelled := 0 } := by
  rw [adminTrends_eq]
  refine ⟨by simp, by simp [List.map_map, Function.comp], ?_⟩
  intro i hi hnone
  have h0 : ∀ q : Appointment → Bool,
      (appointments.filter
        (fun a => decide (localDay tz a.date = localDay tz now - 6 + (i : Int)) && q a)) =
        [] := by
    intro q
    rw [List.filter_eq_nil_iff]
    intro a ha
    simp [hnone a ha]
  have h1 : (appointments.filter
      (fun a => decide (localDay tz a.date = localDay tz now - 6 + (i : Int)))) = [] := by
    rw [List.filter_eq_nil_iff]
    intro a ha
    simp [hnone a ha]
  rw [List.get?_eq_getElem?, List.getElem?_map, List.getElem?_range hi]
  simp [h0, h1]

/-- C8 at a concrete input: with one appointment created on 3 July 2025 and the
clock at 3 July 2025, 02:00 UTC, no appointment falls on the first day of the
window and its bucket reads zero. -/
theorem C8_admin_trend_seven_buckets_witness :
    (∀ a ∈ [bookedJuly1CreatedJuly3],
      localDay 0 a.date ≠ localDay 0 july3at2 - 6 + ((0 : Nat) : Int)) ∧
    (AdminAnalytics.appointmentTrends [bookedJuly1CreatedJuly3] 0 july3at2).get? 0 =
      some { date := dayLabel (localDay 0 july3at2 - 6 + ((0 : Nat) : Int)),
             total := 0, completed := 0, cancelled := 0 } :=
  ⟨by decide,
    (C8_admin_trend_seven_buckets [bookedJuly1CreatedJuly3] 0 july3at2).2.2 0 (by decide)
      (by decide)⟩

theorem doctorWeekTrend_dates (filtered : List Appointment) (tz today : Int) :
    (DoctorAnalytics.appointmentTrends filtered "week" tz today).map (·.date) =
      (List.range 7).map (fun i : Nat => weekdayAbbrev (localDay tz today - 6 + (i : Int))) := by
  have hr : List.range 7 = [0, 1, 2, 3, 4, 5, 6] := by decide
  have hw : ("week" : String) ≠ "month" := by decide
  have hy : ("week" : String) ≠ "year" := by decide
  simp only [DoctorAnalytics.appointmentTrends, DoctorAnalytics.dateRange,
    DoctorAnalytics.formatBucket, if_true, if_neg hw, if_neg hy, hr, List.map_cons,
    List.map_nil, localDay_subDays, List.cons.injEq, and_true]
  refine ⟨?_, ?_, ?_, ?_, ?_, ?_, ?_⟩ <;> congr 1 <;> omega

/-- C9 (as amended): in DoctorAnalytics with the `week` time frame, for every
non-empty appointment list the recompute effect stores a trend of exactly seven
buckets, labelled with the weekdays of the calendar days from six days before
today to today in ascending order; for the empty list the effect does not
recompute and the trend keeps its previous value, which is empty until a
non-empty list has been processed. -/
theorem C9_doctor_week_trend (analytics : DoctorAnalytics.Analytics)
    (appointments : List Appointment) (tz today : Int) :
    (appointments ≠ [] →
      (DoctorAnalytics.recomputeEffect analytics appointments "week" tz today).appointmentTrends.length
          = 7 ∧
      (DoctorAnalytics.recomputeEffect analytics appointments "week" tz today).appointmentTrends.map
          (·.date) =
        (List.range 7).map (fun i : Nat => weekdayAbbrev (localDay tz today - 6 + (i : Int)))) ∧
    DoctorAnalytics.recomputeEffect analytics [] "week" tz today = analytics ∧
    DoctorAnalytics.initialAnalytics.appointmentTrends = [] := by
  refine ⟨?_, rfl, rfl⟩
  intro hne
  have hpos : appointments.length > 0 := List.length_pos.2 hne
  have hd := doctorWeekTrend_dates
    (DoctorAnalytics.filteredAppointments appointments "week" tz today) tz today
  simp only [DoctorAnalytics.recomputeEffect, if_pos hpos, DoctorAnalytics.processAnalytics]
  refine ⟨?_, hd⟩
  have hl := congrArg List.length hd
  simpa using hl

/-- C9 at a concrete input: one appointment, clock at 3 July 2025, 02:00 UTC. -/
theorem C9_doctor_week_trend_witness :
    (DoctorAnalytics.recomputeEffect DoctorAnalytics.initialAnalytics [bookedJuly1CreatedJuly3]
        "week" 0 july3at2).appointmentTrends.length = 7 ∧
    (DoctorAnalytics.recomputeEffect DoctorAnalytics.initialAnalytics [bookedJuly1CreatedJuly3]
        "week" 0 july3at2).appointmentTrends.map (·.date) =
      (List.range 7).map (fun i : Nat => weekdayAbbrev (localDay 0 july3at2 - 6 + (i : Int))) :=
  (C9_doctor_week_trend DoctorAnalytics.initialAnalytics [bookedJuly1CreatedJuly3] 0
    july3at2).1 (by decide)

/-- C9 as stated fails for the empty list: the effect does not run
`processAnalytics`, so the trend shown is the initial one, with no bucket. -/
theorem C9_empty_list_no_buckets :
    (DoctorAnalytics.recomputeEffect DoctorAnalytics.initialAnalytics [] "week" 0
      july3at2).appointmentTrends = [] ∧
    (DoctorAnalytics.recomputeEffect DoctorAnalytics.initialAnalytics [] "week" 0
      july3at2).appointmentTrends.length ≠ 7 := by
  decide

/-- C10 (as amended): each day bucket of the AdminAnalytics seven-day trend has
total, completed and cancelled equal to the number of all, `isCompleted` and
`cancelled` appointments whose `date` field, read as an epoch-millisecond
timestamp, falls on that bucket's calendar day; `slotDate` is not consulted. -/
theorem C10_admin_trend_counts (appointments : List Appointment) (tz now : Int) :
    AdminAnalytics.appointmentTrends appointments tz now =
      (List.range 7).map (fun i : Nat =>
        ({ date := dayLabel (localDay tz now - 6 + (i : Int))
           total :=
            (appointments.filter
              (fun a => decide (localDay tz a.date = localDay tz now - 6 + (i : Int)))).length
           completed :=
            (appointments.filter
              (fun a => decide (localDay tz a.date = localDay tz now - 6 + (i : Int)) &&
                a.isCompleted)).length
           cancelled :=
            (appointments.filter
              (fun a => decide (localDay tz a.date = localDay tz now - 6 + (i : Int)) &&
                a.cancelled)).length } : AdminAnalytics.TrendPoint)) :=
  adminTrends_eq appointments tz now

/-- C10 as stated fails: an appointment booked for 1 July 2025 (`slotDate`
`1_7_2025`) and created on 3 July 2025 is counted in the bucket of 3 July, not
in the bucket of 1 July. -/
theorem C10_counts_by_creation_day :
    slotDay bookedJuly1CreatedJuly3.slotDate = some (localDay 0 july3at2 - 2) ∧
    (AdminAnalytics.appointmentTrends [bookedJuly1CreatedJuly3] 0 july3at2).map (·.total) =
      [0, 0, 0, 0, 0, 0, 1] ∧
    (trendBySlotDate [bookedJuly1CreatedJuly3] 0 july3at2).map (·.total) =
      [0, 0, 0, 0, 1, 0, 0] ∧
    AdminAnalytics.appointmentTrends [bookedJuly1CreatedJuly3] 0 july3at2 ≠
      trendBySlotDate [bookedJuly1CreatedJuly3] 0 july3at2 := by
  decide

/-! ## Dictionaries built by a fold -/

theorem objSet_keys {κ ν : Type} [BEq κ] [LawfulBEq κ] (o : List (κ × ν)) (k : κ) (v : ν) :
    (objSet o k v).map Prod.fst =
      if k ∈ o.map Prod.fst then o.map Prod.fst else o.map Prod.fst ++ [k] := by
  by_cases h : k ∈ o.map Prod.fst
  · rw [if_pos h]
    unfold objSet
    have hany : (o.any fun e => e.1 == k) = true := by
      obtain ⟨e, he, hek⟩ := List.mem_map.1 h
      exact List.any_eq_true.2 ⟨e, he, by simp [hek]⟩
    rw [if_pos hany, List.map_map]
    apply List.map_congr_left
    intro e _
    by_cases hk : e.1 == k
    · simp only [Function.comp, hk, if_true]
      exact (eq_of_beq hk).symm
    · simp [Function.comp, hk]
  · rw [if_neg h, objSet_fresh o k v h]
    simp

theorem mem_objSet {κ ν : Type} [BEq κ] [LawfulBEq κ] (o : List (κ × ν)) (k : κ) (v : ν)
    (e : κ × ν) : e ∈ objSet o k v ↔ e = (k, v) ∨ (e ∈ o ∧ e.1 ≠ k) := by
  by_cases h : k ∈ o.map Prod.fst
  · unfold objSet
    have hany : (o.any fun e => e.1 == k) = true := by
      obtain ⟨e, he, hek⟩ := List.mem_map.1 h
      exact List.any_eq_true.2 ⟨e, he, by simp [hek]⟩
    rw [if_pos hany, List.mem_map]
    constructor
    · rintro ⟨x, hx, rfl⟩
      by_cases hk : x.1 == k
      · left; simp [hk]
      · right
        have hk2 : (x.1 == k) = false := by simpa using hk
        simp only [hk2, Bool.false_eq_true, if_false]
        exact ⟨hx, fun e => hk (by simp [e])⟩
    · rintro (rfl | ⟨he, hne⟩)
      · obtain ⟨x, hx, hxk⟩ := List.mem_map.1 h
        exact ⟨x, hx, by simp [hxk]⟩
      · refine ⟨e, he, ?_⟩
        have : (e.1 == k) = false := by simpa using hne
        simp [this]
  · rw [objSet_fresh o k v h, List.mem_append, List.mem_singleton]
    constructor
    · rintro (he | rfl)
      · right
        exact ⟨he, fun hk => h (List.mem_map.2 ⟨e, he, hk⟩)⟩
      · left; rfl
    · rintro (rfl | ⟨he, _⟩)
      · right; rfl
      · left; exact he

theorem objGet_eq_none {κ ν : Type} [BEq κ] [LawfulBEq κ] (o : List (κ × ν)) (k : κ)
    (h : k ∉ o.map Prod.fst) : objGet o k = none := by
  unfold objGet
  have : o.find? (fun e => e.1 == k) = none := by
    rw [List.find?_eq_none]
    intro x hx hxk
    exact h (List.mem_map.2 ⟨x, hx, by simpa using hxk⟩)
  rw [this]
  rfl

theorem objGet_eq_some {κ ν : Type} [BEq κ] [LawfulBEq κ] (o : List (κ × ν)) (k : κ) (v : ν)
    (hnd : (o.map Prod.fst).Nodup) (h : (k, v) ∈ o) : objGet o k = some v := by
  induction o with
  | nil => simp at h
  | cons x o ih =>
    have hnd2 : x.1 ∉ o.map Prod.fst ∧ (o.map Prod.fst).Nodup := by
      rw [List.map_cons] at hnd
      exact List.nodup_cons.1 hnd
    rcases List.mem_cons.1 h with hx | hx
    · subst hx
      simp [objGet]
    · have hne : (x.1 == k) = false := by
        rw [beq_eq_false_iff_ne]
        intro e
        exact hnd2.1 (List.mem_map.2 ⟨(k, v), hx, e.symm⟩)
      have := ih hnd2.2 hx
      simpa [objGet, List.find?_cons, hne] using this

/-- A dictionary built by a fold that stores, under the key of each element,
a value computed from the element and the value already stored: the keys are
distinct, they are the keys of the elements, and every additive measure of a
stored value counts the elements of that key. -/
theorem groupFold_spec {α κ ν : Type} [BEq κ] [LawfulBEq κ] (key : α → κ)
    (g : α → Option ν → ν) (l : List α) :
    ((l.foldl (fun acc a => objSet acc (key a) (g a (objGet acc (key a)))) []).map
        Prod.fst).Nodup ∧
    (∀ k, k ∈ (l.foldl (fun acc a => objSet acc (key a) (g a (objGet acc (key a)))) []).map
        Prod.fst ↔ k ∈ l.map key) ∧
    ∀ (m : ν → Nat) (p : α → Bool), (∀ a, m (g a none) = if p a then 1 else 0) →
      (∀ a v, m (g a (some v)) = m v + if p a then 1 else 0) →
      ∀ e ∈ l.foldl (fun acc a => objSet acc (key a) (g a (objGet acc (key a)))) [],
        m e.2 = (l.filter (fun a => key a == e.1 && p a)).length := by
  induction l using List.reverseRecOn with
  | nil => simp
  | append_singleton l a ih =>
    obtain ⟨hnd, hmem, hcount⟩ := ih
    rw [List.foldl_append, List.foldl_cons, List.foldl_nil]
    generalize hR : l.foldl (fun acc a => objSet acc (key a) (g a (objGet acc (key a)))) [] = R
      at hnd hmem hcount
    refine ⟨?_, ?_, ?_⟩
    · rw [objSet_keys]
      split_ifs with h
      · exact hnd
      · exact List.nodup_append.2 ⟨hnd, by simp, by simpa using h⟩
    · intro k
      rw [objSet_keys]
      split_ifs with h
      · rw [hmem, List.map_append, List.mem_append]
        constructor
        · exact Or.inl
        · rintro (hk | hk)
          · exact hk
          · simp only [List.map_cons, List.map_nil, List.mem_singleton] at hk
            rw [hk]
            exact (hmem _).1 h
      · simp [hmem]
    · intro m p h0 h1 e he
      rw [mem_objSet] at he
      rw [List.filter_append, List.length_append]
      rcases he with rfl | ⟨he, hne⟩
      · by_cases h : key a ∈ R.map Prod.fst
        · obtain ⟨x, hx, hxk⟩ := List.mem_map.1 h
          have hx2 : (key a, x.2) ∈ R := by rw [← hxk]; exact hx
          rw [objGet_eq_some R (key a) x.2 hnd hx2]
          simp only [h1, List.filter_cons, List.filter_nil, beq_self_eq_true, Bool.true_and]
          have := hcount m p h0 h1 (key a, x.2) hx2
          simp only at this
          rw [this]
          split_ifs <;> simp
        · rw [objGet_eq_none R (key a) h]
          have hz : (l.filter (fun b => key b == key a && p b)) = [] := by
            rw [List.filter_eq_nil_iff]
            intro b hb hbk
            simp only [Bool.and_eq_true, beq_iff_eq] at hbk
            exact h ((hmem _).2 (List.mem_map.2 ⟨b, hb, hbk.1⟩))
          simp only [h0, hz, List.filter_cons, List.filter_nil, beq_self_eq_true, Bool.true_and,
            List.length_nil, Nat.zero_add]
          split_ifs <;> simp
      · have hk : (key a == e.1) = false := by
          rw [beq_eq_false_iff_ne]
          exact fun h => hne h.symm
        rw [hcount m p h0 h1 e he]
        simp [List.filter_cons, hk]

/-- The counting idiom: the keys are distinct, they are the keys of the
elements, and each stored value is the number of elements of its key. -/
theorem countFold_spec {α : Type} (key : α → String) (l : List α) :
    ((l.foldl (fun acc a => objIncr acc (key a)) []).map Prod.fst).Nodup ∧
    (∀ k, k ∈ (l.foldl (fun acc a => objIncr acc (key a)) []).map Prod.fst ↔ k ∈ l.map key) ∧
    ∀ e ∈ l.foldl (fun acc a => objIncr acc (key a)) [],
      e.2 = (l.filter (fun a => key a == e.1)).length := by
  have h := groupFold_spec key (fun (_ : α) (ov : Option Nat) => ov.getD 0 + 1) l
  refine ⟨h.1, h.2.1, ?_⟩
  intro e he
  have := h.2.2 id (fun _ => true) (by simp) (by simp) e he
  simpa using this

theorem filter_values_length {κ : Type} (R : List (κ × Nat)) (cnt : κ → Nat) (q : Nat → Bool)
    (h : ∀ e ∈ R, e.2 = cnt e.1) :
    ((objValues R).filter q).length = ((R.map Prod.fst).filter (fun k => q (cnt k))).length := by
  induction R with
  | nil => rfl
  | cons x R ih =>
    have hx : x.2 = cnt x.1 := h x (by simp)
    have ih2 := ih (fun e he => h e (by simp [he]))
    simp only [objValues, List.map_cons, List.filter_cons] at ih2 ⊢
    rw [hx]
    split_ifs <;> simp [objValues, ih2]

theorem count_eq_filter_length (l : List Appointment) (f : Appointment → String) (k : String) :
    (l.filter (fun a => f a == k)).length = (l.map f).count k := by
  induction l with
  | nil => rfl
  | cons a l ih =>
    by_cases h : f a = k
    · simp [List.filter_cons, List.count_cons, h, ih]
    · have h2 : (f a == k) = false := by simpa using h
      simp [List.filter_cons, List.count_cons, h, h2, ih]

theorem keys_perm_dedup (R : List (String × Nat)) (xs : List String)
    (hnd : (R.map Prod.fst).Nodup) (hmem : ∀ k, k ∈ R.map Prod.fst ↔ k ∈ xs) :
    (R.map Prod.fst).Perm xs.dedup :=
  (List.perm_ext_iff_of_nodup hnd (List.nodup_dedup xs)).2
    (fun k => by rw [hmem, List.mem_dedup])

theorem filter_one_add_filter_gt {κ : Type} (cnt : κ → Nat) (ks : List κ)
    (hpos : ∀ u ∈ ks, 1 ≤ cnt u) :
    (ks.filter (fun u => cnt u == 1)).length + (ks.filter (fun u => decide (cnt u > 1))).length =
      ks.length := by
  induction ks with
  | nil => rfl
  | cons k ks ih =>
    have hk := hpos k (by simp)
    have ih2 := ih (fun u hu => hpos u (by simp [hu]))
    by_cases hk1 : cnt k = 1
    · have a : (cnt k == 1) = true := by simp [hk1]
      have b : decide (cnt k > 1) = false := by simp [hk1]
      simp only [List.filter_cons, a, b, if_true, Bool.false_eq_true, if_false, List.length_cons]
      omega
    · have a : (cnt k == 1) = false := by simp [hk1]
      have b : decide (cnt k > 1) = true := by
        rw [decide_eq_true_eq]
        omega
      simp only [List.filter_cons, a, b, if_true, Bool.false_eq_true, if_false, List.length_cons]
      omega

/-! ## C16: patient return rate -/

/-- C16: for every list of appointments of the window, `First-time` is the number
of distinct `userId`s with exactly one appointment in the list, `Returning` the
number with more than one, and the two values sum to the number of distinct
`userId`s; `processAnalytics` passes the window list. -/
theorem C16_return_rate (filtered : List Appointment) :
    DoctorAnalytics.returnRateData filtered =
      [ { name := "First-time",
          value :=
            (((filtered.map (·.userId)).dedup).filter
              (fun u => (filtered.map (·.userId)).count u == 1)).length },
        { name := "Returning",
          value :=
            (((filtered.map (·.userId)).dedup).filter
              (fun u => decide ((filtered.map (·.userId)).count u > 1))).length } ] ∧
    ((DoctorAnalytics.returnRateData filtered).map (·.value)).sum =
      ((filtered.map (·.userId)).dedup).length ∧
    ∀ (appointments : List Appointment) (timeFrame : String) (tz today : Int),
      (DoctorAnalytics.processAnalytics appointments timeFrame tz today).returnRateData =
        DoctorAnalytics.returnRateData
          (DoctorAnalytics.filteredAppointments appointments timeFrame tz today) := by
  obtain ⟨hnd, hmem, hcnt⟩ := countFold_spec (fun a : Appointment => a.userId) filtered
  have hperm := keys_perm_dedup _ _ hnd hmem
  have hval : ∀ e ∈ DoctorAnalytics.patientVisits filtered,
      e.2 = (filtered.map (·.userId)).count e.1 := by
    intro e he
    rw [hcnt e he, count_eq_filter_length]
  have h1 := filter_values_length (DoctorAnalytics.patientVisits filtered)
    (fun u => (filtered.map (·.userId)).count u) (fun v => v == 1) hval
  have h2 := filter_values_length (DoctorAnalytics.patientVisits filtered)
    (fun u => (filtered.map (·.userId)).count u) (fun v => decide (v > 1)) hval
  have e1 := (hperm.filter (fun u => (filtered.map (·.userId)).count u == 1)).length_eq
  have e2 := (hperm.filter (fun u => decide ((filtered.map (·.userId)).count u > 1))).length_eq
  have hmain : DoctorAnalytics.returnRateData filtered =
      [ { name := "First-time",
          value :=
            (((filtered.map (·.userId)).dedup).filter
              (fun u => (filtered.map (·.userId)).count u == 1)).length },
        { name := "Returning",
          value :=
            (((filtered.map (·.userId)).dedup).filter
              (fun u => decide ((filtered.map (·.userId)).count u > 1))).length } ] := by
    unfold DoctorAnalytics.returnRateData
    rw [h1, h2]
    unfold DoctorAnalytics.patientVisits
    rw [e1, e2]
  refine ⟨hmain, ?_, fun _ _ _ _ => rfl⟩
  rw [hmain]
  simp only [List.map_cons, List.map_nil, List.sum_cons, List.sum_nil, Nat.add_zero]
  exact filter_one_add_filter_gt _ _
    (fun u hu => List.count_pos_iff.2 (List.mem_dedup.1 hu))

/-! ## C13: specialty distribution -/

/-- C13 (as amended): `specialtyDistribution` has no group named `null` or
`undefined` and at most one group per name; the group of an appointment is
named by the `specialization` field of the doctor snapshot, or when that is
absent or empty by the `speciality` field, or when both are absent or empty (in
particular when the snapshot is missing) by the fallback `General`; the
spelling `specialty` is not read.  Each group's value is the number of
appointments of that name, and every appointment whose name is not `null` or
`undefined` has its group. -/
theorem C13_specialty_distribution (appointments : List Appointment) :
    (∀ g ∈ AdminAnalytics.specialtyDistribution appointments,
      g.name ≠ "null" ∧ g.name ≠ "undefined" ∧
      g.value =
        (appointments.filter (fun a => AdminAnalytics.specialtyLabel a == g.name)).length) ∧
    ((AdminAnalytics.specialtyDistribution appointments).map (·.name)).Nodup ∧
    (∀ a ∈ appointments, AdminAnalytics.specialtyLabel a ≠ "null" →
      AdminAnalytics.specialtyLabel a ≠ "undefined" →
      AdminAnalytics.specialtyLabel a ∈
        (AdminAnalytics.specialtyDistribution appointments).map (·.name)) ∧
    (∀ a : Appointment, a.docData = none → AdminAnalytics.specialtyLabel a = "General") ∧
    (∀ (a : Appointment) (d : DocData), a.docData = some d →
      (d.specialization = none ∨ d.specialization = some "") →
      (d.speciality = none ∨ d.speciality = some "") →
      AdminAnalytics.specialtyLabel a = "General") := by
  obtain ⟨hnd, hmem, hcnt⟩ := countFold_spec AdminAnalytics.specialtyLabel appointments
  have hin : ∀ g, g ∈ AdminAnalytics.specialtyDistribution appointments ↔
      ((g.name, g.value) ∈ AdminAnalytics.specialtyCount appointments ∧
        g.name ≠ "undefined" ∧ g.name ≠ "null") := by
    intro g
    simp only [AdminAnalytics.specialtyDistribution, List.mem_filter, List.mem_map,
      Bool.and_eq_true, bne_iff_ne, ne_eq]
    constructor
    · rintro ⟨⟨e, he, rfl⟩, h1, h2⟩
      exact ⟨he, h1, h2⟩
    · rintro ⟨he, h1, h2⟩
      exact ⟨⟨(g.name, g.value), he, rfl⟩, h1, h2⟩
  refine ⟨?_, ?_, ?_, ?_, ?_⟩
  · intro g hg
    obtain ⟨he, h1, h2⟩ := (hin g).1 hg
    exact ⟨h2, h1, hcnt _ he⟩
  · unfold AdminAnalytics.specialtyDistribution
    have hsub : List.Sublist
        ((((AdminAnalytics.specialtyCount appointments).map
          (fun e => ({ name := e.1, value := e.2 } : AdminAnalytics.NamedValue))).filter
          (fun item => item.name != "undefined" && item.name != "null")).map (·.name))
        ((AdminAnalytics.specialtyCount appointments).map Prod.fst) := by
      have h1 := (List.filter_sublist
        (p := fun item : AdminAnalytics.NamedValue =>
          item.name != "undefined" && item.name != "null")
        ((AdminAnalytics.specialtyCount appointments).map
          (fun e => ({ name := e.1, value := e.2 } : AdminAnalytics.NamedValue)))).map (·.name)
      simpa [List.map_map, Function.comp] using h1
    exact hsub.nodup hnd
  · intro a ha h1 h2
    have hk : AdminAnalytics.specialtyLabel a ∈
        (AdminAnalytics.specialtyCount appointments).map Prod.fst :=
      (hmem _).2 (List.mem_map.2 ⟨a, ha, rfl⟩)
    obtain ⟨e, he, hek⟩ := List.mem_map.1 hk
    refine List.mem_map.2 ⟨{ name := e.1, value := e.2 }, (hin _).2 ⟨he, ?_, ?_⟩, hek⟩
    · simpa [hek] using h2
    · simpa [hek] using h1
  · intro a ha
    simp [AdminAnalytics.specialtyLabel, ha, jsOr, jsOrDefault]
  · intro a d ha hs hy
    rcases hs with hs | hs <;> rcases hy with hy | hy <;>
      simp [AdminAnalytics.specialtyLabel, ha, hs, hy, jsOr, jsOrDefault, jsTruthy]

/-- C13 at a concrete input: an appointment without a snapshot and one whose
snapshot only has the `specialty` spelling are both counted under `General`. -/
theorem C13_specialty_distribution_witness :
    AdminAnalytics.specialtyLabel { _id := "a" } = "General" ∧
    AdminAnalytics.specialtyLabel
      { _id := "b", docData := some { specialty := some "Cardiologist" } } = "General" ∧
    AdminAnalytics.specialtyLabel
        { _id := "b", docData := some { specialty := some "Cardiologist" } } ∈
      (AdminAnalytics.specialtyDistribution
        [{ _id := "a" }, { _id := "b", docData := some { specialty := some "Cardiologist" } }]).map
        (·.name) :=
  ⟨(C13_specialty_distribution []).2.2.2.1 { _id := "a" } rfl,
    (C13_specialty_distribution []).2.2.2.2
      { _id := "b", docData := some { specialty := some "Cardiologist" } }
      { specialty := some "Cardiologist" } rfl (Or.inl rfl) (Or.inl rfl),
    (C13_specialty_distribution
      [{ _id := "a" }, { _id := "b", docData := some { specialty := some "Cardiologist" } }]).2.2.1
      { _id := "b", docData := some { specialty := some "Cardiologist" } } (by decide)
      (by decide) (by decide)⟩

/-- C13 as stated fails: an appointment whose snapshot has neither a
`speciality` nor a `specialty` field but has `specialization` set to `Heart` is
counted under `Heart`, and no `General` group is produced. -/
theorem C13_specialization_read_first :
    AllAppointments.docSpecialty { docData := some { specialization := some "Heart" } } = "" ∧
    AdminAnalytics.specialtyDistribution
        [{ docData := some { specialization := some "Heart" } }] =
      [{ name := "Heart", value := 1 }] := by
  decide

/-! ## Sorting -/

theorem jsSort_perm {α : Type} (le : α → α → Bool) (l : List α) : (jsSort le l).Perm l :=
  List.perm_insertionSort _ l

/-- Sorting by a comparator `f b - f a` leaves the list in non-increasing order
of `f`. -/
theorem jsSort_desc_sorted {α : Type} (f : α → Nat) (l : List α) :
    (jsSort (fun a b => decide ((f b : Int) - (f a : Int) ≤ 0)) l).Pairwise
      (fun a b => f b ≤ f a) := by
  have htot : IsTotal α (fun a b => decide ((f b : Int) - (f a : Int) ≤ 0) = true) :=
    ⟨fun a b => by
      simp only [decide_eq_true_eq]
      omega⟩
  have htr : IsTrans α (fun a b => decide ((f b : Int) - (f a : Int) ≤ 0) = true) :=
    ⟨fun a b c => by
      simp only [decide_eq_true_eq]
      omega⟩
  have h := @List.sorted_insertionSort α
    (fun a b => decide ((f b : Int) - (f a : Int) ≤ 0) = true) _ htot htr l
  refine List.Pairwise.imp ?_ h
  intro a b hab
  simp only [decide_eq_true_eq] at hab
  omega

theorem orderedInsert_congr {α : Type} (r r' : α → α → Prop) [DecidableRel r] [DecidableRel r']
    (a : α) (l : List α) (h : ∀ b ∈ l, r a b ↔ r' a b) :
    List.orderedInsert r a l = List.orderedInsert r' a l := by
  induction l with
  | nil => rfl
  | cons b l ih =>
    have hb := h b (by simp)
    have ih2 := ih (fun c hc => h c (by simp [hc]))
    simp only [List.orderedInsert]
    by_cases hr : r a b
    · rw [if_pos hr, if_pos (hb.1 hr)]
    · rw [if_neg hr, if_neg (fun h2 => hr (hb.2 h2)), ih2]

theorem insertionSort_congr {α : Type} (r r' : α → α → Prop) [DecidableRel r] [DecidableRel r']
    (l : List α) (h : ∀ a ∈ l, ∀ b ∈ l, r a b ↔ r' a b) :
    List.insertionSort r l = List.insertionSort r' l := by
  induction l with
  | nil => rfl
  | cons a l ih =>
    have ih2 := ih (fun x hx y hy => h x (by simp [hx]) y (by simp [hy]))
    simp only [List.insertionSort]
    rw [ih2]
    apply orderedInsert_congr
    intro b hb
    have hb2 : b ∈ l := (List.perm_insertionSort r' l).subset hb
    exact h a (by simp) b (by simp [hb2])

theorem take_drop_order {α : Type} (f : α → Nat) (l : List α) (n : Nat)
    (h : l.Pairwise (fun a b => f b ≤ f a)) :
    ∀ x ∈ l.drop n, ∀ y ∈ l.take n, f x ≤ f y := by
  intro x hx y hy
  have h2 : (l.take n ++ l.drop n).Pairwise (fun a b => f b ≤ f a) := by
    rw [List.take_append_drop]
    exact h
  exact (List.pairwise_append.1 h2).2.2 y hy x hx

/-! ## C12: per-doctor statistics -/

/-- The `doctorStats` object of AdminAnalytics: one entry per distinct `docId`,
whose counters count the appointments of that doctor and whose `total` is the
sum of `completed`, `cancelled` and `pending`. -/
theorem adminDoctorStats_spec (appointments : List Appointment) :
    ((AdminAnalytics.doctorStats appointments).map Prod.fst).Nodup ∧
    (∀ k, k ∈ (AdminAnalytics.doctorStats appointments).map Prod.fst ↔
      k ∈ appointments.map (·.docId)) ∧
    ∀ e ∈ AdminAnalytics.doctorStats appointments,
      e.2.total = (appointments.filter (fun a => a.docId == e.1)).length ∧
      e.2.completed =
        (appointments.filter (fun a => a.docId == e.1 && a.isCompleted)).length ∧
      e.2.total = e.2.completed + e.2.cancelled + e.2.pending := by
  have h := groupFold_spec (fun a : Appointment => a.docId)
    (fun a ov => AdminAnalytics.bumpDoctorStat a (ov.getD (AdminAnalytics.freshDoctorStat a)))
    appointments
  refine ⟨h.1, h.2.1, ?_⟩
  intro e he
  have ht := h.2.2 (fun d => d.total) (fun _ => true)
    (by simp [AdminAnalytics.bumpDoctorStat, AdminAnalytics.freshDoctorStat])
    (by simp [AdminAnalytics.bumpDoctorStat]) e he
  have hc := h.2.2 (fun d => d.completed) (fun a => a.isCompleted)
    (by
      intro a
      cases h1 : a.isCompleted <;>
        simp [AdminAnalytics.bumpDoctorStat, AdminAnalytics.freshDoctorStat, h1])
    (by
      intro a v
      cases h1 : a.isCompleted <;> simp [AdminAnalytics.bumpDoctorStat, h1])
    e he
  have hs := h.2.2 (fun d => d.completed + d.cancelled + d.pending) (fun _ => true)
    (by
      intro a
      cases h1 : a.isCompleted <;> cases h2 : a.cancelled <;>
        simp [AdminAnalytics.bumpDoctorStat, AdminAnalytics.freshDoctorStat, h1, h2])
    (by
      intro a v
      cases h1 : a.isCompleted <;> cases h2 : a.cancelled <;>
        simp [AdminAnalytics.bumpDoctorStat, h1, h2] <;> omega)
    e he
  simp only [Bool.and_true] at ht hs
  exact ⟨ht, hc, by rw [ht, ← hs]⟩

/-- The `doctorPerformance` list of AdminAnalytics: the entries of `doctorStats`
in non-increasing order of `total`, cut to the first ten, so that there are
`min 10` (number of distinct `docId`s) of them and no omitted entry has a larger
`total` than a listed one. -/
theorem adminDoctorPerformance_spec (appointments : List Appointment) :
    (jsSort (fun a b => decide ((b.total : Int) - (a.total : Int) ≤ 0))
        (objValues (AdminAnalytics.doctorStats appointments))).Perm
      (objValues (AdminAnalytics.doctorStats appointments)) ∧
    (AdminAnalytics.doctorPerformance appointments).Pairwise (fun a b => b.total ≤ a.total) ∧
    (AdminAnalytics.doctorPerformance appointments).length =
      min 10 ((appointments.map (·.docId)).dedup).length ∧
    ∀ x ∈ (jsSort (fun a b => decide ((b.total : Int) - (a.total : Int) ≤ 0))
        (objValues (AdminAnalytics.doctorStats appointments))).drop 10,
      ∀ y ∈ AdminAnalytics.doctorPerformance appointments, x.total ≤ y.total := by
  have hs := jsSort_desc_sorted (fun d : AdminAnalytics.DoctorStat => d.total)
    (objValues (AdminAnalytics.doctorStats appointments))
  have hp := jsSort_perm (fun a b : AdminAnalytics.DoctorStat =>
    decide ((b.total : Int) - (a.total : Int) ≤ 0))
    (objValues (AdminAnalytics.doctorStats appointments))
  obtain ⟨hnd, hmem, -⟩ := adminDoctorStats_spec appointments
  have hlen : ((AdminAnalytics.doctorStats appointments).map Prod.fst).length =
      ((appointments.map (·.docId)).dedup).length :=
    ((List.perm_ext_iff_of_nodup hnd (List.nodup_dedup _)).2
      (fun k => by rw [hmem, List.mem_dedup])).length_eq
  refine ⟨hp, ?_, ?_, ?_⟩
  · exact hs.sublist (List.take_sublist _ _)
  · unfold AdminAnalytics.doctorPerformance
    rw [List.length_take, hp.length_eq, ← hlen]
    simp [objValues]
  · exact take_drop_order (fun d : AdminAnalytics.DoctorStat => d.total) _ 10 hs

theorem dashboardDoctorStats_total (appointments : List Appointment)
    (acc : List (String × Dashboard.DoctorStat)) (h : ∀ a ∈ appointments, a.docData ≠ none) :
    appointments.foldlM Dashboard.doctorStatsStep acc =
      some (appointments.foldl
        (fun acc a =>
          objSet acc a.docId
            (Dashboard.bumpDoctorStat a
              ((objGet acc a.docId).getD (Dashboard.freshDoctorStat a (a.docData.getD {})))))
        acc) := by
  induction appointments generalizing acc with
  | nil => rfl
  | cons a l ih =>
    have ha := h a (by simp)
    have hl := fun acc2 => ih acc2 (fun b hb => h b (by simp [hb]))
    obtain ⟨d, hd⟩ := Option.ne_none_iff_exists'.1 ha
    rw [List.foldlM_cons, List.foldl_cons]
    cases hg : objGet acc a.docId with
    | none =>
      simp only [Dashboard.doctorStatsStep, hg, hd, Option.getD_none, Option.getD_some]
      exact hl _
    | some e =>
      simp only [Dashboard.doctorStatsStep, hg, Option.getD_some]
      exact hl _

/-- The per-doctor statistics of the admin Dashboard on a list in which every
appointment carries a doctor snapshot: they are computed, there is one entry per
distinct `docId`, each entry's total counts the appointments of that doctor and
is the sum of its three status counters, and `mostSelectedDoctors` is the first
three entries in non-increasing order of total. -/
theorem dashboardDoctorStats_spec (appointments : List Appointment)
    (h : ∀ a ∈ appointments, a.docData ≠ none) :
    ∃ stats, Dashboard.doctorStats appointments = some stats ∧
      (stats.map Prod.fst).Nodup ∧
      (∀ k, k ∈ stats.map Prod.fst ↔ k ∈ appointments.map (·.docId)) ∧
      (∀ e ∈ stats,
        e.2.totalAppointments = (appointments.filter (fun a => a.docId == e.1)).length ∧
        e.2.totalAppointments =
          e.2.completedAppointments + e.2.cancelledAppointments + e.2.pendingAppointments) ∧
      ∃ top, Dashboard.mostSelectedDoctors appointments = some top ∧
        top.Pairwise (fun a b => b.totalAppointments ≤ a.totalAppointments) ∧
        top.length = min 3 ((appointments.map (·.docId)).dedup).length := by
  have htot := dashboardDoctorStats_total appointments [] h
  have hg := groupFold_spec (fun a : Appointment => a.docId)
    (fun a ov =>
      Dashboard.bumpDoctorStat a (ov.getD (Dashboard.freshDoctorStat a (a.docData.getD {}))))
    appointments
  refine ⟨_, htot, hg.1, hg.2.1, ?_, ?_⟩
  · intro e he
    have ht := hg.2.2 (fun d => d.totalAppointments) (fun _ => true)
      (by simp [Dashboard.bumpDoctorStat, Dashboard.freshDoctorStat])
      (by simp [Dashboard.bumpDoctorStat]) e he
    have hs := hg.2.2
      (fun d => d.completedAppointments + d.cancelledAppointments + d.pendingAppointments)
      (fun _ => true)
      (by
        intro a
        cases h1 : a.isCompleted <;> cases h2 : a.cancelled <;>
          simp [Dashboard.bumpDoctorStat, Dashboard.freshDoctorStat, h1, h2])
      (by
        intro a v
        cases h1 : a.isCompleted <;> cases h2 : a.cancelled <;>
          simp [Dashboard.bumpDoctorStat, h1, h2] <;> omega)
      e he
    simp only [Bool.and_true] at ht hs
    exact ⟨ht, by rw [ht, ← hs]⟩
  · refine ⟨_, by rw [Dashboard.mostSelectedDoctors, Dashboard.doctorStats, htot]; rfl, ?_, ?_⟩
    · exact (jsSort_desc_sorted (fun d : Dashboard.DoctorStat => d.totalAppointments) _).sublist
        (List.take_sublist _ _)
    · have hlen := ((List.perm_ext_iff_of_nodup hg.1 (List.nodup_dedup _)).2
        (fun k => by rw [hg.2.1, List.mem_dedup])).length_eq
      rw [List.length_take, (jsSort_perm _ _).length_eq, ← hlen]
      simp [objValues]

/-- C12, the failing input: for a list holding an appointment without a doctor
snapshot the per-doctor statistics of the admin Dashboard are not computed at
all (reading `app.docData.name` throws), while AdminAnalytics lists the doctor
with its total of 1. -/
theorem C12_dashboard_stats_throw_without_snapshot :
    Dashboard.doctorStats [{ _id := "a1", docId := "d1" }] = none ∧
    Dashboard.mostSelectedDoctors [{ _id := "a1", docId := "d1" }] = none ∧
    AdminAnalytics.doctorPerformance [{ _id := "a1", docId := "d1" }] =
      [{ name := "Unknown", specialization := "General", completed := 0, cancelled := 0,
         pending := 1, total := 1 }] := by
  decide

/-! ## C14-C15: time-slot distributions -/

theorem foldl_if {α β : Type} (p : α → Bool) (f : β → α → β) (l : List α) (init : β) :
    l.foldl (fun acc a => if p a then f acc a else acc) init = (l.filter p).foldl f init := by
  induction l generalizing init with
  | nil => rfl
  | cons a l ih =>
    by_cases h : p a = true
    · simp [List.filter_cons, h, ih]
    · simp [List.filter_cons, h, ih]

/-- The time-slot distribution of AdminAnalytics, order apart: one entry per
distinct non-empty `slotTime`, holding the number of appointments at that
slot. -/
theorem adminTimeDistribution_counts (appointments : List Appointment) :
    ((AdminAnalytics.appointmentTimeDistribution appointments).map (·.time)).Nodup ∧
    (∀ t, t ∈ (AdminAnalytics.appointmentTimeDistribution appointments).map (·.time) ↔
      t ≠ "" ∧ t ∈ appointments.map (·.slotTime)) ∧
    ∀ e ∈ AdminAnalytics.appointmentTimeDistribution appointments,
      e.count = (appointments.filter (fun a => a.slotTime == e.time)).length := by
  have hts : AdminAnalytics.timeSlots appointments =
      (appointments.filter (fun a => jsTruthy a.slotTime)).foldl
        (fun acc a => objIncr acc a.slotTime) [] := by
    unfold AdminAnalytics.timeSlots
    exact foldl_if (fun a : Appointment => jsTruthy a.slotTime)
      (fun acc a => objIncr acc a.slotTime) appointments []
  obtain ⟨hnd, hmem, hcnt⟩ := countFold_spec (fun a : Appointment => a.slotTime)
    (appointments.filter (fun a => jsTruthy a.slotTime))
  rw [← hts] at hnd hmem hcnt
  have hp := jsSort_perm (fun a b : AdminAnalytics.TimeCount =>
    decide (jsLocaleCompare a.time b.time ≤ 0))
    ((AdminAnalytics.timeSlots appointments).map
      (fun e => ({ time := e.1, count := e.2 } : AdminAnalytics.TimeCount)))
  have hkeys : ((AdminAnalytics.appointmentTimeDistribution appointments).map (·.time)).Perm
      ((AdminAnalytics.timeSlots appointments).map Prod.fst) := by
    have := hp.map (·.time)
    simpa [AdminAnalytics.appointmentTimeDistribution, List.map_map, Function.comp] using this
  have hmem2 : ∀ t, t ∈ (AdminAnalytics.timeSlots appointments).map Prod.fst ↔
      t ≠ "" ∧ t ∈ appointments.map (·.slotTime) := by
    intro t
    rw [hmem]
    simp only [List.mem_map, List.mem_filter, jsTruthy, bne_iff_ne, ne_eq]
    constructor
    · rintro ⟨a, ⟨ha, hne⟩, rfl⟩
      exact ⟨hne, a, ha, rfl⟩
    · rintro ⟨hne, a, ha, rfl⟩
      exact ⟨a, ⟨ha, hne⟩, rfl⟩
  refine ⟨hkeys.nodup_iff.2 hnd, fun t => by rw [hkeys.mem_iff, hmem2], ?_⟩
  intro e he
  have he2 := hp.subset he
  obtain ⟨x, hx, rfl⟩ := List.mem_map.1 he2
  have hne : x.1 ≠ "" := ((hmem2 x.1).1 (List.mem_map.2 ⟨x, hx, rfl⟩)).1
  show x.2 = (appointments.filter (fun a => a.slotTime == x.1)).length
  rw [hcnt x hx, List.filter_filter]
  congr 1
  apply List.filter_congr
  intro a _
  by_cases h : a.slotTime = x.1
  · simp [h, jsTruthy, hne]
  · simp [h]

/-- C14, the failing input: for appointments at `9:00 AM` and `10:00 AM` the
AdminAnalytics distribution lists `10:00 AM` before `9:00 AM`, and for the
slots `9:00 AM`, `10:00 AM`, `1:00 PM` of the specification the result is not in
chronological order either (`9:00 AM` comes last): the entries are sorted as
text by `localeCompare`. -/
theorem C14_time_slots_sorted_as_text :
    AdminAnalytics.appointmentTimeDistribution
        [{ slotTime := "9:00 AM" }, { slotTime := "10:00 AM" }] =
      [{ time := "10:00 AM", count := 1 }, { time := "9:00 AM", count := 1 }] ∧
    clock24 9 0 false < clock24 10 0 false ∧
    (AdminAnalytics.appointmentTimeDistribution
        [{ slotTime := "9:00 AM" }, { slotTime := "10:00 AM" }, { slotTime := "1:00 PM" }]).map
      (·.time) ≠ ["9:00 AM", "10:00 AM", "1:00 PM"] ∧
    ((AdminAnalytics.appointmentTimeDistribution
        [{ slotTime := "9:00 AM" }, { slotTime := "10:00 AM" }, { slotTime := "1:00 PM" }]).map
      (·.time)).getLast? = some "9:00 AM" := by
  decide

theorem slotClockMs_slotTimeString (h m : Nat) (pm : Bool) (h1 : 1 ≤ h) (h2 : h ≤ 12)
    (hm : m < 60) :
    slotClockMs (slotTimeString h m pm) = some ((clock24 h m pm : Int) * 60000) := by
  have key : ∀ pm : Bool, ∀ h ∈ List.range 13, ∀ m ∈ List.range 60, 1 ≤ h →
      slotClockMs (slotTimeString h m pm) = some ((clock24 h m pm : Int) * 60000) := by
    intro pm
    cases pm <;> decide
  exact key pm h (List.mem_range.2 (by omega)) m (List.mem_range.2 hm) h1

theorem exists_slots (ts : List String)
    (h : ∀ t ∈ ts, ∃ h m pm, 1 ≤ h ∧ h ≤ 12 ∧ m < 60 ∧ t = slotTimeString h m pm) :
    ∃ slots : List (Nat × Nat × Bool),
      (∀ t ∈ slots, 1 ≤ t.1 ∧ t.1 ≤ 12 ∧ t.2.1 < 60) ∧
      ts = slots.map (fun t => slotTimeString t.1 t.2.1 t.2.2) := by
  induction ts with
  | nil => exact ⟨[], by simp, rfl⟩
  | cons t ts ih =>
    obtain ⟨slots, hv, he⟩ := ih (fun x hx => h x (by simp [hx]))
    obtain ⟨hh, m, pm, a, b, c, d⟩ := h t (by simp)
    refine ⟨(hh, m, pm) :: slots, ?_, ?_⟩
    · intro x hx
      rcases List.mem_cons.1 hx with rfl | hx
      · exact ⟨a, b, c⟩
      · exact hv x hx
    · rw [List.map_cons, ← he, d]

/-- C15: for every list of appointments of the window whose `slotTime`s are
12-hour `h:mm AM` / `h:mm PM` labels, `timeDistribution` has one entry per
distinct `slotTime`, holding the number of appointments at that slot, and the
entries are in chronological order of the time of day, where 12 AM is hour 0,
AM precedes PM and 12 PM precedes 1 PM. -/
theorem C15_time_distribution_chronological (filtered : List Appointment)
    (hform : ∀ a ∈ filtered, ∃ h m pm, 1 ≤ h ∧ h ≤ 12 ∧ m < 60 ∧
      a.slotTime = slotTimeString h m pm) :
    ((DoctorAnalytics.timeDistribution filtered).map (·.time)).Nodup ∧
    (∀ t, t ∈ (DoctorAnalytics.timeDistribution filtered).map (·.time) ↔
      t ∈ filtered.map (·.slotTime)) ∧
    (∀ e ∈ DoctorAnalytics.timeDistribution filtered,
      e.appointments = (filtered.filter (fun a => a.slotTime == e.time)).length) ∧
    ∃ slots : List (Nat × Nat × Bool),
      (∀ t ∈ slots, 1 ≤ t.1 ∧ t.1 ≤ 12 ∧ t.2.1 < 60) ∧
      (DoctorAnalytics.timeDistribution filtered).map (·.time) =
        slots.map (fun t => slotTimeString t.1 t.2.1 t.2.2) ∧
      (slots.map (fun t => clock24 t.1 t.2.1 t.2.2)).Pairwise (fun x y => x ≤ y) := by
  obtain ⟨hnd, hmem, hcnt⟩ := countFold_spec (fun a : Appointment => a.slotTime) filtered
  have hp := jsSort_perm DoctorAnalytics.timeNotAfter
    ((DoctorAnalytics.timeSlots filtered).map
      (fun e => ({ time := e.1, appointments := e.2 } : DoctorAnalytics.TimeSlot)))
  have hkeys : ((DoctorAnalytics.timeDistribution filtered).map (·.time)).Perm
      ((DoctorAnalytics.timeSlots filtered).map Prod.fst) := by
    have := hp.map (·.time)
    simpa [DoctorAnalytics.timeDistribution, List.map_map, Function.comp] using this
  have hmemD : ∀ t, t ∈ (DoctorAnalytics.timeDistribution filtered).map (·.time) ↔
      t ∈ filtered.map (·.slotTime) := fun t => by
    rw [hkeys.mem_iff]
    exact hmem t
  have hformD : ∀ t ∈ (DoctorAnalytics.timeDistribution filtered).map (·.time),
      ∃ h m pm, 1 ≤ h ∧ h ≤ 12 ∧ m < 60 ∧ t = slotTimeString h m pm := by
    intro t ht
    obtain ⟨a, ha, rfl⟩ := List.mem_map.1 ((hmemD t).1 ht)
    exact hform a ha
  have hclk : ∀ t ∈ (DoctorAnalytics.timeDistribution filtered).map (·.time),
      ∃ c : Int, slotClockMs t = some c := by
    intro t ht
    obtain ⟨h, m, pm, h1, h2, h3, rfl⟩ := hformD t ht
    exact ⟨_, slotClockMs_slotTimeString h m pm h1 h2 h3⟩
  -- on the entries, the comparator is the order of the parsed clock
  have hrel : ∀ a ∈ (DoctorAnalytics.timeSlots filtered).map
        (fun e => ({ time := e.1, appointments := e.2 } : DoctorAnalytics.TimeSlot)),
      ∀ b ∈ (DoctorAnalytics.timeSlots filtered).map
        (fun e => ({ time := e.1, appointments := e.2 } : DoctorAnalytics.TimeSlot)),
      (DoctorAnalytics.timeNotAfter a b = true ↔
        (slotClockMs a.time).getD 0 ≤ (slotClockMs b.time).getD 0) := by
    intro a ha b hb
    obtain ⟨ca, hca⟩ := hclk a.time (List.mem_map.2 ⟨a, hp.symm.subset ha, rfl⟩)
    obtain ⟨cb, hcb⟩ := hclk b.time (List.mem_map.2 ⟨b, hp.symm.subset hb, rfl⟩)
    simp only [DoctorAnalytics.timeNotAfter, hca, hcb, Option.getD_some, decide_eq_true_eq]
    omega
  have hsorted : (DoctorAnalytics.timeDistribution filtered).Pairwise
      (fun a b => (slotClockMs a.time).getD 0 ≤ (slotClockMs b.time).getD 0) := by
    have htot : IsTotal DoctorAnalytics.TimeSlot
        (fun a b => (slotClockMs a.time).getD 0 ≤ (slotClockMs b.time).getD 0) :=
      ⟨fun a b => le_total _ _⟩
    have htr : IsTrans DoctorAnalytics.TimeSlot
        (fun a b => (slotClockMs a.time).getD 0 ≤ (slotClockMs b.time).getD 0) :=
      ⟨fun a b c h1 h2 => le_trans h1 h2⟩
    have h := @List.sorted_insertionSort DoctorAnalytics.TimeSlot
      (fun a b => (slotClockMs a.time).getD 0 ≤ (slotClockMs b.time).getD 0) _ htot htr
      ((DoctorAnalytics.timeSlots filtered).map
        (fun e => ({ time := e.1, appointments := e.2 } : DoctorAnalytics.TimeSlot)))
    unfold DoctorAnalytics.timeDistribution jsSort
    rw [insertionSort_congr _
      (fun a b => (slotClockMs a.time).getD 0 ≤ (slotClockMs b.time).getD 0) _ hrel]
    exact h
  refine ⟨hkeys.nodup_iff.2 hnd, hmemD, ?_, ?_⟩
  · intro e he
    obtain ⟨x, hx, rfl⟩ := List.mem_map.1 (hp.subset he)
    exact hcnt x hx
  · obtain ⟨slots, hv, he⟩ := exists_slots _ hformD
    refine ⟨slots, hv, he, ?_⟩
    have h1 : ((DoctorAnalytics.timeDistribution filtered).map (·.time)).Pairwise
        (fun s t => (slotClockMs s).getD 0 ≤ (slotClockMs t).getD 0) :=
      List.pairwise_map.2 hsorted
    rw [he, List.pairwise_map] at h1
    rw [List.pairwise_map]
    refine List.Pairwise.imp_of_mem ?_ h1
    intro a b ha hb hab
    obtain ⟨a1, a2, a3⟩ := hv a ha
    obtain ⟨b1, b2, b3⟩ := hv b hb
    rw [slotClockMs_slotTimeString _ _ _ a1 a2 a3, slotClockMs_slotTimeString _ _ _ b1 b2 b3]
      at hab
    simp only [Option.getD_some] at hab
    omega

/-- C15 at a concrete input: five appointments at `1:00 PM`, `12:30 AM`,
`9:00 AM`, `12:15 PM` and `9:00 AM` give four entries without a repeated slot,
in the order `12:30 AM`, `9:00 AM`, `12:15 PM`, `1:00 PM`. -/
theorem C15_time_distribution_chronological_witness :
    ((DoctorAnalytics.timeDistribution slotSample).map (·.time)).Nodup ∧
    DoctorAnalytics.timeDistribution slotSample =
      [ { time := "12:30 AM", appointments := 1 }, { time := "9:00 AM", appointments := 2 },
        { time := "12:15 PM", appointments := 1 }, { time := "1:00 PM", appointments := 1 } ] :=
  ⟨(C15_time_distribution_chronological slotSample (by
      intro a ha
      simp only [slotSample, List.mem_cons, List.mem_singleton, List.not_mem_nil, or_false] at ha
      rcases ha with rfl | rfl | rfl | rfl | rfl
      · exact ⟨1, 0, true, by decide, by decide, by decide, by decide⟩
      · exact ⟨12, 30, false, by decide, by decide, by decide, by decide⟩
      · exact ⟨9, 0, false, by decide, by decide, by decide, by decide⟩
      · exact ⟨12, 15, true, by decide, by decide, by decide, by decide⟩
      · exact ⟨9, 0, false, by decide, by decide, by decide, by decide⟩)).1,
    by decide⟩

/-! ## C17-C19: the specialty filter of All Appointments -/

theorem docSpecialty_eq_iff (a : Appointment) (s : String) (hs : s ≠ "") :
    (AllAppointments.docSpecialty a == s) = decide (specialtyOf a = some s) := by
  have hs2 : ¬ "" = s := fun h => hs h.symm
  rw [Bool.eq_iff_iff]
  simp only [beq_iff_eq, decide_eq_true_eq]
  unfold AllAppointments.docSpecialty specialtyOf
  cases hd : a.docData with
  | none => simp [jsOr, jsOrEmpty, hs2]
  | some d =>
    rcases d with ⟨nm, im, sp, sy, sz⟩
    cases sp with
    | none => cases sy <;> simp [jsOr, jsOrEmpty, hs2]
    | some x =>
      by_cases hx0 : x = ""
      · subst hx0
        cases sy <;> simp [jsOr, jsOrEmpty, jsTruthy, hs2]
      · simp [jsOr, jsOrEmpty, jsTruthy, hx0]

theorem jsTruthy_of_ne (s : String) (hs : s ≠ "") : jsTruthy s = true := by
  simp [jsTruthy, hs]

/-- C17: with a non-empty selected value `s` the specialty filter keeps exactly
the appointments whose specialty, read from the field spelled `speciality` or,
when that is absent or empty, from the field spelled `specialty`, equals `s`;
an appointment without a doctor snapshot or with neither field is never
kept. -/
theorem C17_specialty_filter (s : String) (hs : s ≠ "") (results : List Appointment) :
    AllAppointments.applySpecialtyFilter s results =
      results.filter (fun a => decide (specialtyOf a = some s)) ∧
    ∀ a ∈ AllAppointments.applySpecialtyFilter s results,
      a.docData ≠ none ∧ specialtyOf a ≠ none := by
  have h : AllAppointments.applySpecialtyFilter s results =
      results.filter (fun a => decide (specialtyOf a = some s)) := by
    unfold AllAppointments.applySpecialtyFilter
    rw [if_pos (jsTruthy_of_ne s hs)]
    apply List.filter_congr
    intro a _
    exact docSpecialty_eq_iff a s hs
  refine ⟨h, ?_⟩
  intro a ha
  rw [h, List.mem_filter, decide_eq_true_eq] at ha
  refine ⟨?_, by rw [ha.2]; simp⟩
  intro hnone
  have := ha.2
  simp [specialtyOf, hnone] at this

/-- C17 at a concrete input: `Cardiologist` keeps the two cardiology appointments
of the five. -/
theorem C17_specialty_filter_witness :
    AllAppointments.applySpecialtyFilter "Cardiologist" fiveBySpecialty =
      fiveBySpecialty.filter (fun a => decide (specialtyOf a = some "Cardiologist")) :=
  (C17_specialty_filter "Cardiologist" (by decide) fiveBySpecialty).1

/-- C18: on a non-empty collection, with a date-picker value and a non-empty
specialty both selected, the filter effect stores exactly the appointments whose
`slotDate` equals the date key and whose specialty equals the selected one, in
their original order; this is the specialty filter applied to the output of
the date filter and also the date filter applied to the output of the
specialty filter. -/
theorem C18_filters_intersect (appointments cache : List Appointment) (y m d : Nat)
    (s : String) (hne : appointments ≠ []) (hm : 1 ≤ m ∧ m ≤ 12) (hd : 1 ≤ d ∧ d ≤ 31)
    (hs : s ≠ "") :
    AllAppointments.filterEffect appointments (pickerValue y m d) s cache =
      appointments.filter
        (fun a => a.slotDate == toString d ++ "_" ++ toString m ++ "_" ++ pad4 y &&
          decide (specialtyOf a = some s)) ∧
    AllAppointments.filterEffect appointments (pickerValue y m d) s cache =
      AllAppointments.applySpecialtyFilter s
        (AllAppointments.applyDateFilter (pickerValue y m d) appointments) ∧
    AllAppointments.filterEffect appointments (pickerValue y m d) s cache =
      AllAppointments.applyDateFilter (pickerValue y m d)
        (AllAppointments.applySpecialtyFilter s appointments) ∧
    List.Sublist (AllAppointments.filterEffect appointments (pickerValue y m d) s cache)
      appointments := by
  have hlen : appointments.length ≠ 0 := fun h => hne (List.length_eq_zero.1 h)
  have hdate : ∀ l : List Appointment, AllAppointments.applyDateFilter (pickerValue y m d) l =
      l.filter (fun a => a.slotDate == toString d ++ "_" ++ toString m ++ "_" ++ pad4 y) := by
    intro l
    simp only [AllAppointments.applyDateFilter, jsTruthy_pickerValue, if_true,
      searchDate_pickerValue y m d hm hd]
  have hspec : ∀ l : List Appointment, AllAppointments.applySpecialtyFilter s l =
      l.filter (fun a => decide (specialtyOf a = some s)) := by
    intro l
    unfold AllAppointments.applySpecialtyFilter
    rw [if_pos (jsTruthy_of_ne s hs)]
    apply List.filter_congr
    intro a _
    exact docSpecialty_eq_iff a s hs
  have h1 : AllAppointments.filterEffect appointments (pickerValue y m d) s cache =
      appointments.filter
        (fun a => a.slotDate == toString d ++ "_" ++ toString m ++ "_" ++ pad4 y &&
          decide (specialtyOf a = some s)) := by
    unfold AllAppointments.filterEffect
    rw [if_neg hlen, hdate, hspec, List.filter_filter]
    apply List.filter_congr
    intro a _
    exact Bool.and_comm _ _
  refine ⟨h1, ?_, ?_, ?_⟩
  · unfold AllAppointments.filterEffect
    rw [if_neg hlen]
  · rw [h1, hspec, hdate, List.filter_filter]
  · rw [h1]
    exact List.filter_sublist _

/-- C18 at a concrete input: of three appointments, only the cardiology
appointment of 3 July 2025 passes both filters. -/
theorem C18_filters_intersect_witness :
    AllAppointments.filterEffect
        [ { _id := "x", slotDate := "3_7_2025",
            docData := some { speciality := some "Cardiologist" } },
          { _id := "y", slotDate := "3_7_2025", docData := some { speciality := some "ENT" } },
          { _id := "z", slotDate := "4_7_2025",
            docData := some { speciality := some "Cardiologist" } } ]
        (pickerValue 2025 7 3) "Cardiologist" [] =
      AllAppointments.applyDateFilter (pickerValue 2025 7 3)
        (AllAppointments.applySpecialtyFilter "Cardiologist"
          [ { _id := "x", slotDate := "3_7_2025",
              docData := some { speciality := some "Cardiologist" } },
            { _id := "y", slotDate := "3_7_2025", docData := some { speciality := some "ENT" } },
            { _id := "z", slotDate := "4_7_2025",
              docData := some { speciality := some "Cardiologist" } } ]) :=
  (C18_filters_intersect _ [] 2025 7 3 "Cardiologist" (by decide) (by decide) (by decide)
    (by decide)).2.2.1

theorem docSpecialty_ne_empty (a : Appointment) (h : AllAppointments.docSpecialty a ≠ "") :
    a.docData.isSome = true := by
  cases hd : a.docData with
  | none => simp [AllAppointments.docSpecialty, jsOr, jsOrEmpty, hd] at h
  | some d => rfl

theorem renderRows_of_snapshots (rows : List Appointment)
    (h : ∀ a ∈ rows, a.docData ≠ none) : AllAppointments.renderRows rows = some rows := by
  unfold AllAppointments.renderRows
  rw [if_pos]
  rw [List.all_eq_true]
  intro a ha
  cases hd : a.docData with
  | none => exact absurd hd (h a ha)
  | some d => rfl

theorem renderRows_specialty (l : List Appointment) (s : String) (hs : s ≠ "") :
    AllAppointments.renderRows (l.filter (fun a => AllAppointments.docSpecialty a == s)) =
      some (l.filter (fun a => AllAppointments.docSpecialty a == s)) := by
  apply renderRows_of_snapshots
  intro a ha hnone
  have hsp : AllAppointments.docSpecialty a = s := by simpa using (List.mem_filter.1 ha).2
  have := docSpecialty_ne_empty a (by rw [hsp]; exact hs)
  rw [hnone] at this
  exact absurd this (by decide)

theorem specialtyRows_eq (appointments cache : List Appointment) (s : String) (hs : s ≠ "")
    (hne : appointments ≠ []) :
    AllAppointments.displayedRows appointments
        (AllAppointments.filterEffect appointments "" s cache) "" s =
      some (appointments.filter (fun a => AllAppointments.docSpecialty a == s)) := by
  have hlen : appointments.length ≠ 0 := fun h => hne (List.length_eq_zero.1 h)
  have ht := jsTruthy_of_ne s hs
  have he : jsTruthy "" = false := by decide
  simp only [AllAppointments.displayedRows, AllAppointments.filterEffect, if_neg hlen, ht, he,
    Bool.false_or, if_true, AllAppointments.applyDateFilter, Bool.false_eq_true, if_false,
    AllAppointments.applySpecialtyFilter]
  exact renderRows_specialty appointments s hs

/-- C19 (as amended): with no date filter and the specialty filter set to a
non-empty `s`, once the filter effect has run on a non-empty collection the rows
displayed are exactly the appointments of the collection whose specialty is `s`;
with no filter active, for a collection whose appointments all carry a doctor
snapshot, the rows displayed are the whole collection, whatever the cache of
filtered results holds.  For two cardiology appointments among five,
`Cardiologist` displays two rows and clearing it displays all five. -/
theorem C19_displayed_rows :
    (∀ (appointments cache : List Appointment) (s : String), s ≠ "" → appointments ≠ [] →
      AllAppointments.displayedRows appointments
          (AllAppointments.filterEffect appointments "" s cache) "" s =
        some (appointments.filter (fun a => decide (specialtyOf a = some s)))) ∧
    (∀ appointments cache : List Appointment, (∀ a ∈ appointments, a.docData ≠ none) →
      AllAppointments.displayedRows appointments cache "" "" = some appointments) ∧
    (AllAppointments.displayedRows fiveBySpecialty
        (AllAppointments.filterEffect fiveBySpecialty "" "Cardiologist" []) ""
        "Cardiologist").map List.length = some 2 ∧
    (AllAppointments.displayedRows fiveBySpecialty
        (AllAppointments.filterEffect fiveBySpecialty "" ""
          (AllAppointments.filterEffect fiveBySpecialty "" "Cardiologist" []))
        "" "").map List.length = some 5 := by
  refine ⟨?_, ?_, by decide, by decide⟩
  · intro appointments cache s hs hne
    rw [specialtyRows_eq appointments cache s hs hne]
    congr 1
    apply List.filter_congr
    intro a _
    exact docSpecialty_eq_iff a s hs
  · intro appointments cache hall
    have he : jsTruthy "" = false := by decide
    simp only [AllAppointments.displayedRows, he, Bool.or_self, Bool.false_eq_true, if_false]
    exact renderRows_of_snapshots appointments hall

/-- C19 at a concrete input: `Cardiologist` on the five appointments, and the
five appointments with no filter. -/
theorem C19_displayed_rows_witness :
    AllAppointments.displayedRows fiveBySpecialty
        (AllAppointments.filterEffect fiveBySpecialty "" "Cardiologist" []) "" "Cardiologist" =
      some (fiveBySpecialty.filter (fun a => decide (specialtyOf a = some "Cardiologist"))) ∧
    AllAppointments.displayedRows fiveBySpecialty [] "" "" = some fiveBySpecialty :=
  ⟨C19_displayed_rows.1 fiveBySpecialty [] "Cardiologist" (by decide) (by decide),
    C19_displayed_rows.2.1 fiveBySpecialty [] (by decide)⟩

/-- C19 as stated fails once the collection has become empty: the filter effect
returns early and leaves the cache as it was, so with `Cardiologist` selected
the two cardiology rows of the previous collection are still displayed although
the collection holds no appointment. -/
theorem C19_stale_rows_on_empty_collection :
    AllAppointments.displayedRows []
        (AllAppointments.filterEffect [] "" "Cardiologist"
          (AllAppointments.filterEffect fiveBySpecialty "" "Cardiologist" []))
        "" "Cardiologist" =
      some
        [ { _id := "c1", docData := some { speciality := some "Cardiologist" } },
          { _id := "c2", docData := some { speciality := some "Cardiologist" } } ] ∧
    ([] : List Appointment).filter (fun a => decide (specialtyOf a = some "Cardiologist")) =
      [] := by
  decide

/-! ## C20: the text search of the doctor Appointments list -/

/-- C20 (as amended): an appointment is listed iff it passes the status tab and
either the search term is empty after trimming or the lower-cased term is a
substring of the lower-cased full name (`lastName firstName middleName`), of the
lower-cased display date or of the lower-cased slot time; consequently two
search terms that have the same lower-cased form, and are both empty or both
non-empty after trimming, give the same list. -/
theorem C20_text_search :
    (∀ (toLowerCase slotDateFormat : String → String) (appointments : List Appointment)
        (activeTab searchTerm : String),
      DoctorAppointments.filteredAppointments toLowerCase slotDateFormat appointments activeTab
          searchTerm =
        appointments.filter
          (fun a => passesTab activeTab a &&
            matchesSearch toLowerCase slotDateFormat searchTerm a)) ∧
    (∀ (toLowerCase slotDateFormat : String → String) (appointments : List Appointment)
        (activeTab t1 t2 : String),
      toLowerCase t1 = toLowerCase t2 → (jsTrim t1 = "" ↔ jsTrim t2 = "") →
      DoctorAppointments.filteredAppointments toLowerCase slotDateFormat appointments activeTab
          t1 =
        DoctorAppointments.filteredAppointments toLowerCase slotDateFormat appointments activeTab
          t2) := by
  have h1 : ∀ (g f : String → String) (appointments : List Appointment)
      (activeTab searchTerm : String),
      DoctorAppointments.filteredAppointments g f appointments activeTab searchTerm =
        appointments.filter
          (fun a => passesTab activeTab a && matchesSearch g f searchTerm a) := by
    intro g f l tab term
    unfold DoctorAppointments.filteredAppointments
    apply List.filter_congr
    intro a _
    have hua : ("upcoming" : String) ≠ "approved" := by decide
    have huc : ("upcoming" : String) ≠ "cancelled" := by decide
    have hac : ("approved" : String) ≠ "cancelled" := by decide
    have hbb : (jsTrim term == "") = decide (jsTrim term = "") := by
      rw [Bool.eq_iff_iff]
      simp
    simp only [matchesSearch, hbb]
    by_cases hb : jsTrim term = "" <;>
    by_cases hu : tab = "upcoming" <;> by_cases ha : tab = "approved" <;>
      by_cases hc : tab = "cancelled" <;>
      cases hx : a.cancelled <;> cases hy : a.isCompleted <;>
      simp_all [passesTab]
  refine ⟨h1, ?_⟩
  intro g f l tab t1 t2 hlow hb
  rw [h1, h1]
  apply List.filter_congr
  intro a _
  have hb2 : (jsTrim t1 == "") = (jsTrim t2 == "") := by
    rw [Bool.eq_iff_iff]
    simpa using hb
  simp only [matchesSearch, hlow, hb2]

/-- C20 at a concrete input: for the patient `NUÑEZ` the terms `nuñez` and
`NUÑEZ` have the same lower-cased form and both list the appointment. -/
theorem C20_text_search_witness :
    DoctorAppointments.filteredAppointments jsToLowerCase (fun _ => "3 Jul 2025")
        [patientNunez, patientKivanc] "all" "nuñez" =
      DoctorAppointments.filteredAppointments jsToLowerCase (fun _ => "3 Jul 2025")
        [patientNunez, patientKivanc] "all" "NUÑEZ" ∧
    DoctorAppointments.filteredAppointments jsToLowerCase (fun _ => "3 Jul 2025")
        [patientNunez, patientKivanc] "all" "nuñez" = [patientNunez] :=
  ⟨C20_text_search.2 jsToLowerCase _ _ _ "nuñez" "NUÑEZ" (by decide) (by decide), by decide⟩

/-- C20 as stated fails: for the patient `Kıvanç` the term `ı` (dotless i) lists
the appointment, while its upper-case form `I` lower-cases to `i` and lists
nothing. -/
theorem C20_case_change_dotless_i :
    jsToUpperCase "ı" = "I" ∧
    jsToLowerCase "I" = "i" ∧
    jsToLowerCase "Kıvanç Can " = "kıvanç can " ∧
    DoctorAppointments.filteredAppointments jsToLowerCase (fun _ => "3 Jul 2025")
        [patientKivanc] "all" "ı" = [patientKivanc] ∧
    DoctorAppointments.filteredAppointments jsToLowerCase (fun _ => "3 Jul 2025")
        [patientKivanc] "all" (jsToUpperCase "ı") = [] := by
  decide

/-! ## C11: the week window of DoctorAnalytics -/

/-- The buckets of the week trend of DoctorAnalytics: bucket `i` counts the
appointments of day `today - 6 + i` that lie between `subDays(today, 6)`, which
keeps the time of day of `today`, and `today`. -/
theorem doctorWeekTrend_counts (appointments : List Appointment) (tz today : Int) :
    (DoctorAnalytics.processAnalytics appointments "week" tz today).appointmentTrends.map
        (·.appointments) =
      (List.range 7).map (fun i : Nat =>
        (appointments.filter
          (fun a => (decide (subDays today 6 ≤ a.date) && decide (a.date ≤ today)) &&
            decide (localDay tz a.date = localDay tz today - 6 + (i : Int)))).length) := by
  have hr : List.range 7 = [0, 1, 2, 3, 4, 5, 6] := by decide
  have hw : ("week" : String) ≠ "month" := by decide
  have hy : ("week" : String) ≠ "year" := by decide
  simp only [DoctorAnalytics.processAnalytics, DoctorAnalytics.appointmentTrends,
    DoctorAnalytics.dateRange, DoctorAnalytics.filteredAppointments, DoctorAnalytics.startDate,
    DoctorAnalytics.inBucket, isSameDay, if_true, if_neg hy, hr, List.map_cons,
    List.map_nil, localDay_subDays, List.cons.injEq, and_true, List.filter_filter]
  refine ⟨?_, ?_, ?_, ?_, ?_, ?_, ?_⟩ <;>
  · congr 1
    apply List.filter_congr
    intro a _
    rw [Bool.and_comm]
    congr 1
    rw [Bool.eq_iff_iff]
    simp only [beq_iff_eq, decide_eq_true_eq]
    constructor <;> intro h <;> omega

/-- C11, the failing input: with the clock at 3 July 2025, 02:00, an appointment
created on 27 June 2025 at 01:00 falls on the earliest day of the week window
and is not later than the current instant, yet it is outside the window, which
starts at 27 June 02:00, and every bucket reads 0. -/
theorem C11_earliest_day_cut_at_time_of_day :
    localDay 0 createdJune27at1.date = localDay 0 july3at2 - 6 ∧
    createdJune27at1.date ≤ july3at2 ∧
    DoctorAnalytics.startDate "week" 0 july3at2 = 1750989600000 ∧
    DoctorAnalytics.filteredAppointments [createdJune27at1] "week" 0 july3at2 = [] ∧
    (DoctorAnalytics.processAnalytics [createdJune27at1] "week" 0
        july3at2).appointmentTrends.map (·.appointments) = [0, 0, 0, 0, 0, 0, 0] := by
  decide

/-! ## C21, C27: the status cell and the lifecycle -/

theorem offeredActions_ne_nil_iff (screen : Screen) (item : Appointment) :
    offeredActions screen item ≠ [] ↔ (item.cancelled = false ∧ item.isCompleted = false) := by
  cases h1 : item.cancelled <;> cases h2 : item.isCompleted <;> cases screen <;>
    simp [offeredActions, statusCell, h1, h2]

theorem offeredActions_settled (screen : Screen) (item : Appointment)
    (h : item.cancelled = true ∨ item.isCompleted = true) : offeredActions screen item = [] := by
  by_contra hne
  have := (offeredActions_ne_nil_iff screen item).1 hne
  rcases h with h | h <;> simp [this.1, this.2] at h

theorem fireAction_settled (item : Appointment) (step : Screen × LifecycleAction)
    (h : item.cancelled = true ∨ item.isCompleted = true) : fireAction item step = item := by
  simp [fireAction, offeredActions_settled step.1 item h]

theorem fireAction_not_both (item : Appointment) (step : Screen × LifecycleAction)
    (h : ¬ (item.cancelled = true ∧ item.isCompleted = true)) :
    ¬ ((fireAction item step).cancelled = true ∧ (fireAction item step).isCompleted = true) := by
  by_cases hs : item.cancelled = true ∨ item.isCompleted = true
  · rw [fireAction_settled item step hs]
    exact h
  · have h1 : item.cancelled = false := by
      cases hc : item.cancelled
      · rfl
      · exact absurd (Or.inl hc) hs
    have h2 : item.isCompleted = false := by
      cases hc : item.isCompleted
      · rfl
      · exact absurd (Or.inr hc) hs
    unfold fireAction
    split_ifs
    · rcases step with ⟨screen, a⟩
      cases a <;> simp [applyAction, h1, h2]
    · exact h

theorem runActions_settled (item : Appointment) (steps : List (Screen × LifecycleAction))
    (h : item.cancelled = true ∨ item.isCompleted = true) : runActions item steps = item := by
  induction steps with
  | nil => rfl
  | cons s l ih =>
    rw [runActions, List.foldl_cons, fireAction_settled item s h]
    exact ih

theorem runActions_not_both (item : Appointment) (steps : List (Screen × LifecycleAction))
    (h : ¬ (item.cancelled = true ∧ item.isCompleted = true)) :
    ¬ ((runActions item steps).cancelled = true ∧ (runActions item steps).isCompleted = true) := by
  induction steps generalizing item with
  | nil => exact h
  | cons s l ih =>
    rw [runActions, List.foldl_cons]
    exact ih (fireAction item s) (fireAction_not_both item s h)

/-- C21: on each of the four appointment lists a row offers lifecycle actions
exactly when the appointment is pending (neither flag set); when only offered
actions fire, an appointment that is approved or cancelled never changes again,
and an appointment that starts pending never has both flags set. -/
theorem C21_actions_only_while_pending (screen : Screen) (item : Appointment)
    (steps : List (Screen × LifecycleAction)) :
    (offeredActions screen item ≠ [] ↔ (item.cancelled = false ∧ item.isCompleted = false)) ∧
    ((item.cancelled = true ∨ item.isCompleted = true) → runActions item steps = item) ∧
    ((item.cancelled = false ∧ item.isCompleted = false) →
      ¬ ((runActions item steps).cancelled = true ∧
          (runActions item steps).isCompleted = true)) :=
  ⟨offeredActions_ne_nil_iff screen item, runActions_settled item steps,
    fun h => runActions_not_both item steps (by simp [h.1])⟩

/-- C21 on an example: a pending appointment approved on the doctor list stays
approved when a cancel and a second approve are attempted afterwards. -/
theorem C21_actions_only_while_pending_witness :
    runActions { _id := "a1", isCompleted := true }
        [(Screen.adminDashboard, LifecycleAction.cancel),
         (Screen.doctorDashboard, LifecycleAction.approve)] =
      { _id := "a1", isCompleted := true } ∧
    ¬ ((runActions { _id := "a1" }
          [(Screen.doctorAppointments, LifecycleAction.approve),
           (Screen.adminAllAppointments, LifecycleAction.cancel)]).cancelled = true ∧
       (runActions { _id := "a1" }
          [(Screen.doctorAppointments, LifecycleAction.approve),
           (Screen.adminAllAppointments, LifecycleAction.cancel)]).isCompleted = true) :=
  ⟨(C21_actions_only_while_pending Screen.adminDashboard { _id := "a1", isCompleted := true }
      [(Screen.adminDashboard, LifecycleAction.cancel),
       (Screen.doctorDashboard, LifecycleAction.approve)]).2.1 (Or.inr rfl),
   (C21_actions_only_while_pending Screen.adminDashboard { _id := "a1" }
      [(Screen.doctorAppointments, LifecycleAction.approve),
       (Screen.adminAllAppointments, LifecycleAction.cancel)]).2.2 ⟨rfl, rfl⟩⟩

theorem adminBump_countedAs (app : Appointment) (e : AdminAnalytics.DoctorStat) :
    (AdminAnalytics.bumpDoctorStat app e).completed =
      e.completed + (if countedAs app = Status.approved then 1 else 0) ∧
    (AdminAnalytics.bumpDoctorStat app e).cancelled =
      e.cancelled + (if countedAs app = Status.cancelled then 1 else 0) ∧
    (AdminAnalytics.bumpDoctorStat app e).pending =
      e.pending + (if countedAs app = Status.pending then 1 else 0) := by
  cases h1 : app.isCompleted <;> cases h2 : app.cancelled <;>
    simp [AdminAnalytics.bumpDoctorStat, countedAs, h1, h2]

theorem dashboardBump_countedAs (app : Appointment) (e : Dashboard.DoctorStat) :
    (Dashboard.bumpDoctorStat app e).completedAppointments =
      e.completedAppointments + (if countedAs app = Status.approved then 1 else 0) ∧
    (Dashboard.bumpDoctorStat app e).cancelledAppointments =
      e.cancelledAppointments + (if countedAs app = Status.cancelled then 1 else 0) ∧
    (Dashboard.bumpDoctorStat app e).pendingAppointments =
      e.pendingAppointments + (if countedAs app = Status.pending then 1 else 0) := by
  cases h1 : app.isCompleted <;> cases h2 : app.cancelled <;>
    simp [Dashboard.bumpDoctorStat, countedAs, h1, h2]

/-- For every combination of the two flags in which at most one is set, the
counter of the per-doctor statistics that an appointment increments (in
AdminAnalytics and on the admin Dashboard) is the one of the status its row
displays on every appointment list. -/
theorem countedAs_eq_displayed (screen : Screen) (app : Appointment)
    (eA : AdminAnalytics.DoctorStat) (eD : Dashboard.DoctorStat)
    (h : ¬ (app.cancelled = true ∧ app.isCompleted = true)) :
    countedAs app = (statusCell screen app).status ∧
    (AdminAnalytics.bumpDoctorStat app eA).completed =
      eA.completed + (if (statusCell screen app).status = Status.approved then 1 else 0) ∧
    (AdminAnalytics.bumpDoctorStat app eA).cancelled =
      eA.cancelled + (if (statusCell screen app).status = Status.cancelled then 1 else 0) ∧
    (AdminAnalytics.bumpDoctorStat app eA).pending =
      eA.pending + (if (statusCell screen app).status = Status.pending then 1 else 0) ∧
    (Dashboard.bumpDoctorStat app eD).completedAppointments =
      eD.completedAppointments +
        (if (statusCell screen app).status = Status.approved then 1 else 0) ∧
    (Dashboard.bumpDoctorStat app eD).cancelledAppointments =
      eD.cancelledAppointments +
        (if (statusCell screen app).status = Status.cancelled then 1 else 0) ∧
    (Dashboard.bumpDoctorStat app eD).pendingAppointments =
      eD.pendingAppointments +
        (if (statusCell screen app).status = Status.pending then 1 else 0) := by
  have hs : countedAs app = (statusCell screen app).status := by
    cases h1 : app.isCompleted <;> cases h2 : app.cancelled <;> cases screen <;>
      simp [countedAs, statusCell, StatusCell.status, h1, h2] at h ⊢
  rw [← hs]
  exact ⟨rfl, (adminBump_countedAs app eA).1, (adminBump_countedAs app eA).2.1,
    (adminBump_countedAs app eA).2.2, (dashboardBump_countedAs app eD).1,
    (dashboardBump_countedAs app eD).2.1, (dashboardBump_countedAs app eD).2.2⟩

/-- C27, the failing input: an appointment with both flags set is counted as
completed by the per-doctor statistics of AdminAnalytics and of the admin
Dashboard (which test `isCompleted` first), while its row shows `Cancelled` on
the admin and on the doctor lists (which test `cancelled` first). -/
theorem C27_both_flags_counted_completed_shown_cancelled :
    countedAs bothFlagsAppointment = Status.approved ∧
    (statusCell Screen.adminAllAppointments bothFlagsAppointment).status = Status.cancelled ∧
    (statusCell Screen.adminDashboard bothFlagsAppointment).status = Status.cancelled ∧
    (statusCell Screen.doctorAppointments bothFlagsAppointment).status = Status.cancelled ∧
    (statusCell Screen.doctorDashboard bothFlagsAppointment).status = Status.cancelled ∧
    (AdminAnalytics.doctorPerformance [bothFlagsAppointment]).map
        (fun e => (e.completed, e.cancelled, e.pending, e.total)) = [(1, 0, 0, 1)] ∧
    (Dashboard.mostSelectedDoctors [bothFlagsAppointment]).map
        (fun l => l.map (fun e =>
          (e.completedAppointments, e.cancelledAppointments, e.pendingAppointments,
            e.totalAppointments))) = some [(1, 0, 0, 1)] := by
  decide

/-! ## C22: the admin Dashboard statistics on a missing snapshot -/

/-- C22, the failing inputs: whenever an appointment without a doctor snapshot
is the first of its doctor in a list (the appointments before it all having
snapshots), the per-doctor statistics of the admin Dashboard are not computed:
reading `app.docData.name` throws, and no fallback entry is produced. -/
theorem C22_dashboard_stats_fail_on_missing_snapshot (pre post : List Appointment)
    (app : Appointment) (hpre : ∀ a ∈ pre, a.docData ≠ none)
    (hnew : app.docId ∉ pre.map (·.docId)) (hmiss : app.docData = none) :
    Dashboard.doctorStats (pre ++ app :: post) = none ∧
    Dashboard.mostSelectedDoctors (pre ++ app :: post) = none := by
  obtain ⟨stats, hstats, -, hkeys, -⟩ := dashboardDoctorStats_spec pre hpre
  have hget : objGet stats app.docId = none :=
    objGet_eq_none stats app.docId (fun hk => hnew ((hkeys _).1 hk))
  have hstep : Dashboard.doctorStatsStep stats app = none := by
    simp [Dashboard.doctorStatsStep, hget, hmiss]
  have h1 : Dashboard.doctorStats (pre ++ app :: post) = none := by
    unfold Dashboard.doctorStats at hstats ⊢
    rw [List.foldlM_append, hstats]
    simp [List.foldlM_cons, hstep]
  exact ⟨h1, by rw [Dashboard.mostSelectedDoctors, h1]; rfl⟩

/-- C22 on an example: after an appointment of a doctor with a snapshot, an
appointment of another doctor without one makes the Dashboard statistics fail,
while AdminAnalytics lists that doctor as `Unknown` / `General`. -/
theorem C22_dashboard_stats_fail_on_missing_snapshot_witness :
    (Dashboard.doctorStats
        ([{ _id := "a1", docId := "d1", docData := some { name := some "Dr. Cruz" } }] ++
          { _id := "a2", docId := "d2" } :: []) = none ∧
      Dashboard.mostSelectedDoctors
        ([{ _id := "a1", docId := "d1", docData := some { name := some "Dr. Cruz" } }] ++
          { _id := "a2", docId := "d2" } :: []) = none) ∧
    AdminAnalytics.doctorPerformance
        [{ _id := "a1", docId := "d1", docData := some { name := some "Dr. Cruz" } },
         { _id := "a2", docId := "d2" }] =
      [{ name := "Dr. Cruz", specialization := "General", completed := 0, cancelled := 0,
         pending := 1, total := 1 },
       { name := "Unknown", specialization := "General", completed := 0, cancelled := 0,
         pending := 1, total := 1 }] :=
  ⟨C22_dashboard_stats_fail_on_missing_snapshot
      [{ _id := "a1", docId := "d1", docData := some { name := some "Dr. Cruz" } }] []
      { _id := "a2", docId := "d2" } (by decide) (by decide) rfl, by decide⟩

/-! ## C24-C25: the admin context -/

/-- C24: `updateApprovalStatus` sends the update call once; on a reply with
`success` set it then refetches the pending registrations once and takes the
list from that refetch; on any other outcome it sends nothing more and leaves
`pendingRegistrations` as it was; the loading flag is false at the end in every
case. -/
theorem C24_update_approval_calls (st : AdminContext.State) (userId status : String)
    (putReply : AdminContext.Reply Unit)
    (getReply : AdminContext.Reply (Option (List AdminContext.PendingUser))) :
    (AdminContext.updateApprovalStatus st userId status putReply getReply).2 =
      AdminContext.ApiCall.updateApproval userId status ::
        (if putReply.succeeded then [AdminContext.ApiCall.fetchPending] else []) ∧
    (AdminContext.updateApprovalStatus st userId status putReply getReply).1.pendingRegistrations =
      (if putReply.succeeded then
        (AdminContext.fetchPendingRegistrations st getReply).1.pendingRegistrations
      else st.pendingRegistrations) ∧
    (AdminContext.updateApprovalStatus st userId status putReply getReply).1.loading = false := by
  rcases putReply with _ | ⟨success, u⟩
  · simp [AdminContext.updateApprovalStatus, AdminContext.Reply.succeeded]
  · cases success
    · simp [AdminContext.updateApprovalStatus, AdminContext.Reply.succeeded]
    · rcases getReply with _ | ⟨gs, pl⟩
      · simp [AdminContext.updateApprovalStatus, AdminContext.Reply.succeeded,
          AdminContext.fetchPendingRegistrations]
      · cases gs <;>
          simp [AdminContext.updateApprovalStatus, AdminContext.Reply.succeeded,
            AdminContext.fetchPendingRegistrations]

/-- C25: after a successful `getAllAppointments` the collection has the length
of the server list and its element at index `i` is the server element at index
`n - 1 - i`; on a reply without `success` and on a failed request the collection
is unchanged. -/
theorem C25_appointments_reversed (appointments serverList : List Appointment)
    (payload : Option (List Appointment)) (i : Nat) (hi : i < serverList.length) :
    (AdminContext.getAllAppointments appointments
      (AdminContext.Reply.replied true (some serverList))).length = serverList.length ∧
    (AdminContext.getAllAppointments appointments
      (AdminContext.Reply.replied true (some serverList)))[i]? =
        serverList[serverList.length - 1 - i]? ∧
    AdminContext.getAllAppointments appointments (AdminContext.Reply.replied false payload) =
      appointments ∧
    AdminContext.getAllAppointments appointments AdminContext.Reply.failed = appointments := by
  refine ⟨by simp [AdminContext.getAllAppointments], ?_, rfl, rfl⟩
  simp only [AdminContext.getAllAppointments]
  exact List.getElem?_reverse' i (serverList.length - 1 - i) (by omega)

/-- C25 on an example: a server list of three appointments arrives newest
first. -/
theorem C25_appointments_reversed_witness :
    (AdminContext.getAllAppointments []
      (AdminContext.Reply.replied true
        (some [{ _id := "a1" }, { _id := "a2" }, { _id := "a3" }])))[0]? =
      some { _id := "a3" } :=
  (C25_appointments_reversed [] [{ _id := "a1" }, { _id := "a2" }, { _id := "a3" }] none 0
    (by decide)).2.1

/-! ## C23: the password check of the Edit Doctor form -/

theorem passwordsMatchEffect_fresh (f : EditDoctor.Form) :
    (EditDoctor.passwordsMatchEffect f).password = f.password ∧
    (EditDoctor.passwordsMatchEffect f).confirmPassword = f.confirmPassword ∧
    (EditDoctor.passwordsMatchEffect f).calls = f.calls ∧
    (f.password ≠ "" → f.confirmPassword ≠ "" →
      (EditDoctor.passwordsMatchEffect f).passwordsMatch = (f.password == f.confirmPassword)) := by
  unfold EditDoctor.passwordsMatchEffect
  split_ifs with h1 h2
  · exact ⟨rfl, rfl, rfl, fun hp => absurd h1.1 hp⟩
  · exact ⟨rfl, rfl, rfl, fun _ _ => rfl⟩
  · exact ⟨rfl, rfl, rfl, fun hp hc => absurd ⟨hp, hc⟩ h2⟩

/-- While both texts are non-empty the flag is the comparison of the two texts,
whatever edits came before. -/
theorem editDoctor_flag_fresh (es : List EditDoctor.Event) :
    (EditDoctor.run es).password ≠ "" → (EditDoctor.run es).confirmPassword ≠ "" →
      (EditDoctor.run es).passwordsMatch =
        ((EditDoctor.run es).password == (EditDoctor.run es).confirmPassword) := by
  induction es using List.reverseRecOn with
  | nil => intro h; exact absurd rfl h
  | append_singleton l e ih =>
    rw [EditDoctor.run, List.foldl_append, List.foldl_cons, List.foldl_nil]
    change (EditDoctor.step (EditDoctor.run l) e).password ≠ "" →
      (EditDoctor.step (EditDoctor.run l) e).confirmPassword ≠ "" →
      (EditDoctor.step (EditDoctor.run l) e).passwordsMatch =
        ((EditDoctor.step (EditDoctor.run l) e).password ==
          (EditDoctor.step (EditDoctor.run l) e).confirmPassword)
    generalize EditDoctor.run l = f at ih
    cases e with
    | setPassword text =>
      have h := passwordsMatchEffect_fresh { f with password := text }
      simp only [EditDoctor.step]
      rw [h.1, h.2.1]
      exact h.2.2.2
    | setConfirmPassword text =>
      simp only [EditDoctor.step]
      split_ifs
      · have h := passwordsMatchEffect_fresh { f with confirmPassword := text }
        rw [h.1, h.2.1]
        exact h.2.2.2
      · exact ih
    | submit =>
      simp only [EditDoctor.step, EditDoctor.onSubmitHandler]
      split_ifs <;> exact ih

/-- C23, the failing inputs: a non-empty password typed into the fresh form
with the confirmation left empty, then submit: the two texts differ at submit
time, yet an update call is issued and it carries the new password (the check of
lines 73-79 has no branch for exactly one empty field, so `passwordsMatch` keeps
its initial value `true`). -/
theorem C23_password_sent_without_confirmation (p : String) (hp : p ≠ "") :
    (EditDoctor.run [EditDoctor.Event.setPassword p, EditDoctor.Event.submit]).confirmPassword
      = "" ∧
    (EditDoctor.run [EditDoctor.Event.setPassword p, EditDoctor.Event.submit]).password = p ∧
    (EditDoctor.run [EditDoctor.Event.setPassword p, EditDoctor.Event.submit]).calls =
      [{ password := some p }] := by
  have h1 : EditDoctor.passwordsMatchEffect { password := p } = { password := p } := by
    simp [EditDoctor.passwordsMatchEffect, hp]
  have h2 : EditDoctor.run [EditDoctor.Event.setPassword p, EditDoctor.Event.submit] =
      { password := p, calls := [{ password := some p }] } := by
    simp only [EditDoctor.run, List.foldl_cons, List.foldl_nil, EditDoctor.step]
    rw [h1]
    simp [EditDoctor.submitDisabled, EditDoctor.onSubmitHandler, jsTruthy, hp]
  rw [h2]
  exact ⟨rfl, rfl, rfl⟩

/-- C23 on an example: the password `abc` with no confirmation is sent; so is
`abc` after a matching confirmation has been typed and deleted again. -/
theorem C23_password_sent_without_confirmation_witness :
    (EditDoctor.run [EditDoctor.Event.setPassword "abc", EditDoctor.Event.submit]).calls =
      [{ password := some "abc" }] ∧
    EditDoctor.run
        [EditDoctor.Event.setPassword "abc", EditDoctor.Event.setConfirmPassword "abc",
         EditDoctor.Event.setConfirmPassword "", EditDoctor.Event.submit] =
      { password := "abc", confirmPassword := "", passwordsMatch := true,
        calls := [{ password := some "abc" }] } :=
  ⟨(C23_password_sent_without_confirmation "abc" (by decide)).2.2, by decide⟩

/-! ## C30: `convertToDbFormat` -/

theorem pickerValue_split (y m d : Nat) (hm : 1 ≤ m ∧ m ≤ 12) (hd : 1 ≤ d ∧ d ≤ 31) :
    jsSplit '-' (pickerValue y m d) = [pad4 y, pad2 m, pad2 d] := by
  obtain ⟨hm1, -⟩ := pad2_month m hm.1 (by omega)
  obtain ⟨hd1, -⟩ := pad2_month d hd.1 hd.2
  simp only [jsSplit, pickerValue, String.data_append]
  rw [List.append_assoc, List.append_assoc, List.append_assoc, List.singleton_append,
    jsSplitChars_append_sep _ _ _ (pad4_no_dash y), List.singleton_append,
    jsSplitChars_append_sep _ _ _ hm1, jsSplitChars_no_sep _ _ hd1]
  rfl

theorem jsPadStart2_pad2 (n : Nat) (h : n ≤ 31) : jsPadStart2 (pad2 n) = pad2 n := by
  interval_cases n <;> decide

theorem pad2_head (n : Nat) (h1 : 1 ≤ n) (h2 : n < 10) :
    (pad2 n).data = '0' :: (toString n).data ∧ (toString n).data.head? ≠ some '0' ∧
      (toString n).data.length = 1 := by
  interval_cases n <;> decide

theorem convertToDbFormat_pickerValue (y m d : Nat) (hm : 1 ≤ m ∧ m ≤ 12)
    (hd : 1 ≤ d ∧ d ≤ 31) :
    AllAppointments.convertToDbFormat (pickerValue y m d) =
      some (pad2 d ++ "_" ++ pad2 m ++ "_" ++ pad4 y) := by
  simp only [AllAppointments.convertToDbFormat, jsTruthy_pickerValue, Bool.not_true,
    Bool.false_eq_true, if_false, pickerValue_split y m d hm hd,
    jsPadStart2_pad2 d hd.2, jsPadStart2_pad2 m (by omega)]

theorem pad2_prefix_ne (n : Nat) (h1 : 1 ≤ n) (h2 : n < 10) (xs ys : List Char) :
    (pad2 n).data ++ xs ≠ (toString n).data ++ ys := by
  obtain ⟨e, hne, hlen⟩ := pad2_head n h1 h2
  rw [e]
  match hds : (toString n).data, hlen with
  | [c], _ =>
    rw [hds] at hne
    intro h
    have hc : '0' = c := by
      have := congrArg List.head? h
      simpa using this
    exact hne (by simp [← hc])

/-- C30, the failing inputs: `convertToDbFormat` returns `null` for the empty
input, but for a date-picker value it pads day and month to two digits, so for
every date whose day or month is below 10 its result differs from the key the
date filter compares with `slotDate`; the two agree only when day and month both
have two digits. -/
theorem C30_convert_pads_day_and_month (y m d : Nat) (hm : 1 ≤ m ∧ m ≤ 12)
    (hd : 1 ≤ d ∧ d ≤ 31) :
    AllAppointments.convertToDbFormat "" = none ∧
    AllAppointments.convertToDbFormat (pickerValue y m d) =
      some (pad2 d ++ "_" ++ pad2 m ++ "_" ++ pad4 y) ∧
    ((d < 10 ∨ m < 10) →
      AllAppointments.convertToDbFormat (pickerValue y m d) ≠
        AllAppointments.searchDate (pickerValue y m d)) ∧
    ((10 ≤ d ∧ 10 ≤ m) →
      AllAppointments.convertToDbFormat (pickerValue y m d) =
        AllAppointments.searchDate (pickerValue y m d)) := by
  have hc := convertToDbFormat_pickerValue y m d hm hd
  have hs := searchDate_pickerValue y m d hm hd
  refine ⟨by decide, hc, ?_, ?_⟩
  · intro hlt heq
    rw [hc, hs] at heq
    have hdata := congrArg String.data (Option.some.inj heq)
    simp only [String.data_append, List.append_assoc] at hdata
    by_cases hd10 : d < 10
    · exact pad2_prefix_ne d hd.1 hd10 _ _ hdata
    · have hm10 : m < 10 := by omega
      have e : pad2 d = toString d := by
        unfold pad2
        rw [if_neg hd10]
      rw [e] at hdata
      have h2 := List.append_cancel_left (List.append_cancel_left hdata)
      exact pad2_prefix_ne m hm.1 hm10 _ _ h2
  · intro h
    have e1 : pad2 d = toString d := by
      unfold pad2
      rw [if_neg (by omega)]
    have e2 : pad2 m = toString m := by
      unfold pad2
      rw [if_neg (by omega)]
    rw [hc, hs, e1, e2]

/-- C30 on the example of the specification: for `2025-07-03` the helper gives
`03_07_2025`, the date filter compares with `3_7_2025`. -/
theorem C30_convert_pads_day_and_month_witness :
    AllAppointments.convertToDbFormat "2025-07-03" = some "03_07_2025" ∧
    AllAppointments.searchDate "2025-07-03" = some "3_7_2025" ∧
    AllAppointments.convertToDbFormat (pickerValue 2025 7 3) ≠
      AllAppointments.searchDate (pickerValue 2025 7 3) :=
  ⟨by decide, by decide,
    (C30_convert_pads_day_and_month 2025 7 3 (by decide) (by decide)).2.2.1 (by decide)⟩

/-! ## C28: the options of the specialty dropdown -/

theorem jsUnique_fold (l acc : List String) (h : acc.Nodup) :
    (l.foldl (fun acc x => if acc.contains x then acc else acc ++ [x]) acc).Nodup ∧
    ∀ x, x ∈ l.foldl (fun acc x => if acc.contains x then acc else acc ++ [x]) acc ↔
      x ∈ acc ∨ x ∈ l := by
  induction l generalizing acc with
  | nil => exact ⟨h, by simp⟩
  | cons y l ih =>
    rw [List.foldl_cons]
    by_cases hy : y ∈ acc
    · have hc : acc.contains y = true := by simpa using hy
      rw [if_pos hc]
      refine ⟨(ih acc h).1, fun x => ?_⟩
      rw [(ih acc h).2 x, List.mem_cons]
      constructor
      · rintro (hx | hx)
        · exact Or.inl hx
        · exact Or.inr (Or.inr hx)
      · rintro (hx | hx | hx)
        · exact Or.inl hx
        · exact Or.inl (hx ▸ hy)
        · exact Or.inr hx
    · have hc : ¬ acc.contains y = true := by simpa using hy
      rw [if_neg hc]
      have hnd : (acc ++ [y]).Nodup := by
        rw [List.nodup_append]
        exact ⟨h, List.nodup_singleton y, by
          intro a ha hb
          rw [List.mem_singleton] at hb
          exact hy (hb ▸ ha)⟩
      refine ⟨(ih _ hnd).1, fun x => ?_⟩
      rw [(ih _ hnd).2 x, List.mem_append, List.mem_singleton, List.mem_cons]
      tauto

theorem jsUnique_nodup (l : List String) : (jsUnique l).Nodup :=
  (jsUnique_fold l [] List.nodup_nil).1

theorem mem_jsUnique (l : List String) (x : String) : x ∈ jsUnique l ↔ x ∈ l := by
  rw [jsUnique, (jsUnique_fold l [] List.nodup_nil).2 x]
  simp

theorem mem_allSpecialties (appointments : List Appointment) (s : String) :
    s ∈ AllAppointments.allSpecialties appointments ↔
      s ≠ "" ∧ ∃ a ∈ appointments, AllAppointments.docSpecialty a = s := by
  rw [AllAppointments.allSpecialties, mem_jsUnique, List.mem_filter, List.mem_map]
  constructor
  · rintro ⟨⟨a, ha, has⟩, ht⟩
    exact ⟨by simpa [jsTruthy] using ht, a, (List.mem_filter.1 ha).1, has⟩
  · rintro ⟨hs, a, ha, has⟩
    refine ⟨⟨a, List.mem_filter.2 ⟨ha, ?_⟩, has⟩, jsTruthy_of_ne s hs⟩
    exact docSpecialty_ne_empty a (by rw [has]; exact hs)

/-- C28: for a non-empty collection the specialty options of the dropdown are
pairwise distinct and none is the empty string; selecting any of them with no
date filter displays at least one row; and every appointment with a non-empty
specialty is displayed under exactly one option. -/
theorem C28_specialty_options (appointments cache : List Appointment) (prev : List String)
    (hne : appointments ≠ []) :
    (AllAppointments.uniqueSpecialtiesEffect appointments prev).Nodup ∧
    "" ∉ AllAppointments.uniqueSpecialtiesEffect appointments prev ∧
    (∀ s ∈ AllAppointments.uniqueSpecialtiesEffect appointments prev,
      ∃ rows, AllAppointments.displayedRows appointments
            (AllAppointments.filterEffect appointments "" s cache) "" s = some rows ∧
        0 < rows.length) ∧
    (∀ a ∈ appointments, AllAppointments.docSpecialty a ≠ "" →
      ∃! s, s ∈ AllAppointments.uniqueSpecialtiesEffect appointments prev ∧
        ∃ rows, AllAppointments.displayedRows appointments
              (AllAppointments.filterEffect appointments "" s cache) "" s = some rows ∧
          a ∈ rows) := by
  have hlen : appointments.length > 0 := List.length_pos.2 hne
  have he : AllAppointments.uniqueSpecialtiesEffect appointments prev =
      AllAppointments.allSpecialties appointments := by
    rw [AllAppointments.uniqueSpecialtiesEffect, if_pos hlen]
  rw [he]
  refine ⟨jsUnique_nodup _, fun h => ((mem_allSpecialties _ _).1 h).1 rfl, ?_, ?_⟩
  · intro s hs
    obtain ⟨hs0, a, ha, has⟩ := (mem_allSpecialties _ _).1 hs
    exact ⟨_, specialtyRows_eq appointments cache s hs0 hne,
      List.length_pos_of_mem (List.mem_filter.2 ⟨ha, by simp [has]⟩)⟩
  · intro a ha hsp
    refine ⟨AllAppointments.docSpecialty a,
      ⟨(mem_allSpecialties _ _).2 ⟨hsp, a, ha, rfl⟩, _,
        specialtyRows_eq appointments cache _ hsp hne, ?_⟩, ?_⟩
    · exact List.mem_filter.2 ⟨ha, by simp⟩
    · rintro s ⟨hs, rows, hrows, hrow⟩
      have hs0 := ((mem_allSpecialties _ _).1 hs).1
      rw [specialtyRows_eq appointments cache s hs0 hne] at hrows
      rw [← Option.some.inj hrows] at hrow
      have := (List.mem_filter.1 hrow).2
      exact (by simpa using this : AllAppointments.docSpecialty a = s).symm

/-- C28 on the five appointments: the options are `Cardiologist`,
`Dermatologist`, `ENT` and `Surgeon`, each once. -/
theorem C28_specialty_options_witness :
    (AllAppointments.uniqueSpecialtiesEffect fiveBySpecialty []).Nodup ∧
    AllAppointments.uniqueSpecialtiesEffect fiveBySpecialty [] =
      ["Cardiologist", "Dermatologist", "ENT", "Surgeon"] :=
  ⟨(C28_specialty_options fiveBySpecialty [] [] (by decide)).1, by decide⟩

/-! ## C29: the rows of All Appointments after a sequence of events -/

theorem applyDateFilter_sublist (dateFilter : String) (l : List Appointment) :
    List.Sublist (AllAppointments.applyDateFilter dateFilter l) l := by
  unfold AllAppointments.applyDateFilter
  split_ifs
  · cases AllAppointments.searchDate dateFilter with
    | none => exact List.Sublist.refl l
    | some key => exact List.filter_sublist l
  · exact List.Sublist.refl l

theorem applySpecialtyFilter_sublist (specialtyFilter : String) (l : List Appointment) :
    List.Sublist (AllAppointments.applySpecialtyFilter specialtyFilter l) l := by
  unfold AllAppointments.applySpecialtyFilter
  split_ifs
  · exact List.filter_sublist l
  · exact List.Sublist.refl l

theorem runEffect_synced (v : AllAppointments.View) (h : v.appointments ≠ []) :
    (AllAppointments.View.runEffect v).appointments = v.appointments ∧
    (AllAppointments.View.runEffect v).Synced := by
  have hlen : v.appointments.length ≠ 0 := fun e => h (List.length_eq_zero.1 e)
  refine ⟨rfl, ?_⟩
  simp only [AllAppointments.View.Synced, AllAppointments.View.runEffect,
    AllAppointments.filterEffect, if_neg hlen]

theorem step_synced (v : AllAppointments.View) (e : AllAppointments.Event)
    (ih : v.appointments ≠ [] → v.Synced)
    (h : (AllAppointments.View.step v e).appointments ≠ []) :
    (AllAppointments.View.step v e).Synced := by
  cases e with
  | refresh appointments =>
    exact (runEffect_synced { v with appointments := appointments } h).2
  | setDateFilter value => exact (runEffect_synced { v with dateFilter := value } h).2
  | clearDate =>
    by_cases hd : jsTruthy v.dateFilter = true
    · have e : AllAppointments.View.step v AllAppointments.Event.clearDate =
          AllAppointments.View.runEffect { v with dateFilter := "", filteredAppointments := [] } := by
        simp [AllAppointments.View.step, hd]
      rw [e] at h ⊢
      exact (runEffect_synced { v with dateFilter := "", filteredAppointments := [] } h).2
    · have e : AllAppointments.View.step v AllAppointments.Event.clearDate = v := by
        simp [AllAppointments.View.step, hd]
      rw [e] at h ⊢
      exact ih h
  | setSpecialtyFilter value =>
    exact (runEffect_synced { v with specialtyFilter := value } h).2
  | clearSpecialty =>
    by_cases hd : jsTruthy v.specialtyFilter = true
    · have e : AllAppointments.View.step v AllAppointments.Event.clearSpecialty =
          AllAppointments.View.runEffect { v with specialtyFilter := "" } := by
        simp [AllAppointments.View.step, hd]
      rw [e] at h ⊢
      exact (runEffect_synced { v with specialtyFilter := "" } h).2
    · have e : AllAppointments.View.step v AllAppointments.Event.clearSpecialty = v := by
        simp [AllAppointments.View.step, hd]
      rw [e] at h ⊢
      exact ih h

theorem run_synced (es : List AllAppointments.Event)
    (h : (AllAppointments.View.run es).appointments ≠ []) :
    (AllAppointments.View.run es).Synced := by
  induction es using List.reverseRecOn with
  | nil => exact absurd rfl h
  | append_singleton l e ih =>
    rw [AllAppointments.View.run, List.foldl_append, List.foldl_cons, List.foldl_nil] at h ⊢
    exact step_synced _ e ih h

theorem rows_of_synced (v : AllAppointments.View) (hs : v.Synced) :
    v.rows =
      AllAppointments.renderRows
        (AllAppointments.applySpecialtyFilter v.specialtyFilter
          (AllAppointments.applyDateFilter v.dateFilter v.appointments)) := by
  unfold AllAppointments.View.rows AllAppointments.displayedRows
  congr 1
  split_ifs with hact
  · exact hs
  · have h1 : jsTruthy v.dateFilter = false := by
      cases hd : jsTruthy v.dateFilter
      · rfl
      · simp [hd] at hact
    have h2 : jsTruthy v.specialtyFilter = false := by
      cases hd : jsTruthy v.specialtyFilter
      · rfl
      · simp [hd] at hact
    simp [AllAppointments.applySpecialtyFilter, AllAppointments.applyDateFilter, h1, h2]

theorem renderRows_eq_some (rows shown : List Appointment)
    (h : AllAppointments.renderRows rows = some shown) : shown = rows := by
  unfold AllAppointments.renderRows at h
  split_ifs at h
  exact (Option.some.inj h).symm

theorem refresh_empty (v : AllAppointments.View) :
    AllAppointments.View.step v (AllAppointments.Event.refresh []) =
      { v with appointments := [] } := by
  simp [AllAppointments.View.step, AllAppointments.View.runEffect, AllAppointments.filterEffect]

/-- C29 (as amended): after every sequence of collection refreshes and filter
changes that leaves a non-empty collection, the rows displayed, when the rows
render, are exactly the appointments of the current collection that pass the
active filters (the collection passed through the date filter and the specialty
filter, each the identity when not active), and they are a sub-list of the
current collection.  A refresh that delivers the empty collection leaves the
cache of filtered results as it was before that refresh, and while a date or
specialty filter is active the rows displayed are that cache. -/
theorem C29_rows_follow_nonempty_collection (es : List AllAppointments.Event) :
    ((AllAppointments.View.run es).appointments ≠ [] →
      (AllAppointments.View.run es).rows =
        AllAppointments.renderRows
          (AllAppointments.applySpecialtyFilter (AllAppointments.View.run es).specialtyFilter
            (AllAppointments.applyDateFilter (AllAppointments.View.run es).dateFilter
              (AllAppointments.View.run es).appointments)) ∧
      ∀ rows, (AllAppointments.View.run es).rows = some rows →
        rows =
          AllAppointments.applySpecialtyFilter (AllAppointments.View.run es).specialtyFilter
            (AllAppointments.applyDateFilter (AllAppointments.View.run es).dateFilter
              (AllAppointments.View.run es).appointments) ∧
        List.Sublist rows (AllAppointments.View.run es).appointments) ∧
    (AllAppointments.View.run (es ++ [AllAppointments.Event.refresh []])).appointments = [] ∧
    (AllAppointments.View.run (es ++ [AllAppointments.Event.refresh []])).filteredAppointments =
      (AllAppointments.View.run es).filteredAppointments ∧
    ((jsTruthy (AllAppointments.View.run es).dateFilter ||
        jsTruthy (AllAppointments.View.run es).specialtyFilter) = true →
      (AllAppointments.View.run (es ++ [AllAppointments.Event.refresh []])).rows =
        AllAppointments.renderRows (AllAppointments.View.run es).filteredAppointments) := by
  have hrun : AllAppointments.View.run (es ++ [AllAppointments.Event.refresh []]) =
      { AllAppointments.View.run es with appointments := [] } := by
    rw [AllAppointments.View.run, List.foldl_append, List.foldl_cons, List.foldl_nil]
    exact refresh_empty _
  refine ⟨?_, by rw [hrun], by rw [hrun], ?_⟩
  · intro h
    have hrows := rows_of_synced _ (run_synced es h)
    refine ⟨hrows, ?_⟩
    intro rows hr
    rw [hrows] at hr
    have e := renderRows_eq_some _ _ hr
    rw [e]
    exact ⟨rfl, (applySpecialtyFilter_sublist _ _).trans (applyDateFilter_sublist _ _)⟩
  · intro hact
    rw [hrun]
    simp only [AllAppointments.View.rows, AllAppointments.displayedRows, hact, if_true]

/-- C29 on an example: the five appointments arrive, `Cardiologist` is selected,
then the date filter is set and cleared again: the two cardiology rows are
displayed. -/
theorem C29_rows_follow_nonempty_collection_witness :
    (AllAppointments.View.run
      [AllAppointments.Event.refresh fiveBySpecialty,
       AllAppointments.Event.setSpecialtyFilter "Cardiologist",
       AllAppointments.Event.setDateFilter "2025-07-03",
       AllAppointments.Event.clearDate]).rows =
      some
        [ { _id := "c1", docData := some { speciality := some "Cardiologist" } },
          { _id := "c2", docData := some { speciality := some "Cardiologist" } } ] ∧
    List.Sublist
      [ { _id := "c1", docData := some { speciality := some "Cardiologist" } },
        { _id := "c2", docData := some { speciality := some "Cardiologist" } } ]
      (AllAppointments.View.run
        [AllAppointments.Event.refresh fiveBySpecialty,
         AllAppointments.Event.setSpecialtyFilter "Cardiologist",
         AllAppointments.Event.setDateFilter "2025-07-03",
         AllAppointments.Event.clearDate]).appointments :=
  ⟨by decide,
    (((C29_rows_follow_nonempty_collection
      [AllAppointments.Event.refresh fiveBySpecialty,
       AllAppointments.Event.setSpecialtyFilter "Cardiologist",
       AllAppointments.Event.setDateFilter "2025-07-03",
       AllAppointments.Event.clearDate]).1 (by decide)).2 _ (by decide)).2⟩

/-- C29 as stated fails when the collection becomes empty: after the five
appointments have arrived, `Cardiologist` has been selected and a refresh has
delivered the empty collection, the two cardiology rows are still displayed,
which is no sub-list of the empty collection. -/
theorem C29_rows_outlive_emptied_collection :
    (AllAppointments.View.run
      [AllAppointments.Event.refresh fiveBySpecialty,
       AllAppointments.Event.setSpecialtyFilter "Cardiologist",
       AllAppointments.Event.refresh []]).appointments = [] ∧
    (AllAppointments.View.run
      [AllAppointments.Event.refresh fiveBySpecialty,
       AllAppointments.Event.setSpecialtyFilter "Cardiologist",
       AllAppointments.Event.refresh []]).rows =
      some
        [ { _id := "c1", docData := some { speciality := some "Cardiologist" } },
          { _id := "c2", docData := some { speciality := some "Cardiologist" } } ] ∧
    ¬ List.Sublist
      ([ { _id := "c1", docData := some { speciality := some "Cardiologist" } },
         { _id := "c2", docData := some { speciality := some "Cardiologist" } } ] :
        List Appointment)
      (AllAppointments.View.run
        [AllAppointments.Event.refresh fiveBySpecialty,
         AllAppointments.Event.setSpecialtyFilter "Cardiologist",
         AllAppointments.Event.refresh []]).appointments := by
  decide

/-! ## C26: the upcoming and the next appointment of the doctor Dashboard -/

theorem digitChar_spec (k : Nat) (hk : k < 10) :
    (Nat.digitChar k).isDigit = true ∧ (Nat.digitChar k).toNat - '0'.toNat = k := by
  interval_cases k <;> decide

theorem toDigitsCore_all_digits (fuel n : Nat) (ds : List Char)
    (h : ∀ c ∈ ds, c.isDigit = true) :
    ∀ c ∈ Nat.toDigitsCore 10 fuel n ds, c.isDigit = true := by
  induction fuel generalizing n ds with
  | zero => simpa [Nat.toDigitsCore] using h
  | succ f ih =>
    have hd : ∀ c ∈ Nat.digitChar (n % 10) :: ds, c.isDigit = true := by
      intro c hc
      rcases List.mem_cons.1 hc with e | e
      · rw [e]
        exact (digitChar_spec (n % 10) (Nat.mod_lt _ (by decide))).1
      · exact h c e
    simp only [Nat.toDigitsCore]
    split_ifs
    · exact hd
    · exact ih _ _ hd

theorem toDigitsCore_value (fuel n : Nat) (ds : List Char) (hf : n < fuel) :
    (Nat.toDigitsCore 10 fuel n ds).foldl (fun acc c => 10 * acc + (c.toNat - '0'.toNat)) 0 =
      ds.foldl (fun acc c => 10 * acc + (c.toNat - '0'.toNat)) n := by
  induction fuel generalizing n ds with
  | zero => omega
  | succ f ih =>
    have hd := (digitChar_spec (n % 10) (Nat.mod_lt _ (by decide))).2
    simp only [Nat.toDigitsCore]
    split_ifs with h0
    · rw [List.foldl_cons, hd]
      have : 10 * 0 + n % 10 = n := by omega
      rw [this]
    · rw [ih (n / 10) _ (by omega), List.foldl_cons, hd]
      have : 10 * (n / 10) + n % 10 = n := by omega
      rw [this]

theorem toDigitsCore_ne_nil (fuel n : Nat) (ds : List Char) (h : ds ≠ [] ∨ 0 < fuel) :
    Nat.toDigitsCore 10 fuel n ds ≠ [] := by
  induction fuel generalizing n ds with
  | zero =>
    rcases h with h | h
    · simpa [Nat.toDigitsCore] using h
    · omega
  | succ f ih =>
    simp only [Nat.toDigitsCore]
    split_ifs
    · simp
    · exact ih _ _ (Or.inl (by simp))

theorem toString_data (n : Nat) : (toString n).data = Nat.toDigitsCore 10 (n + 1) n [] := by
  show (Nat.repr n).data = _
  simp only [Nat.repr, Nat.toDigits, List.asString]

theorem toString_all_digits (n : Nat) : ∀ c ∈ (toString n).data, c.isDigit = true := by
  rw [toString_data]
  exact toDigitsCore_all_digits _ _ _ (by simp)

theorem toString_no_char (n : Nat) (c : Char) (hc : c.isDigit = false) :
    c ∉ (toString n).data := fun h => by
  rw [toString_all_digits n c h] at hc
  exact absurd hc (by decide)

theorem isDigit_not_whitespace (c : Char) (h : c.isDigit = true) : isJsWhiteSpace c = false := by
  have hc : c = Char.ofNat c.toNat := (Char.ofNat_toNat c).symm
  have h2 : 48 ≤ c.toNat ∧ c.toNat ≤ 57 := by
    simp only [Char.isDigit, Bool.and_eq_true, decide_eq_true_eq] at h
    exact ⟨h.1, h.2⟩
  generalize c.toNat = n at h2 hc
  subst hc
  obtain ⟨h1, h2⟩ := h2
  interval_cases n <;> decide

theorem dropWhile_whitespace_digits (l : List Char) (h : ∀ c ∈ l, c.isDigit = true) :
    l.dropWhile isJsWhiteSpace = l := by
  cases l with
  | nil => rfl
  | cons c cs =>
    rw [List.dropWhile_cons, isDigit_not_whitespace c (h c (by simp))]
    rfl

theorem jsTrimChars_digits (l : List Char) (h : ∀ c ∈ l, c.isDigit = true) :
    jsTrimChars l = l := by
  unfold jsTrimChars
  rw [dropWhile_whitespace_digits l h,
    dropWhile_whitespace_digits l.reverse (fun c hc => h c (List.mem_reverse.1 hc)),
    List.reverse_reverse]

theorem jsNumber_toString (n : Nat) : jsNumber (toString n) = some (n : Int) := by
  have hall := toString_all_digits n
  have hne : (toString n).data ≠ [] := by
    rw [toString_data]
    exact toDigitsCore_ne_nil _ _ _ (Or.inr (by omega))
  have hval : digitsValue (toString n).data = n := by
    rw [toString_data]
    exact toDigitsCore_value _ _ _ (by omega)
  unfold jsNumber
  simp only [jsTrimChars_digits _ hall]
  rw [if_neg (by simpa using hne), if_pos (by simpa using hall), hval]

theorem slotDateParts_minimalKey (y m d : Nat) :
    DoctorDashboard.slotDateParts (minimalKey y m d) = some ((d : Int), (m : Int), (y : Int)) := by
  have hsplit : jsSplit '_' (minimalKey y m d) = [toString d, toString m, toString y] := by
    simp only [jsSplit, minimalKey, String.data_append]
    rw [List.append_assoc, List.append_assoc, List.append_assoc, List.singleton_append,
      jsSplitChars_append_sep _ _ _ (toString_no_char d '_' (by decide)), List.singleton_append,
      jsSplitChars_append_sep _ _ _ (toString_no_char m '_' (by decide)),
      jsSplitChars_no_sep _ _ (toString_no_char y '_' (by decide))]
    rfl
  simp only [DoctorDashboard.slotDateParts, hsplit, List.map_cons, List.map_nil,
    jsNumber_toString]

theorem slotTimeParts_slotTimeString (h mi : Nat) (pm : Bool) (h1 : 1 ≤ h) (h2 : h ≤ 12)
    (hmi : mi < 60) :
    DoctorDashboard.slotTimeParts (slotTimeString h mi pm) =
      some ((hour24 h pm : Int), (mi : Int)) := by
  have key : ∀ pm : Bool, ∀ h ∈ List.range 13, ∀ mi ∈ List.range 60, 1 ≤ h →
      DoctorDashboard.slotTimeParts (slotTimeString h mi pm) =
        some ((hour24 h pm : Int), (mi : Int)) := by
    intro pm
    cases pm <;> decide
  exact key pm h (List.mem_range.2 (by omega)) mi (List.mem_range.2 hmi) h1

theorem jsLocalDateTime_civil (tz : Int) (y m d : Nat) (hours minutes : Int) (hm1 : 1 ≤ m)
    (hm2 : m ≤ 12) (hy : 100 ≤ y) :
    jsLocalDateTime tz y ((m : Int) - 1) d hours minutes =
      startOfLocalDay tz (daysFromCivil y m d) + hours * 3600000 + minutes * 60000 := by
  have e1 : ((m : Int) - 1) / 12 = 0 := by omega
  have e2 : ((m : Int) - 1) % 12 + 1 = m := by omega
  have e3 : ¬ ((0 : Int) ≤ (y : Int) ∧ (y : Int) ≤ 99) := by omega
  have e4 : daysFromCivil y m 1 + ((d : Int) - 1) = daysFromCivil y m d := by
    simp only [daysFromCivil]
    omega
  simp only [jsLocalDateTime, e1, e2, if_neg e3, add_zero, e4]

theorem slotInstant_wellFormed (tz : Int) (app : Appointment) (d m y h mi : Nat) (pm : Bool)
    (hm1 : 1 ≤ m) (hm2 : m ≤ 12) (hy : 1000 ≤ y) (hh1 : 1 ≤ h) (hh2 : h ≤ 12) (hmi : mi < 60)
    (hdate : app.slotDate = minimalKey y m d) (htime : app.slotTime = slotTimeString h mi pm) :
    DoctorDashboard.slotInstant tz app = some (slotMoment tz d m y h mi pm) := by
  simp only [DoctorDashboard.slotInstant, hdate, htime, slotDateParts_minimalKey,
    slotTimeParts_slotTimeString h mi pm hh1 hh2 hmi,
    jsLocalDateTime_civil tz y m d _ _ hm1 hm2 (by omega), slotMoment]
  congr 1
  ring

theorem mem_upcomingAppointments (tz : Int) (latest : List Appointment) (a : Appointment) :
    a ∈ DoctorDashboard.upcomingAppointments tz latest ↔ a ∈ latest ∧ a.cancelled = false := by
  rw [DoctorDashboard.upcomingAppointments, (jsSort_perm _ _).mem_iff, List.mem_filter]
  simp

theorem upcomingAppointments_sorted (tz : Int) (latest : List Appointment)
    (hv : ∀ a ∈ latest, ∃ t, DoctorDashboard.slotInstant tz a = some t) :
    (DoctorDashboard.upcomingAppointments tz latest).Pairwise
      (fun a b => (DoctorDashboard.slotInstant tz a).getD 0 ≤
        (DoctorDashboard.slotInstant tz b).getD 0) := by
  have htot : IsTotal Appointment (fun a b => (DoctorDashboard.slotInstant tz a).getD 0 ≤
      (DoctorDashboard.slotInstant tz b).getD 0) := ⟨fun a b => le_total _ _⟩
  have htr : IsTrans Appointment (fun a b => (DoctorDashboard.slotInstant tz a).getD 0 ≤
      (DoctorDashboard.slotInstant tz b).getD 0) := ⟨fun a b c h1 h2 => le_trans h1 h2⟩
  have hs := @List.sorted_insertionSort Appointment
    (fun a b => (DoctorDashboard.slotInstant tz a).getD 0 ≤
      (DoctorDashboard.slotInstant tz b).getD 0) _ htot htr
    (latest.filter (fun app => !app.cancelled))
  have hc := insertionSort_congr
    (fun a b =>
      (match DoctorDashboard.compareSlots tz a b with
        | some c => decide (c ≤ 0)
        | none => true) = true)
    (fun a b => (DoctorDashboard.slotInstant tz a).getD 0 ≤
      (DoctorDashboard.slotInstant tz b).getD 0)
    (latest.filter (fun app => !app.cancelled))
    (by
      intro a ha b hb
      obtain ⟨ta, hta⟩ := hv a (List.mem_filter.1 ha).1
      obtain ⟨tb, htb⟩ := hv b (List.mem_filter.1 hb).1
      simp only [DoctorDashboard.compareSlots, hta, htb, Option.getD_some, decide_eq_true_eq]
      omega)
  unfold DoctorDashboard.upcomingAppointments jsSort
  rw [hc]
  exact hs

theorem nextPredicate_iff (tz now : Int) (a : Appointment) :
    (match DoctorDashboard.slotInstant tz a with
      | some t => decide (t > now)
      | none => false) = true ↔
    ∃ t, DoctorDashboard.slotInstant tz a = some t ∧ now < t := by
  cases h : DoctorDashboard.slotInstant tz a with
  | none => simp
  | some t => simp

theorem wellFormed_instant (tz : Int) (a : Appointment) (h : WellFormedSlot a) :
    ∃ t, DoctorDashboard.slotInstant tz a = some t := by
  obtain ⟨d, m, y, hh, mi, pm, -, -, hm1, hm2, hy, hh1, hh2, hmi, hdate, htime⟩ := h
  exact ⟨_, slotInstant_wellFormed tz a d m y hh mi pm hm1 hm2 hy hh1 hh2 hmi hdate htime⟩

/-- C26: in the doctor Dashboard, for a latest-appointments list whose slot dates
are `D_M_YYYY` and whose slot times are `h:mm AM|PM`, and for every current
instant: the instant the code builds for an appointment is its slot date at its
slot time, 12 AM being hour 0, 12 PM hour 12 and any other PM hour the hour plus
12; `upcomingAppointments` holds exactly the non-cancelled appointments, in
ascending order of that instant; `nextAppointment` is absent exactly when no
non-cancelled appointment lies strictly after the current instant, and otherwise
it is a non-cancelled appointment strictly after the current instant that is
not later than any other such appointment. -/
theorem C26_upcoming_and_next (tz now : Int) (latest : List Appointment)
    (hwf : ∀ a ∈ latest, WellFormedSlot a) :
    (∀ a ∈ latest, ∀ (d m y h mi : Nat) (pm : Bool), 1 ≤ m → m ≤ 12 → 1000 ≤ y → 1 ≤ h →
      h ≤ 12 → mi < 60 → a.slotDate = minimalKey y m d → a.slotTime = slotTimeString h mi pm →
      DoctorDashboard.slotInstant tz a = some (slotMoment tz d m y h mi pm)) ∧
    (∀ a ∈ latest, ∃ t, DoctorDashboard.slotInstant tz a = some t) ∧
    (DoctorDashboard.upcomingAppointments tz latest).Perm
      (latest.filter (fun a => !a.cancelled)) ∧
    (DoctorDashboard.upcomingAppointments tz latest).Pairwise
      (fun a b => ∀ ta tb, DoctorDashboard.slotInstant tz a = some ta →
        DoctorDashboard.slotInstant tz b = some tb → ta ≤ tb) ∧
    (DoctorDashboard.nextAppointment tz now latest = none ↔
      ∀ a ∈ latest, a.cancelled = false →
        ∀ t, DoctorDashboard.slotInstant tz a = some t → ¬ now < t) ∧
    (∀ a, DoctorDashboard.nextAppointment tz now latest = some a →
      a ∈ latest ∧ a.cancelled = false ∧
      ∃ t, DoctorDashboard.slotInstant tz a = some t ∧ now < t ∧
        ∀ b ∈ latest, b.cancelled = false →
          ∀ tb, DoctorDashboard.slotInstant tz b = some tb → now < tb → t ≤ tb) := by
  have hv : ∀ a ∈ latest, ∃ t, DoctorDashboard.slotInstant tz a = some t :=
    fun a ha => wellFormed_instant tz a (hwf a ha)
  have hsorted := upcomingAppointments_sorted tz latest hv
  refine ⟨?_, hv, jsSort_perm _ _, ?_, ?_, ?_⟩
  · intro a _ d m y h mi pm hm1 hm2 hy hh1 hh2 hmi hdate htime
    exact slotInstant_wellFormed tz a d m y h mi pm hm1 hm2 hy hh1 hh2 hmi hdate htime
  · refine hsorted.imp ?_
    intro a b hab ta tb hta htb
    rw [hta, htb] at hab
    exact hab
  · rw [DoctorDashboard.nextAppointment, List.find?_eq_none]
    constructor
    · intro h a ha hc t ht hlt
      exact h a ((mem_upcomingAppointments tz latest a).2 ⟨ha, hc⟩)
        ((nextPredicate_iff tz now a).2 ⟨t, ht, hlt⟩)
    · intro h a ha hp
      obtain ⟨hal, hc⟩ := (mem_upcomingAppointments tz latest a).1 ha
      obtain ⟨t, ht, hlt⟩ := (nextPredicate_iff tz now a).1 hp
      exact h a hal hc t ht hlt
  · intro a ha
    rw [DoctorDashboard.nextAppointment, List.find?_eq_some] at ha
    obtain ⟨hp, as, bs, hsplit, hbefore⟩ := ha
    obtain ⟨t, ht, hlt⟩ := (nextPredicate_iff tz now a).1 hp
    have hmem : a ∈ DoctorDashboard.upcomingAppointments tz latest := by
      rw [hsplit]
      simp
    obtain ⟨hal, hc⟩ := (mem_upcomingAppointments tz latest a).1 hmem
    refine ⟨hal, hc, t, ht, hlt, ?_⟩
    intro b hb hbc tb htb hltb
    have hbm : b ∈ DoctorDashboard.upcomingAppointments tz latest :=
      (mem_upcomingAppointments tz latest b).2 ⟨hb, hbc⟩
    rw [hsplit] at hbm hsorted
    rcases List.mem_append.1 hbm with hb1 | hb1
    · have hnp := hbefore b hb1
      have hpb := (nextPredicate_iff tz now b).2 ⟨tb, htb, hltb⟩
      rw [hpb] at hnp
      exact absurd hnp (by decide)
    · rcases List.mem_cons.1 hb1 with hb2 | hb2
      · rw [hb2, ht] at htb
        have : tb = t := (Option.some.inj htb).symm
        omega
      · have hle := List.rel_of_pairwise_cons (List.pairwise_append.1 hsorted).2.1 hb2
        rw [ht, htb] at hle
        exact hle

/-- C26 on an example, in the zone UTC+8 at 10:00 on 3 July 2025: of the four
sample appointments the three non-cancelled ones come out in the order 12:15 PM
and 1:00 PM of 3 July, then 12:30 AM of 4 July, and the next appointment is the
one at 12:15 PM. -/
theorem C26_upcoming_and_next_witness :
    (DoctorDashboard.upcomingAppointments 28800000 dashboardSample).Perm
      (dashboardSample.filter (fun a => !a.cancelled)) ∧
    (DoctorDashboard.upcomingAppointments 28800000 dashboardSample).map (·._id) =
      ["n3", "n2", "n1"] ∧
    (DoctorDashboard.nextAppointment 28800000 july3at2 dashboardSample).map (·._id) =
      some "n3" :=
  ⟨(C26_upcoming_and_next 28800000 july3at2 dashboardSample (by
      intro a ha
      simp only [dashboardSample, List.mem_cons, List.mem_singleton, List.not_mem_nil,
        or_false] at ha
      rcases ha with rfl | rfl | rfl | rfl
      · exact ⟨4, 7, 2025, 12, 30, false, by decide, by decide, by decide, by decide,
          by decide, by decide, by decide, by decide, by decide, by decide⟩
      · exact ⟨3, 7, 2025, 1, 0, true, by decide, by decide, by decide, by decide,
          by decide, by decide, by decide, by decide, by decide, by decide⟩
      · exact ⟨3, 7, 2025, 12, 15, true, by decide, by decide, by decide, by decide,
          by decide, by decide, by decide, by decide, by decide, by decide⟩
      · exact ⟨3, 7, 2025, 9, 0, false, by decide, by decide, by decide, by decide,
          by decide, by decide, by decide, by decide, by decide, by decide⟩)).2.2.1,
    by decide, by decide⟩

end Proofs

end Clinic
